import Mathlib

/-!
# Verification of the `pysleep` hypnogram report generator

A shallow embedding of `src/pysleep/hypnogram_report.py` together with
proofs of the specification's claims about it.

Conventions of the embedding:
* Python `datetime` values are represented by the number of seconds since
  `0001-01-01 00:00:00` (the minimum of Python's supported range); the
  supported range is bounded above by `maxSeconds`
  (= `9999-12-31 23:59:59`), and arithmetic that would leave the range
  models Python's `OverflowError` by returning `none`.
* Fallible code returns `Option`; `none` models an exception escaping.
* Python `dict`s (which preserve insertion order) are association lists.
-/

namespace Pysleep

/-! ## Decimal numeral rendering (model of Python `str`/f-string of ints) -/

/-- One decimal digit character. -/
def digitChar (d : Nat) : Char :=
  if d = 0 then '0' else if d = 1 then '1' else if d = 2 then '2'
  else if d = 3 then '3' else if d = 4 then '4' else if d = 5 then '5'
  else if d = 6 then '6' else if d = 7 then '7' else if d = 8 then '8'
  else '9'

/-- Numeric value of a digit character. -/
def digitVal (c : Char) : Nat := c.toNat - 48

/-- Whether a character is a decimal digit. -/
def isDigit (c : Char) : Bool := 48 ≤ c.toNat && c.toNat ≤ 57

/-- Decimal digits of `n`, most significant first, prepended to `acc`.
Structural on `fuel`; any `fuel > n` is enough (the number of digits of
`n` is at most `n + 1`). -/
def natDigitsAux (fuel : Nat) (n : Nat) (acc : List Char) : List Char :=
  match fuel with
  | 0 => acc
  | fuel + 1 =>
    if n < 10 then digitChar n :: acc
    else natDigitsAux fuel (n / 10) (digitChar (n % 10) :: acc)

/-- Decimal digits of `n`, most significant first. -/
def natDigits (n : Nat) : List Char := natDigitsAux (n + 1) n []

/-- Decimal rendering of a natural number (model of Python `str(n)`). -/
def natStr (n : Nat) : String := String.mk (natDigits n)

/-- Decimal rendering of an integer (model of Python `str(i)`). -/
def intStr (i : Int) : String :=
  if i < 0 then "-" ++ natStr i.natAbs else natStr i.natAbs

/-! ## Stage labels

The stage code constants live in `label.py`, which is not part of the
sources under verification; only their use via `STAGE_MAP` is.

Modelled from the spec: the stage label enumeration is "a fixed mapping
from integer code to display name" over codes `{WAKE, LIGHT, DEEP, REM}`;
the module docstrings describe the codes as the integers `0`-`3` in that
order. -/

def WAKE : Int := 0
def LIGHT : Int := 1
def DEEP : Int := 2
def REM : Int := 3

/-- Seconds per epoch (`EPOCH_DURATION`). -/
def EPOCH_DURATION : Nat := 30

/-- `STAGE_MAP.get(stage, f"Unknown({stage})")`: display name of a stage
code, with the unknown-code fallback. -/
def stageDisplay (code : Int) : String :=
  if code = WAKE then "Wake"
  else if code = LIGHT then "Light"
  else if code = DEEP then "Deep"
  else if code = REM then "REM"
  else "Unknown(" ++ intStr code ++ ")"

/-! ## `format_duration` -/

/-- `format_duration(seconds)`: verbose rendering such as `"1h 1m 5s"`,
omitting zero parts except that seconds are kept when hours and minutes
are both zero. -/
def format_duration (seconds : Nat) : String :=
  if seconds = 0 then "0s"
  else
    let hours := seconds / 3600
    let minutes := seconds % 3600 / 60
    let secs := seconds % 60
    let parts : List String :=
      (if hours > 0 then [natStr hours ++ "h"] else []) ++
      (if minutes > 0 then [natStr minutes ++ "m"] else []) ++
      (if secs > 0 ∨ (hours = 0 ∧ minutes = 0) then [natStr secs ++ "s"] else [])
    String.intercalate " " parts

/-! ## `extract_events_from_hypnogram` -/

/-- A stage event: start offset in epochs, display name, formatted duration. -/
structure StageEvent where
  start_epoch : Nat
  stage : String
  duration : String
deriving Repr, DecidableEq

/-- Run-length decomposition of a list: the groups produced by Python's
`itertools.groupby` paired with their lengths. -/
def runs : List Int → List (Int × Nat)
  | [] => []
  | a :: as =>
    match runs as with
    | [] => [(a, 1)]
    | (b, n) :: rest => if a = b then (a, n + 1) :: rest else (a, 1) :: (b, n) :: rest

/-- The event-building loop of `extract_events_from_hypnogram`: one event
per group, with a running `start_epoch` accumulator. -/
def eventsFromRuns (start : Nat) : List (Int × Nat) → List StageEvent
  | [] => []
  | (code, n) :: rest =>
    { start_epoch := start,
      stage := stageDisplay code,
      duration := format_duration (n * EPOCH_DURATION) } :: eventsFromRuns (start + n) rest

/-- `extract_events_from_hypnogram(hypnogram_data)`. -/
def extract_events_from_hypnogram (hypnogram_data : List Int) : List StageEvent :=
  eventsFromRuns 0 (runs hypnogram_data)

/-! ## `calculate_stage_summary` -/

/-- Per-stage summary entry: formatted duration and percentage string. -/
structure StageStat where
  duration : String
  percentage : String
deriving Repr, DecidableEq

/-- `stage_counts[name] = stage_counts.get(name, 0) + 1` on an insertion-
ordered dict: bump the count of `k`, appending a new entry when absent. -/
def bumpCount : List (String × Nat) → String → List (String × Nat)
  | [], k => [(k, 1)]
  | (k', n) :: rest, k =>
    if k' = k then (k', n + 1) :: rest else (k', n) :: bumpCount rest k

/-- The counting loop of `calculate_stage_summary`. -/
def stageCounts (hypnogram_data : List Int) : List (String × Nat) :=
  hypnogram_data.foldl (fun acc code => bumpCount acc (stageDisplay code)) []

/-- `f"{percentage:.1f}%"` for `percentage = (count / total) * 100`.
The Python source formats an IEEE double; the model rounds the exact
rational `count * 1000 / total` to the nearest integer number of tenths
(ties to even, matching round-half-even of the exact value). -/
def fmtPct (count total : Nat) : String :=
  let num := count * 1000
  let q := num / total
  let r := num % total
  let tenths :=
    if 2 * r < total then q
    else if 2 * r > total then q + 1
    else if q % 2 = 0 then q else q + 1
  natStr (tenths / 10) ++ "." ++ natStr (tenths % 10) ++ "%"

/-- `calculate_stage_summary(hypnogram_data)`. -/
def calculate_stage_summary (hypnogram_data : List Int) : List (String × StageStat) :=
  if hypnogram_data = [] then []
  else
    let total_epochs := hypnogram_data.length
    (stageCounts hypnogram_data).map fun p =>
      (p.1, { duration := format_duration (p.2 * EPOCH_DURATION),
              percentage := fmtPct p.2 total_epochs })

/-! ## The `datetime` model

A Python `datetime` is represented by its number of seconds since
`0001-01-01 00:00:00` (Python's `datetime.min`).  The proleptic Gregorian
day ordinal follows `datetime.date.toordinal`.  Values beyond
`9999-12-31 23:59:59` are unrepresentable; arithmetic reaching past that
bound models Python's `OverflowError` as `none`. -/

def isLeapYear (y : Nat) : Bool := y % 4 == 0 && (y % 100 != 0 || y % 400 == 0)

def daysInMonth (y m : Nat) : Nat :=
  if m = 2 then (if isLeapYear y then 29 else 28)
  else if m = 4 ∨ m = 6 ∨ m = 9 ∨ m = 11 then 30
  else 31

def daysBeforeMonth (y m : Nat) : Nat :=
  (List.range (m - 1)).foldl (fun a i => a + daysInMonth y (i + 1)) 0

def daysBeforeYear (y : Nat) : Nat :=
  (y - 1) * 365 + (y - 1) / 4 - (y - 1) / 100 + (y - 1) / 400

/-- Seconds since `0001-01-01 00:00:00` of the calendar timestamp
`y-m-d h:mi:s`. -/
def toSeconds (y m d h mi s : Nat) : Nat :=
  (daysBeforeYear y + daysBeforeMonth y m + (d - 1)) * 86400 + h * 3600 + mi * 60 + s

/-- Seconds value of `9999-12-31 23:59:59` (`datetime.max` at our
granularity); later instants are unrepresentable. -/
def maxSeconds : Nat := 315537897599

/-- `start_dt + timedelta(seconds=d)`, with Python's `OverflowError`
modelled as `none`. -/
def addSeconds (t d : Nat) : Option Nat :=
  if t + d ≤ maxSeconds then some (t + d) else none

/-! ## `parse_time` (model of `datetime.strptime(_, "%Y-%m-%d %H:%M:%S")`)

`strptime` matches `%Y` as exactly four digits and each of `%m %d %H %M %S`
as one or two digits (greedily), with the literal separators in between and
nothing left over; the `datetime` constructor then range-checks the fields.
Any failure raises `ValueError`, which `parse_time` catches, yielding
`None`. -/

/-- Read one or two digits, greedily. -/
def take2Digits : List Char → Option (Nat × List Char)
  | [] => none
  | [c] => if isDigit c then some (digitVal c, []) else none
  | c1 :: c2 :: rest =>
    if isDigit c1 then
      if isDigit c2 then some (digitVal c1 * 10 + digitVal c2, rest)
      else some (digitVal c1, c2 :: rest)
    else none

/-- Read exactly four digits. -/
def take4Digits : List Char → Option (Nat × List Char)
  | a :: b :: c :: d :: rest =>
    if isDigit a && isDigit b && isDigit c && isDigit d then
      some (digitVal a * 1000 + digitVal b * 100 + digitVal c * 10 + digitVal d, rest)
    else none
  | _ => none

/-- Consume an expected literal character. -/
def expectChar (c : Char) : List Char → Option (List Char)
  | [] => none
  | x :: rest => if x = c then some rest else none

/-- `parse_time(time_str)`: empty or malformed input yields `none`. -/
def parse_time (time_str : String) : Option Nat :=
  if time_str = "" then none
  else do
    let (y, r1) ← take4Digits time_str.data
    let r2 ← expectChar '-' r1
    let (m, r3) ← take2Digits r2
    let r4 ← expectChar '-' r3
    let (d, r5) ← take2Digits r4
    let r6 ← expectChar ' ' r5
    let (h, r7) ← take2Digits r6
    let r8 ← expectChar ':' r7
    let (mi, r9) ← take2Digits r8
    let r10 ← expectChar ':' r9
    let (s, r11) ← take2Digits r10
    if r11 = [] ∧ 1 ≤ y ∧ 1 ≤ m ∧ m ≤ 12 ∧ 1 ≤ d ∧ d ≤ daysInMonth y m
        ∧ h ≤ 23 ∧ mi ≤ 59 ∧ s ≤ 59 then
      some (toSeconds y m d h mi s)
    else none

/-! ## `format_time_range` and `calculate_end_time` -/

/-- Zero-padded two-digit rendering. -/
def pad2 (n : Nat) : String := if n < 10 then "0" ++ natStr n else natStr n

/-- `strftime('%I:%M %p')`: 12-hour clock with AM/PM. -/
def fmtClock (t : Nat) : String :=
  let hod := t % 86400 / 3600
  let mi := t % 3600 / 60
  let h12 := if hod % 12 = 0 then 12 else hod % 12
  pad2 h12 ++ ":" ++ pad2 mi ++ (if hod < 12 then " AM" else " PM")

/-- `format_time_range(start_dt, end_dt)`. -/
def format_time_range (start_dt end_dt : Nat) : String :=
  fmtClock start_dt ++ " - " ++ fmtClock end_dt

/-- `calculate_end_time(start_dt, num_epochs)`. -/
def calculate_end_time (start_dt : Nat) (num_epochs : Nat) : Option Nat :=
  addSeconds start_dt (num_epochs * EPOCH_DURATION)

/-! ## `group_events_by_hour` -/

/-- An hour bucket of the report. -/
structure HourGroup where
  hour_range : String
  stages : List (Nat × String × String)
deriving Repr, DecidableEq

/-- `enumerate(events, 1)` rendered as `[i, stage, duration]` triples. -/
def enumFrom {α : Type} : Nat → List α → List (Nat × α)
  | _, [] => []
  | i, x :: xs => (i, x) :: enumFrom (i + 1) xs

/-- The `[[i, event["stage"], event["duration"]] for i, event in
enumerate(events, 1)]` comprehension. -/
def enumStages (events : List StageEvent) : List (Nat × String × String) :=
  (enumFrom 1 events).map fun p => (p.1, p.2.stage, p.2.duration)

/-- The `while event_start_time >= next_hour` loop: flush the current
bucket when non-empty and advance to the next hour (the bucket's label was
fixed at its creation from the then-current `current_hour`/`next_hour`,
which are unchanged at flush time). -/
def advanceHour (fuel : Nat) (eventTime : Nat) (grouped : List HourGroup) (cur next : Nat)
    (stages : List (Nat × String × String)) :
    Option (List HourGroup × Nat × Nat × List (Nat × String × String)) :=
  match fuel with
  | 0 => none
  | fuel + 1 =>
    if eventTime ≥ next then
      let grouped' := if stages = [] then grouped
        else grouped ++ [⟨format_time_range cur next, stages⟩]
      if next + 3600 ≤ maxSeconds then
        advanceHour fuel eventTime grouped' next (next + 3600) []
      else none
    else some (grouped, cur, next, stages)

/-- The `for i, event in enumerate(events, 1)` loop of
`group_events_by_hour`, followed by the final flush. -/
def groupLoop (t : Nat) :
    List (Nat × StageEvent) → List HourGroup → Nat → Nat →
    List (Nat × String × String) → Option (List HourGroup)
  | [], grouped, cur, next, stages =>
    some (if stages = [] then grouped
      else grouped ++ [⟨format_time_range cur next, stages⟩])
  | (i, e) :: rest, grouped, cur, next, stages => do
    let et ← addSeconds t (e.start_epoch * EPOCH_DURATION)
    -- the loop advances at most once per 3600 seconds below `et`, so a
    -- fuel of `et + 1` can never be exhausted
    let (g', c', n', st') ← advanceHour (et + 1) et grouped cur next stages
    groupLoop t rest g' c' n' (st' ++ [(i, e.stage, e.duration)])

/-- `group_events_by_hour(events, start_dt)`. -/
def group_events_by_hour (events : List StageEvent) (start_dt : Option Nat) :
    Option (List HourGroup) :=
  match start_dt with
  | none => some [⟨"All Events", enumStages events⟩]
  | some t =>
    let cur := t - t % 3600
    if cur + 3600 ≤ maxSeconds then
      groupLoop t (enumFrom 1 events) [] cur (cur + 3600) []
    else none

/-! ## Report assembly -/

/-- The report dictionary (fixed key set, in insertion order:
`sleep_time`, `duration`, `sleep_stage_summary`, `sleep_stages_by_hour`). -/
structure Report where
  sleep_time : String
  duration : String
  sleep_stage_summary : List (String × List String)
  sleep_stages_by_hour : List HourGroup
deriving Repr, DecidableEq

/-- `create_stage_summary(summary)`: project each entry to
`[duration, percentage]`. -/
def create_stage_summary (summary : List (String × StageStat)) :
    List (String × List String) :=
  summary.map fun p => (p.1, [p.2.duration, p.2.percentage])

/-- `generate_basic_stage_report(hypnogram_data, events, summary)` (the
`events` argument is unused by the source's body). -/
def generate_basic_stage_report (hypnogram_data : List Int)
    (_events : List StageEvent) (summary : List (String × StageStat)) : Report :=
  { sleep_time := "",
    duration := format_duration (hypnogram_data.length * EPOCH_DURATION),
    sleep_stage_summary := create_stage_summary summary,
    sleep_stages_by_hour := [] }

/-- `add_time_grouping(report, events, start_time, end_time)`. -/
def add_time_grouping (report : Report) (events : List StageEvent)
    (start_time end_time : Option Nat) : Option Report :=
  let r1 := match start_time, end_time with
    | some s, some e => { report with sleep_time := format_time_range s e }
    | _, _ => report
  match start_time with
  | some t =>
    (group_events_by_hour events (some t)).map fun gs =>
      { r1 with sleep_stages_by_hour := gs }
  | none =>
    some { r1 with sleep_stages_by_hour := [⟨"All Events", enumStages events⟩] }

/-! ## JSON values (the Python object trees fed to `json.dumps`) -/

/-- A JSON value as produced and consumed by the report pipeline
(strings, ints, arrays, string-keyed objects in insertion order; the
report contains no floats, booleans or nulls). -/
inductive JVal where
  | jstr : String → JVal
  | jint : Int → JVal
  | jarr : List JVal → JVal
  | jobj : List (String × JVal) → JVal
deriving Repr

/-- First-match association lookup (`dict` keys are unique, so this is
`dict.get`). -/
def jlookup (k : String) : List (String × JVal) → Option JVal
  | [] => none
  | (k', v) :: rest => if k' = k then some v else jlookup k rest

/-! ## `json.dumps` (default separators, `ensure_ascii=True`) -/

/-- Hexadecimal digit (lowercase, as CPython's `json` emits). -/
def hexDigitChar (n : Nat) : Char :=
  if n < 10 then digitChar n
  else if n = 10 then 'a' else if n = 11 then 'b' else if n = 12 then 'c'
  else if n = 13 then 'd' else if n = 14 then 'e' else 'f'

/-- Four-digit hexadecimal rendering. -/
def hex4 (n : Nat) : String :=
  String.mk [hexDigitChar (n / 4096 % 16), hexDigitChar (n / 256 % 16),
    hexDigitChar (n / 16 % 16), hexDigitChar (n % 16)]

/-- JSON escaping of one character: the shorthand escapes, ASCII printable
characters verbatim, and `\uXXXX` (with surrogate pairs beyond the BMP)
for everything else. -/
def escChar (c : Char) : String :=
  if c = '"' then "\\\""
  else if c = '\\' then "\\\\"
  else if c = '\n' then "\\n"
  else if c = '\t' then "\\t"
  else if c = '\r' then "\\r"
  else if c = '\x08' then "\\b"
  else if c = '\x0c' then "\\f"
  else if 0x20 ≤ c.toNat ∧ c.toNat ≤ 0x7e then String.mk [c]
  else if c.toNat < 0x10000 then "\\u" ++ hex4 c.toNat
  else
    let v := c.toNat - 0x10000
    "\\u" ++ hex4 (0xd800 + v / 0x400) ++ "\\u" ++ hex4 (0xdc00 + v % 0x400)

/-- `json.dumps` of a string. -/
def dumpString (s : String) : String :=
  "\"" ++ String.join (s.data.map escChar) ++ "\""

/-- Separator-joined concatenation (`sep.join(parts)`). -/
def joinSep (sep : String) : List String → String
  | [] => ""
  | [x] => x
  | x :: y :: xs => x ++ sep ++ joinSep sep (y :: xs)

mutual

/-- `json.dumps(v)` with the default separators `", "` and `": "`. -/
def dumps : JVal → String
  | .jstr s => dumpString s
  | .jint i => intStr i
  | .jarr [] => "[]"
  | .jarr (v :: vs) => "[" ++ joinSep ", " (dumpsList (v :: vs)) ++ "]"
  | .jobj [] => "\x7b\x7d"
  | .jobj (m :: ms) => "\x7b" ++ joinSep ", " (dumpsMembers (m :: ms)) ++ "\x7d"

/-- Renderings of the elements of an array. -/
def dumpsList : List JVal → List String
  | [] => []
  | v :: vs => dumps v :: dumpsList vs

/-- Renderings of the members of an object. -/
def dumpsMembers : List (String × JVal) → List String
  | [] => []
  | (k, v) :: ms => (dumpString k ++ ": " ++ dumps v) :: dumpsMembers ms

end

/-! ## `format_json_compact` -/

/-- `"  " * indent`. -/
def spacesOf (indent : Nat) : String := String.join (List.replicate indent "  ")

/-- `"\n".join(lines)`. -/
def joinNL : List String → String := joinSep "\n"

/-- One line per element, `pre`-indented, comma after every element but
the last (the source's 3-element check selects between two arms whose
output coincides). -/
def linesWithCommas (pre : String) : List JVal → List String
  | [] => []
  | [v] => [pre ++ dumps v]
  | v :: w :: vs => (pre ++ dumps v ++ ",") :: linesWithCommas pre (w :: vs)

/-- What Python iteration over the value found under `"stages"` yields:
lists iterate their elements, strings their characters, dicts their keys;
ints are not iterable (`TypeError`). -/
def iterElems : JVal → Option (List JVal)
  | .jarr vs => some vs
  | .jstr s => some (s.data.map fun c => .jstr (String.mk [c]))
  | .jobj ms => some (ms.map fun p => .jstr p.1)
  | .jint _ => none

/-- The `sleep_stages_by_hour` branch of `format_value`: each hour group
expanded over its own lines.  A non-dict element has no `.get`
(`AttributeError`), modelled as `none`. -/
def hourGroupLines (spaces : String) : List JVal → Option (List String)
  | [] => some []
  | g :: gs =>
    match g with
    | .jobj fields => do
      let hr := (jlookup "hour_range" fields).getD (.jstr "")
      let sts ← iterElems ((jlookup "stages" fields).getD (.jarr []))
      let comma := if gs.isEmpty then "" else ","
      let tl ← hourGroupLines spaces gs
      pure ([spaces ++ "    \x7b",
             spaces ++ "      \"hour_range\": " ++ dumps hr ++ ",",
             spaces ++ "      \"stages\": ["] ++
            linesWithCommas (spaces ++ "        ") sts ++
            [spaces ++ "      ]",
             spaces ++ "    \x7d" ++ comma] ++ tl)
    | _ => none

mutual

/-- `format_value(obj, indent)`: pretty-printing with the two special
key cases.  Keys are interpolated into the line unescaped, as in the
source. -/
def formatValue : JVal → Nat → Option String
  | .jobj [], _ => some "\x7b\x7d"
  | .jobj (m :: ms), indent =>
    (formatItems indent (m :: ms)).map fun ls =>
      joinNL (("\x7b" :: ls) ++ [spacesOf indent ++ "\x7d"])
  | .jarr vs, _ => some (dumps (.jarr vs))
  | v, _ => some (dumps v)

/-- The `for i, (key, value) in enumerate(items)` loop over the members
of an object. -/
def formatItems (indent : Nat) : List (String × JVal) → Option (List String)
  | [] => some []
  | (key, value) :: rest => do
    let spaces := spacesOf indent
    let comma := if rest.isEmpty then "" else ","
    let head ←
      match value with
      | .jarr vs =>
        if key = "stages" ∧ vs.isEmpty = false then
          some ((spaces ++ "  \"" ++ key ++ "\": [") ::
            linesWithCommas (spaces ++ "    ") vs ++
            [spaces ++ "  ]" ++ comma])
        else if key = "sleep_stages_by_hour" then
          (hourGroupLines spaces vs).map fun gls =>
            (spaces ++ "  \"" ++ key ++ "\": [") :: gls ++
              [spaces ++ "  ]" ++ comma]
        else
          (formatValue (.jarr vs) (indent + 1)).map fun fv =>
            [spaces ++ "  \"" ++ key ++ "\": " ++ fv ++ comma]
      | .jobj ms' =>
        (formatValue (.jobj ms') (indent + 1)).map fun fv =>
          [spaces ++ "  \"" ++ key ++ "\": " ++ fv ++ comma]
      | v => some [spaces ++ "  \"" ++ key ++ "\": " ++ dumps v ++ comma]
    let tl ← formatItems indent rest
    pure (head ++ tl)

end

/-- `format_json_compact(report)`. -/
def format_json_compact (report : JVal) : Option String := formatValue report 0

/-! ## `generate_hypnogram_report` -/

/-- One hour group as a JSON value. -/
def groupToJVal (g : HourGroup) : JVal :=
  .jobj [("hour_range", .jstr g.hour_range),
         ("stages", .jarr (g.stages.map fun tr =>
            .jarr [.jint tr.1, .jstr tr.2.1, .jstr tr.2.2]))]

/-- The report dictionary as the JSON value handed to
`format_json_compact`. -/
def reportToJVal (r : Report) : JVal :=
  .jobj [("sleep_time", .jstr r.sleep_time),
         ("duration", .jstr r.duration),
         ("sleep_stage_summary",
          .jobj (r.sleep_stage_summary.map fun p => (p.1, .jarr (p.2.map .jstr)))),
         ("sleep_stages_by_hour",
          .jarr (r.sleep_stages_by_hour.map groupToJVal))]

/-- `generate_hypnogram_report(hypnogram_data, start_time, end_time,
compact)`: `Sum.inl` is the compact JSON string, `Sum.inr` the raw report
dictionary; `none` models an exception escaping to the caller. -/
def generate_hypnogram_report (hypnogram_data : List Int)
    (start_time : String := "") (end_time : String := "")
    (compact : Bool := true) : Option (String ⊕ Report) := do
  let events := extract_events_from_hypnogram hypnogram_data
  let summary := calculate_stage_summary hypnogram_data
  let report := generate_basic_stage_report hypnogram_data events summary
  let start_dt := parse_time start_time
  let end_dt := parse_time end_time
  -- if start_dt and end_dt == start_dt and hypnogram_data:
  --     end_dt = calculate_end_time(start_dt, len(hypnogram_data))
  let end_dt' : Option Nat ←
    match start_dt, end_dt with
    | some s, some e =>
      if e = s ∧ hypnogram_data ≠ [] then
        (calculate_end_time s hypnogram_data.length).map some
      else pure (some e)
    | _, _ => pure end_dt
  let report' ← add_time_grouping report events start_dt end_dt'
  if compact then (format_json_compact (reportToJVal report')).map Sum.inl
  else pure (Sum.inr report')

/-! ## Lemmas about decimal rendering -/

/-- Numeric value of a digit string, most significant first. -/
def listVal (l : List Char) : Nat := l.foldl (fun a c => a * 10 + digitVal c) 0

theorem digitVal_digitChar {d : Nat} (h : d < 10) : digitVal (digitChar d) = d := by
  interval_cases d <;> decide

theorem isDigit_digitChar {d : Nat} (h : d < 10) : isDigit (digitChar d) = true := by
  interval_cases d <;> decide

theorem digitChar_ne_zero {d : Nat} (h1 : 0 < d) (h2 : d < 10) : digitChar d ≠ '0' := by
  interval_cases d <;> decide

theorem natDigitsAux_irrel {f1 f2 n : Nat} (h1 : n < f1) (h2 : n < f2)
    (acc : List Char) : natDigitsAux f1 n acc = natDigitsAux f2 n acc := by
  induction n using Nat.strong_induction_on generalizing f1 f2 acc with
  | _ n ih =>
    match f1, f2 with
    | f1 + 1, f2 + 1 =>
      by_cases h : n < 10
      · simp [natDigitsAux, h]
      · simp only [natDigitsAux, if_neg h]
        exact ih (n / 10) (Nat.div_lt_self (by omega) (by omega))
          (by have := Nat.div_lt_self (show 0 < n by omega) (show 1 < 10 by omega); omega)
          (by have := Nat.div_lt_self (show 0 < n by omega) (show 1 < 10 by omega); omega) _

theorem natDigitsAux_small {f n : Nat} (hf : n < f) (h : n < 10) (acc : List Char) :
    natDigitsAux f n acc = digitChar n :: acc := by
  match f with
  | f + 1 => simp [natDigitsAux, h]

theorem natDigitsAux_eq_append {f : Nat} (n : Nat) (hf : n < f) (acc : List Char) :
    natDigitsAux f n acc = natDigits n ++ acc := by
  induction n using Nat.strong_induction_on generalizing f acc with
  | _ n ih =>
    by_cases h : n < 10
    · rw [natDigitsAux_small hf h, natDigits, natDigitsAux_small (by omega) h]
      simp
    · have hdiv : n / 10 < n := Nat.div_lt_self (by omega) (by omega)
      match f with
      | f + 1 =>
        rw [natDigits]
        show natDigitsAux (f + 1) n acc = natDigitsAux (n + 1) n [] ++ acc
        simp only [natDigitsAux, if_neg h]
        rw [ih (n / 10) hdiv (by omega) _, ih (n / 10) hdiv (by omega) _]
        simp

theorem natDigits_cons (n : Nat) (h : ¬ n < 10) :
    natDigits n = natDigits (n / 10) ++ [digitChar (n % 10)] := by
  have hdiv : n / 10 < n := Nat.div_lt_self (by omega) (by omega)
  rw [natDigits]
  show natDigitsAux (n + 1) n [] = _
  simp only [natDigitsAux, if_neg h]
  rw [natDigitsAux_eq_append (n / 10) (by omega)]

theorem natDigits_small (n : Nat) (h : n < 10) : natDigits n = [digitChar n] := by
  rw [natDigits, natDigitsAux_small (by omega) h]

theorem listVal_natDigits (n : Nat) : listVal (natDigits n) = n := by
  induction n using Nat.strong_induction_on with
  | _ n ih =>
    by_cases h : n < 10
    · rw [natDigits_small n h]
      simp [listVal, digitVal_digitChar h]
    · rw [natDigits_cons n h, listVal, List.foldl_append]
      have := ih (n / 10) (Nat.div_lt_self (by omega) (by omega))
      rw [listVal] at this
      simp [this, digitVal_digitChar (Nat.mod_lt n (by omega))]
      omega

theorem natDigits_ne_nil (n : Nat) : natDigits n ≠ [] := by
  by_cases h : n < 10
  · rw [natDigits_small n h]; simp
  · rw [natDigits_cons n h]; simp

theorem natDigits_all_digit (n : Nat) : ∀ c ∈ natDigits n, isDigit c = true := by
  induction n using Nat.strong_induction_on with
  | _ n ih =>
    by_cases h : n < 10
    · rw [natDigits_small n h]
      simp [isDigit_digitChar h]
    · rw [natDigits_cons n h]
      intro c hc
      rcases List.mem_append.mp hc with h' | h'
      · exact ih (n / 10) (Nat.div_lt_self (by omega) (by omega)) c h'
      · simp at h'
        subst h'
        exact isDigit_digitChar (Nat.mod_lt n (by omega))

theorem natDigits_head_ne_zero (n : Nat) (hn : n ≠ 0) :
    ∃ c cs, natDigits n = c :: cs ∧ c ≠ '0' ∧ isDigit c = true := by
  induction n using Nat.strong_induction_on with
  | _ n ih =>
    by_cases h : n < 10
    · rw [natDigits_small n h]
      exact ⟨digitChar n, [], rfl, digitChar_ne_zero (by omega) h, isDigit_digitChar h⟩
    · rw [natDigits_cons n h]
      obtain ⟨c, cs, hc, hc0, hcd⟩ :=
        ih (n / 10) (Nat.div_lt_self (by omega) (by omega)) (by omega)
      exact ⟨c, cs ++ [digitChar (n % 10)], by rw [hc]; simp, hc0, hcd⟩

theorem natDigits_inj {a b : Nat} (h : natDigits a = natDigits b) : a = b := by
  calc a = listVal (natDigits a) := (listVal_natDigits a).symm
    _ = listVal (natDigits b) := by rw [h]
    _ = b := listVal_natDigits b

theorem natStr_data (n : Nat) : (natStr n).data = natDigits n := rfl

theorem natStr_inj {a b : Nat} (h : natStr a = natStr b) : a = b :=
  natDigits_inj (congrArg String.data h)

theorem intStr_data_nonneg (n : Nat) : (intStr (n : Int)).data = natDigits n := by
  rw [intStr, if_neg (by omega)]
  simp [natStr]

theorem intStr_inj {a b : Int} (h : intStr a = intStr b) : a = b := by
  unfold intStr at h
  by_cases ha : a < 0 <;> by_cases hb : b < 0
  · rw [if_pos ha, if_pos hb] at h
    have hd := congrArg String.data h
    simp only [String.data_append, natStr_data] at hd
    have hd' := List.append_cancel_left hd
    have : a.natAbs = b.natAbs := natDigits_inj hd'
    omega
  · exfalso
    rw [if_pos ha, if_neg hb] at h
    have hd := congrArg String.data h
    have hmd : ("-" : String).data = ['-'] := rfl
    simp only [String.data_append, natStr_data, hmd, List.singleton_append] at hd
    rcases hB : natDigits b.natAbs with _ | ⟨c, cs⟩
    · exact natDigits_ne_nil _ hB
    · rw [hB] at hd
      have hc := natDigits_all_digit b.natAbs c (by rw [hB]; simp)
      injection hd with h3 _
      rw [← h3] at hc
      simp [isDigit] at hc
  · exfalso
    rw [if_neg ha, if_pos hb] at h
    have hd := congrArg String.data h
    have hmd : ("-" : String).data = ['-'] := rfl
    simp only [String.data_append, natStr_data, hmd, List.singleton_append] at hd
    rcases hA : natDigits a.natAbs with _ | ⟨c, cs⟩
    · exact natDigits_ne_nil _ hA
    · rw [hA] at hd
      have hc := natDigits_all_digit a.natAbs c (by rw [hA]; simp)
      injection hd with h3 _
      rw [h3] at hc
      simp [isDigit] at hc
  · rw [if_neg ha, if_neg hb] at h
    have := natStr_inj h
    omega

/-! ## Claim C8: duration formatting -/

/-- C8: `format_duration` maps 0 to `"0s"` and otherwise space-joins the
nonzero h/m/s parts in that order, omitting zero parts except that the
seconds part is always emitted when hours and minutes are both 0; in
particular the five table values hold. -/
theorem claim_C8 :
    format_duration 0 = "0s" ∧ format_duration 300 = "5m" ∧
    format_duration 3600 = "1h" ∧ format_duration 3665 = "1h 1m 5s" ∧
    format_duration 45 = "45s" ∧
    ∀ s : Nat, s ≠ 0 →
      format_duration s = String.intercalate " "
        ((if s / 3600 > 0 then [natStr (s / 3600) ++ "h"] else []) ++
         (if s % 3600 / 60 > 0 then [natStr (s % 3600 / 60) ++ "m"] else []) ++
         (if s % 60 > 0 ∨ (s / 3600 = 0 ∧ s % 3600 / 60 = 0) then
           [natStr (s % 60) ++ "s"] else [])) := by
  refine ⟨rfl, rfl, rfl, rfl, rfl, fun s hs => ?_⟩
  rw [format_duration, if_neg hs]

/-- Witness for C8's universally quantified part at `s = 65`. -/
theorem claim_C8_witness :
    format_duration 65 = String.intercalate " "
      ((if 65 / 3600 > 0 then [natStr (65 / 3600) ++ "h"] else []) ++
       (if 65 % 3600 / 60 > 0 then [natStr (65 % 3600 / 60) ++ "m"] else []) ++
       (if 65 % 60 > 0 ∨ (65 / 3600 = 0 ∧ 65 % 3600 / 60 = 0) then
         [natStr (65 % 60) ++ "s"] else [])) :=
  claim_C8.2.2.2.2.2 65 (by decide)

/-! ## Display-name lemmas -/

theorem unknown_head (c : Int) :
    ("Unknown(" ++ intStr c ++ ")").data.head? = some 'U' := by
  rw [String.data_append, String.data_append]
  rw [show ("Unknown(" : String).data
      = 'U' :: 'n' :: 'k' :: 'n' :: 'o' :: 'w' :: 'n' :: '(' :: [] from rfl]
  rfl

/-- Distinct stage codes always render to distinct display names; in
particular distinct unknown codes are never merged. -/
theorem stageDisplay_inj {a b : Int} (h : stageDisplay a = stageDisplay b) :
    a = b := by
  unfold stageDisplay at h
  split_ifs at h with h1 h2 h3 h4 h5 h6 h7 h8 h9 h10 h11 h12 h13 h14 h15 h16
    h17 h18 h19 h20 h21 h22 h23 h24 <;>
    first
    | (simp only [WAKE, LIGHT, DEEP, REM] at *; omega)
    | (exact absurd h (by decide))
    | (exfalso
       have hh := congrArg (fun s => s.data.head?) h
       simp only at hh
       rw [unknown_head] at hh
       exact absurd hh (by decide))
    | (exfalso
       have hh := congrArg (fun s => s.data.head?) h
       simp only at hh
       rw [unknown_head] at hh
       exact absurd hh.symm (by decide))
    | skip
  · -- both unknown
    have hd := congrArg String.data h
    simp only [String.data_append] at hd
    have h2 := List.append_cancel_right hd
    have h3 := List.append_cancel_left h2
    exact intStr_inj (by
      have : String.mk (intStr a).data = String.mk (intStr b).data := by rw [h3]
      simpa using this)

theorem stageDisplay_ne_stages (c : Int) : stageDisplay c ≠ "stages" := by
  unfold stageDisplay
  split_ifs <;> try decide
  intro h
  have hh := congrArg (fun s => s.data.head?) h
  simp only at hh
  rw [unknown_head] at hh
  exact absurd hh (by decide)

theorem runs_pos (l : List Int) : ∀ p ∈ runs l, 0 < p.2 := by
  induction l with
  | nil => simp [runs]
  | cons a as ih =>
    intro p hp
    rw [runs] at hp
    rcases hr : runs as with _ | ⟨⟨b, n⟩, rest⟩
    · rw [hr] at hp
      dsimp only at hp
      simp at hp
      subst hp
      simp
    · rw [hr] at hp
      dsimp only at hp
      by_cases hab : a = b
      · rw [if_pos hab] at hp
        rcases List.mem_cons.mp hp with h | h
        · subst h; simp
        · exact ih p (hr ▸ List.mem_cons_of_mem _ h)
      · rw [if_neg hab] at hp
        rcases List.mem_cons.mp hp with h | h
        · subst h; simp
        · exact ih p (hr ▸ h)

theorem runs_chain (l : List Int) : (runs l).Chain' (fun p q => p.1 ≠ q.1) := by
  induction l with
  | nil => simp [runs]
  | cons a as ih =>
    rw [runs]
    rcases hr : runs as with _ | ⟨⟨b, n⟩, rest⟩
    · simp
    · rw [hr] at ih
      dsimp only
      by_cases hab : a = b
      · rw [if_pos hab]
        subst hab
        rcases rest with _ | ⟨q, rest'⟩
        · simp
        · rw [List.chain'_cons] at ih ⊢
          exact ⟨ih.1, ih.2⟩
      · rw [if_neg hab]
        rw [List.chain'_cons]
        exact ⟨hab, ih⟩

theorem runs_join (l : List Int) :
    (runs l).bind (fun p => List.replicate p.2 p.1) = l := by
  induction l with
  | nil => simp [runs]
  | cons a as ih =>
    rw [runs]
    rcases hr : runs as with _ | ⟨⟨b, n⟩, rest⟩
    · rw [hr] at ih
      simp at ih
      simp [ih]
    · dsimp only
      rw [hr] at ih
      by_cases hab : a = b
      · rw [if_pos hab]
        subst hab
        have ih' : List.replicate n a ++ rest.bind (fun p => List.replicate p.2 p.1) = as := ih
        show List.replicate (n + 1) a ++ rest.bind (fun p => List.replicate p.2 p.1) = a :: as
        rw [List.replicate_succ, List.cons_append, ih']
      · rw [if_neg hab]
        show List.replicate 1 a ++ ((b, n) :: rest).bind (fun p => List.replicate p.2 p.1) = a :: as
        rw [ih]
        simp

theorem runs_sum (l : List Int) : ((runs l).map Prod.snd).sum = l.length := by
  have h := congrArg List.length (runs_join l)
  rw [List.length_bind] at h
  rw [← h]
  congr 1
  simp [Function.comp]

theorem sum_map_mul_const (ns : List Nat) (k : Nat) :
    (ns.map (· * k)).sum = ns.sum * k := by
  induction ns with
  | nil => simp
  | cons n rest ih => simp [ih, Nat.add_mul]

theorem eventsFromRuns_eq_zipWith (rs : List (Int × Nat)) (start : Nat) :
    eventsFromRuns start rs = List.zipWith
      (fun s p => StageEvent.mk s (stageDisplay p.1)
        (format_duration (p.2 * EPOCH_DURATION)))
      ((List.range rs.length).map fun i => start + ((rs.take i).map Prod.snd).sum)
      rs := by
  induction rs generalizing start with
  | nil => rfl
  | cons p rest ih =>
    obtain ⟨c, n⟩ := p
    rw [eventsFromRuns]
    rw [List.length_cons, List.range_succ_eq_map, List.map_cons, List.zipWith_cons_cons]
    rw [List.cons_eq_cons]
    constructor
    · simp
    · rw [ih (start + n)]
      refine congrArg (fun z => List.zipWith _ z rest) ?_
      rw [List.map_map]
      apply List.map_congr_left
      intro i hi
      simp only [Function.comp_apply, List.take_succ_cons, List.map_cons, List.sum_cons]
      omega

/-- C2: one event per maximal run of identical adjacent codes; each
event's `start_epoch` is the cumulative epoch offset of its run's first
element; its `duration` is `format_duration(run_length * 30)`; the run
lengths sum to the input length and reconstruct the input; the per-event
durations total `len(sequence) * 30` seconds. -/
theorem claim_C2 (l : List Int) :
    extract_events_from_hypnogram l = List.zipWith
      (fun s p => StageEvent.mk s (stageDisplay p.1)
        (format_duration (p.2 * EPOCH_DURATION)))
      ((List.range (runs l).length).map fun i =>
        (((runs l).take i).map Prod.snd).sum)
      (runs l) ∧
    (runs l).bind (fun p => List.replicate p.2 p.1) = l ∧
    ((runs l).map Prod.snd).sum = l.length ∧
    ((runs l).map fun p => p.2 * EPOCH_DURATION).sum = l.length * EPOCH_DURATION ∧
    (∀ p ∈ runs l, 0 < p.2) ∧
    (runs l).Chain' (fun p q => p.1 ≠ q.1) := by
  refine ⟨?_, runs_join l, runs_sum l, ?_, runs_pos l, runs_chain l⟩
  · rw [extract_events_from_hypnogram, eventsFromRuns_eq_zipWith]
    simp
  · rw [show ((runs l).map fun p => p.2 * EPOCH_DURATION)
        = ((runs l).map Prod.snd).map (· * EPOCH_DURATION) by rw [List.map_map]; rfl]
    rw [sum_map_mul_const, runs_sum l]

/-! ## Claim C7: event-sequence invariants -/

theorem eventsFromRuns_length (rs : List (Int × Nat)) (start : Nat) :
    (eventsFromRuns start rs).length = rs.length := by
  induction rs generalizing start with
  | nil => rfl
  | cons p rest ih =>
    obtain ⟨c, n⟩ := p
    rw [eventsFromRuns, List.length_cons, List.length_cons, ih]

theorem eventsFromRuns_chain_stage (rs : List (Int × Nat)) (start : Nat)
    (hch : rs.Chain' fun p q => p.1 ≠ q.1) :
    (eventsFromRuns start rs).Chain' (fun e e' => e.stage ≠ e'.stage) := by
  induction rs generalizing start with
  | nil => simp [eventsFromRuns]
  | cons p rest ih =>
    obtain ⟨c, n⟩ := p
    cases rest with
    | nil => simp [eventsFromRuns]
    | cons q rest' =>
      obtain ⟨c', n'⟩ := q
      rw [eventsFromRuns, eventsFromRuns, List.chain'_cons]
      rw [List.chain'_cons] at hch
      refine ⟨fun hEq => hch.1 (stageDisplay_inj hEq), ?_⟩
      have h2 := ih (start + n) hch.2
      rw [eventsFromRuns] at h2
      exact h2

theorem eventsFromRuns_chain_lt (rs : List (Int × Nat)) (start : Nat)
    (hpos : ∀ p ∈ rs, 0 < p.2) :
    (eventsFromRuns start rs).Chain' (fun e e' => e.start_epoch < e'.start_epoch) := by
  induction rs generalizing start with
  | nil => simp [eventsFromRuns]
  | cons p rest ih =>
    obtain ⟨c, n⟩ := p
    cases rest with
    | nil => simp [eventsFromRuns]
    | cons q rest' =>
      obtain ⟨c', n'⟩ := q
      rw [eventsFromRuns, eventsFromRuns, List.chain'_cons]
      constructor
      · have := hpos (c, n) (by simp)
        simp only
        omega
      · have h2 := ih (start + n) (fun p hp => hpos p (List.mem_cons_of_mem _ hp))
        rw [eventsFromRuns] at h2
        exact h2

theorem eventsFromRuns_chain_contig (rs : List (Int × Nat)) (start : Nat) :
    List.Chain' (fun a b => b.1.start_epoch = a.1.start_epoch + a.2.2)
      ((eventsFromRuns start rs).zip rs) := by
  induction rs generalizing start with
  | nil => simp [eventsFromRuns]
  | cons p rest ih =>
    obtain ⟨c, n⟩ := p
    cases rest with
    | nil => simp [eventsFromRuns]
    | cons q rest' =>
      obtain ⟨c', n'⟩ := q
      rw [eventsFromRuns, eventsFromRuns, List.zip_cons_cons, List.zip_cons_cons,
        List.chain'_cons]
      constructor
      · rfl
      · have h2 := ih (start + n)
        rw [eventsFromRuns, List.zip_cons_cons] at h2
        exact h2

/-- C7: no two consecutive events share a stage display name, events are
chronological (strictly increasing `start_epoch`), and contiguous: paired
with its run, each event's successor starts at `start_epoch` plus the
run's length. -/
theorem claim_C7 (l : List Int) :
    (extract_events_from_hypnogram l).Chain' (fun e e' => e.stage ≠ e'.stage) ∧
    (extract_events_from_hypnogram l).Chain'
      (fun e e' => e.start_epoch < e'.start_epoch) ∧
    List.Chain' (fun a b => b.1.start_epoch = a.1.start_epoch + a.2.2)
      ((extract_events_from_hypnogram l).zip (runs l)) ∧
    (extract_events_from_hypnogram l).length = (runs l).length :=
  ⟨eventsFromRuns_chain_stage (runs l) 0 (runs_chain l),
   eventsFromRuns_chain_lt (runs l) 0 (runs_pos l),
   eventsFromRuns_chain_contig (runs l) 0,
   eventsFromRuns_length (runs l) 0⟩

/-! ## Claim C6: stage summary counting -/

/-- `stage_counts.get(k, 0)`: the count stored under key `k`. -/
def findCount (l : List (String × Nat)) (k : String) : Nat :=
  match l with
  | [] => 0
  | (k', n) :: rest => if k' = k then n else findCount rest k

theorem bumpCount_findCount (acc : List (String × Nat)) (k' k : String) :
    findCount (bumpCount acc k') k
      = findCount acc k + (if k' = k then 1 else 0) := by
  induction acc with
  | nil =>
    by_cases h : k' = k <;> simp [bumpCount, findCount, h]
  | cons p rest ih =>
    obtain ⟨k0, n⟩ := p
    rw [bumpCount]
    by_cases h0 : k0 = k'
    · rw [if_pos h0]
      subst h0
      rw [findCount, findCount]
      by_cases hk : k0 = k
      · rw [if_pos hk, if_pos hk, if_pos hk]
      · rw [if_neg hk, if_neg hk, if_neg hk]
        omega
    · rw [if_neg h0, findCount, findCount]
      by_cases hk : k0 = k
      · rw [if_pos hk, if_pos hk]
        subst hk
        rw [if_neg (fun hh => h0 hh.symm)]
        omega
      · rw [if_neg hk, if_neg hk, ih]

theorem bumpCount_sum (acc : List (String × Nat)) (k' : String) :
    ((bumpCount acc k').map Prod.snd).sum = (acc.map Prod.snd).sum + 1 := by
  induction acc with
  | nil => simp [bumpCount]
  | cons p rest ih =>
    obtain ⟨k0, n⟩ := p
    rw [bumpCount]
    by_cases h0 : k0 = k'
    · rw [if_pos h0]
      simp
      omega
    · rw [if_neg h0]
      simp only [List.map_cons, List.sum_cons, ih]
      omega

theorem bumpCount_keys (acc : List (String × Nat)) (k' : String) :
    (bumpCount acc k').map Prod.fst
      = if k' ∈ acc.map Prod.fst then acc.map Prod.fst
        else acc.map Prod.fst ++ [k'] := by
  induction acc with
  | nil => simp [bumpCount]
  | cons p rest ih =>
    obtain ⟨k0, n⟩ := p
    rw [bumpCount]
    by_cases h0 : k0 = k'
    · rw [if_pos h0]
      subst h0
      simp
    · rw [if_neg h0]
      by_cases hm : k' ∈ rest.map Prod.fst
      · have hmem : k' ∈ k0 :: rest.map Prod.fst :=
          List.mem_cons_of_mem _ hm
        simp only [List.map_cons, ih, if_pos hm]
        rw [if_pos hmem]
      · have hmem : k' ∉ k0 :: rest.map Prod.fst := by
          rw [List.mem_cons]
          rintro (hh | hh)
          · exact h0 hh.symm
          · exact hm hh
        simp only [List.map_cons, ih, if_neg hm]
        rw [if_neg hmem]
        simp

theorem bumpCount_nodup (acc : List (String × Nat)) (k' : String)
    (h : (acc.map Prod.fst).Nodup) :
    ((bumpCount acc k').map Prod.fst).Nodup := by
  rw [bumpCount_keys]
  by_cases hm : k' ∈ acc.map Prod.fst
  · rw [if_pos hm]
    exact h
  · rw [if_neg hm, ← List.concat_eq_append]
    exact List.Nodup.concat hm h

theorem stageCountsAux_findCount (l : List Int) (acc : List (String × Nat))
    (k : String) :
    findCount (l.foldl (fun acc code => bumpCount acc (stageDisplay code)) acc) k
      = findCount acc k + (l.map stageDisplay).count k := by
  induction l generalizing acc with
  | nil => simp [findCount]
  | cons c cs ih =>
    rw [List.foldl_cons, ih, bumpCount_findCount, List.map_cons, List.count_cons]
    by_cases hc : stageDisplay c = k <;> simp [hc] <;> omega

theorem stageCountsAux_sum (l : List Int) (acc : List (String × Nat)) :
    ((l.foldl (fun acc code => bumpCount acc (stageDisplay code)) acc).map
        Prod.snd).sum
      = (acc.map Prod.snd).sum + l.length := by
  induction l generalizing acc with
  | nil => simp
  | cons c cs ih =>
    rw [List.foldl_cons, ih, bumpCount_sum, List.length_cons]
    omega

theorem stageCountsAux_nodup (l : List Int) (acc : List (String × Nat))
    (h : (acc.map Prod.fst).Nodup) :
    ((l.foldl (fun acc code => bumpCount acc (stageDisplay code)) acc).map
        Prod.fst).Nodup := by
  induction l generalizing acc with
  | nil => exact h
  | cons c cs ih =>
    rw [List.foldl_cons]
    exact ih _ (bumpCount_nodup _ _ h)

theorem findCount_of_mem {l : List (String × Nat)} {k : String} {n : Nat}
    (hnd : (l.map Prod.fst).Nodup) (hm : (k, n) ∈ l) : findCount l k = n := by
  induction l with
  | nil => simp at hm
  | cons p rest ih =>
    obtain ⟨k0, n0⟩ := p
    rw [findCount]
    rcases List.mem_cons.mp hm with hh | hh
    · cases hh
      rw [if_pos rfl]
    · rw [List.map_cons, List.nodup_cons] at hnd
      by_cases hk : k0 = k
      · exfalso
        apply hnd.1
        rw [hk]
        exact List.mem_map.mpr ⟨(k, n), hh, rfl⟩
      · rw [if_neg hk]
        exact ih hnd.2 hh

theorem stageCounts_findCount (l : List Int) (k : String) :
    findCount (stageCounts l) k = (l.map stageDisplay).count k := by
  rw [stageCounts, stageCountsAux_findCount]
  simp [findCount]

theorem stageCounts_sum (l : List Int) :
    ((stageCounts l).map Prod.snd).sum = l.length := by
  rw [stageCounts, stageCountsAux_sum]
  simp

theorem stageCounts_nodup (l : List Int) :
    ((stageCounts l).map Prod.fst).Nodup := by
  rw [stageCounts]
  exact stageCountsAux_nodup l [] (by simp)

/-- C6: for a non-empty sequence the per-display-name epoch counts sum to
`len(sequence)`; each count is exactly the number of epochs rendering to
that display name; keys are distinct (so distinct unknown codes are never
merged, by injectivity of the display map); and each summary entry's
duration is `format_duration(count * 30)`. -/
theorem claim_C6 (l : List Int) (h : l ≠ []) :
    (∀ p ∈ calculate_stage_summary l,
      p.2.duration
        = format_duration ((l.map stageDisplay).count p.1 * EPOCH_DURATION)) ∧
    ((stageCounts l).map Prod.snd).sum = l.length ∧
    (∀ k, findCount (stageCounts l) k = (l.map stageDisplay).count k) ∧
    ((stageCounts l).map Prod.fst).Nodup ∧
    calculate_stage_summary l = (stageCounts l).map
      (fun p => (p.1, ⟨format_duration (p.2 * EPOCH_DURATION),
        fmtPct p.2 l.length⟩)) ∧
    (∀ c c' : Int, c ≠ c' → stageDisplay c ≠ stageDisplay c') := by
  refine ⟨?_, stageCounts_sum l, fun k => stageCounts_findCount l k,
    stageCounts_nodup l, ?_,
    fun c c' hne hEq => hne (stageDisplay_inj hEq)⟩
  · intro p hp
    rw [calculate_stage_summary, if_neg h] at hp
    obtain ⟨q, hq, rfl⟩ := List.mem_map.mp hp
    have hc := findCount_of_mem (stageCounts_nodup l)
      (show (q.1, q.2) ∈ stageCounts l from hq)
    rw [stageCounts_findCount] at hc
    simp only
    rw [hc]
  · rw [calculate_stage_summary, if_neg h]

/-- Witness for C6 at the concrete sequence `[0, 0, 5]`. -/
theorem claim_C6_witness :
    ((stageCounts [0, 0, 5]).map Prod.snd).sum = ([0, 0, 5] : List Int).length :=
  (claim_C6 [0, 0, 5] (by decide)).2.1

/-! ## Pipeline structure lemmas -/

theorem add_time_grouping_some_some (r : Report) (evs : List StageEvent)
    (t e' : Nat) :
    add_time_grouping r evs (some t) (some e')
      = (group_events_by_hour evs (some t)).map fun gs =>
          { r with sleep_time := format_time_range t e',
                   sleep_stages_by_hour := gs } := rfl

/-- C4: with valid, non-empty, exactly equal start/end strings on a
sequence of `N` epochs, the pipeline recomputes the end time as
`start + N * 30` seconds, so the report's `sleep_time` renders the range
from `start` to `start + N * 30` seconds (for `N = 0` the recomputation
is skipped but the rendered range coincides). -/
theorem claim_C4 (data : List Int) (s : String) (t : Nat) (r : Report)
    (h1 : parse_time s = some t)
    (h2 : generate_hypnogram_report data s s false = some (Sum.inr r)) :
    r.sleep_time = format_time_range t (t + data.length * EPOCH_DURATION) := by
  by_cases hd : data = []
  · subst hd
    cases hg : group_events_by_hour (extract_events_from_hypnogram []) (some t) with
    | none =>
      simp [generate_hypnogram_report, h1, Option.bind,
        add_time_grouping_some_some, hg] at h2
    | some gs =>
      simp [generate_hypnogram_report, h1, Option.bind,
        add_time_grouping_some_some, hg] at h2
      rw [← h2]
      simp
  · cases hb : calculate_end_time t data.length with
    | none =>
      simp [generate_hypnogram_report, h1, hd, Option.bind, hb] at h2
    | some tEnd =>
      have hTend : tEnd = t + data.length * EPOCH_DURATION := by
        rw [calculate_end_time, addSeconds] at hb
        by_cases hle : t + data.length * EPOCH_DURATION ≤ maxSeconds
        · rw [if_pos hle] at hb
          exact (Option.some.inj hb).symm
        · rw [if_neg hle] at hb
          cases hb
      cases hg : group_events_by_hour (extract_events_from_hypnogram data)
          (some t) with
      | none =>
        simp [generate_hypnogram_report, h1, hd, Option.bind, hb,
          add_time_grouping_some_some, hg] at h2
      | some gs =>
        simp [generate_hypnogram_report, h1, hd, Option.bind, hb,
          add_time_grouping_some_some, hg] at h2
        rw [← h2, ← hTend]

/-- Witness for C4 on `[0, 1]` at `2024-01-15 23:00:00`. -/
theorem claim_C4_witness :
    (⟨"11:00 PM - 11:01 PM", "1m",
      [("Wake", ["30s", "50.0%"]), ("Light", ["30s", "50.0%"])],
      [⟨"11:00 PM - 12:00 AM", [(1, "Wake", "30s"), (2, "Light", "30s")]⟩]⟩
        : Report).sleep_time
      = format_time_range 63840956400
          (63840956400 + ([0, 1] : List Int).length * EPOCH_DURATION) :=
  claim_C4 [0, 1] "2024-01-15 23:00:00" 63840956400
    ⟨"11:00 PM - 11:01 PM", "1m",
      [("Wake", ["30s", "50.0%"]), ("Light", ["30s", "50.0%"])],
      [⟨"11:00 PM - 12:00 AM", [(1, "Wake", "30s"), (2, "Light", "30s")]⟩]⟩
    rfl rfl

/-! ## Claim C3: hour bucketing.

The faithful loop (`groupLoop`/`advanceHour`) is first related to a pure
recursive model (`bucketModel`), and the bucketing properties are then
proved of the model. -/

theorem addSeconds_some {t d x : Nat} (h : addSeconds t d = some x) :
    x = t + d ∧ t + d ≤ maxSeconds := by
  rw [addSeconds] at h
  by_cases hle : t + d ≤ maxSeconds
  · rw [if_pos hle] at h
    exact ⟨(Option.some.inj h).symm, hle⟩
  · rw [if_neg hle] at h
    cases h

theorem advanceHour_some {fuel et : Nat} {grouped : List HourGroup}
    {cur next : Nat} {stages : List (Nat × String × String)}
    {res : List HourGroup × Nat × Nat × List (Nat × String × String)}
    (h : advanceHour fuel et grouped cur next stages = some res) :
    (et < next ∧ res = (grouped, cur, next, stages)) ∨
    (next ≤ et ∧
      res = (grouped ++ (if stages = [] then []
               else [⟨format_time_range cur next, stages⟩]),
             next + 3600 * ((et - next) / 3600),
             next + 3600 * ((et - next) / 3600) + 3600,
             [])) := by
  induction fuel generalizing grouped cur next stages with
  | zero => cases h
  | succ fuel ih =>
    rw [advanceHour] at h
    by_cases hge : et ≥ next
    · rw [if_pos hge] at h
      by_cases hof : next + 3600 ≤ maxSeconds
      · rw [if_pos hof] at h
        rcases ih h with ⟨hlt, hres⟩ | ⟨hge2, hres⟩
        · right
          refine ⟨hge, ?_⟩
          rw [hres]
          have hdiv : (et - next) / 3600 = 0 := by omega
          rw [hdiv]
          by_cases hs : stages = [] <;> simp [hs]
        · right
          refine ⟨hge, ?_⟩
          rw [hres]
          have hdiv : (et - next) / 3600 = (et - (next + 3600)) / 3600 + 1 := by
            omega
          rw [hdiv]
          by_cases hs : stages = [] <;> simp [hs] <;> omega
      · rw [if_neg hof] at h
        cases h
    · rw [if_neg hge] at h
      left
      exact ⟨by omega, (Option.some.inj h).symm⟩

/-- The hour index, relative to the floored start `base`, of an event's
absolute start time `t + start_epoch * EPOCH_DURATION`. -/
def slotOf (t base : Nat) (e : StageEvent) : Nat :=
  (t + e.start_epoch * EPOCH_DURATION - base) / 3600

/-- Pure model of the bucketing loop: `k` is the current bucket's hour
index and `stages` its accumulated triples. -/
def bucketModel (t base : Nat) :
    List (Nat × StageEvent) → Nat → List (Nat × String × String) →
    List HourGroup
  | [], k, stages =>
    if stages = [] then []
    else [⟨format_time_range (base + 3600 * k) (base + 3600 * k + 3600), stages⟩]
  | (i, e) :: rest, k, stages =>
    if k < slotOf t base e then
      (if stages = [] then []
       else [⟨format_time_range (base + 3600 * k) (base + 3600 * k + 3600),
         stages⟩])
        ++ bucketModel t base rest (slotOf t base e) [(i, e.stage, e.duration)]
    else bucketModel t base rest k (stages ++ [(i, e.stage, e.duration)])

theorem groupLoop_eq_model {t base : Nat} (hb : base = t - t % 3600)
    (pairs : List (Nat × StageEvent)) (grouped : List HourGroup) (k : Nat)
    (stages : List (Nat × String × String)) (gs : List HourGroup)
    (h : groupLoop t pairs grouped (base + 3600 * k) (base + 3600 * k + 3600)
          stages = some gs) :
    gs = grouped ++ bucketModel t base pairs k stages := by
  induction pairs generalizing grouped k stages with
  | nil =>
    rw [groupLoop] at h
    rw [bucketModel]
    by_cases hs : stages = []
    · rw [if_pos hs] at h ⊢
      simp at h
      rw [← h]
      simp
    · rw [if_neg hs] at h ⊢
      simp at h
      rw [← h]
  | cons p rest ih =>
    obtain ⟨i, e⟩ := p
    rw [groupLoop] at h
    cases ha : addSeconds t (e.start_epoch * EPOCH_DURATION) with
    | none =>
      rw [ha] at h
      simp at h
    | some et =>
      rw [ha] at h
      obtain ⟨het, -⟩ := addSeconds_some ha
      subst het
      simp only [Option.bind_eq_bind', Option.some_bind] at h
      cases hadv : advanceHour (t + e.start_epoch * EPOCH_DURATION + 1)
          (t + e.start_epoch * EPOCH_DURATION) grouped (base + 3600 * k)
          (base + 3600 * k + 3600) stages with
      | none =>
        rw [hadv] at h
        simp at h
      | some tup =>
        obtain ⟨g', c', n', st'⟩ := tup
        rw [hadv] at h
        simp only [Option.bind_eq_bind', Option.some_bind] at h
        rcases advanceHour_some hadv with ⟨hlt, hres⟩ | ⟨hge, hres⟩
        · simp only [Prod.mk.injEq] at hres
          obtain ⟨h1, h2, h3, h4⟩ := hres
          subst h1
          subst h2
          subst h3
          subst h4
          have hslot : ¬ k < slotOf t base e := by
            rw [slotOf]
            omega
          have hrec := ih g' k (st' ++ [(i, e.stage, e.duration)]) h
          rw [hrec, bucketModel, if_neg hslot]
        · simp only [Prod.mk.injEq] at hres
          obtain ⟨h1, h2, h3, h4⟩ := hres
          have hslot : k < slotOf t base e := by
            rw [slotOf]
            omega
          have hc : c' = base + 3600 * slotOf t base e := by
            rw [h2, slotOf]
            omega
          have hn : n' = base + 3600 * slotOf t base e + 3600 := by
            rw [h3, slotOf]
            omega
          rw [h1, h4] at h
          rw [hc, hn] at h
          simp only [List.nil_append] at h
          have hrec := ih _ (slotOf t base e) [(i, e.stage, e.duration)] h
          rw [hrec, bucketModel, if_pos hslot]
          rw [List.append_assoc]

theorem group_events_by_hour_eq_model {events : List StageEvent} {t : Nat}
    {gs : List HourGroup}
    (h : group_events_by_hour events (some t) = some gs) :
    gs = bucketModel t (t - t % 3600) (enumFrom 1 events) 0 [] := by
  rw [group_events_by_hour] at h
  by_cases hbnd : t - t % 3600 + 3600 ≤ maxSeconds
  · rw [if_pos hbnd] at h
    have h2 := @groupLoop_eq_model t (t - t % 3600) rfl (enumFrom 1 events)
      [] 0 [] gs (by
        rw [show t - t % 3600 + 3600 * 0 = t - t % 3600 by omega]
        exact h)
    rw [h2]
    simp
  · rw [if_neg hbnd] at h
    cases h

/-- The `[i, stage, duration]` triple of an enumerated event. -/
def tripleOf (p : Nat × StageEvent) : Nat × String × String :=
  (p.1, p.2.stage, p.2.duration)

theorem bucketModel_join (t base : Nat) (pairs : List (Nat × StageEvent))
    (k : Nat) (stages : List (Nat × String × String)) :
    ((bucketModel t base pairs k stages).map HourGroup.stages).join
      = stages ++ pairs.map tripleOf := by
  induction pairs generalizing k stages with
  | nil =>
    rw [bucketModel]
    by_cases hs : stages = [] <;> simp [hs]
  | cons p rest ih =>
    obtain ⟨i, e⟩ := p
    rw [bucketModel]
    by_cases hlt : k < slotOf t base e
    · rw [if_pos hlt]
      by_cases hs : stages = [] <;>
        simp [hs, ih, tripleOf]
    · rw [if_neg hlt, ih]
      simp [tripleOf]

theorem bucketModel_nonempty (t base : Nat) (pairs : List (Nat × StageEvent))
    (k : Nat) (stages : List (Nat × String × String)) :
    ∀ g ∈ bucketModel t base pairs k stages, g.stages ≠ [] := by
  induction pairs generalizing k stages with
  | nil =>
    rw [bucketModel]
    by_cases hs : stages = [] <;> simp [hs]
  | cons p rest ih =>
    obtain ⟨i, e⟩ := p
    rw [bucketModel]
    by_cases hlt : k < slotOf t base e
    · rw [if_pos hlt]
      intro g hg
      rcases List.mem_append.mp hg with hg' | hg'
      · by_cases hs : stages = []
        · rw [if_pos hs] at hg'
          simp at hg'
        · rw [if_neg hs] at hg'
          simp at hg'
          rw [hg']
          exact hs
      · exact ih _ _ g hg'
    · rw [if_neg hlt]
      intro g hg
      exact ih _ _ g hg

theorem forall₂_congr_of_mem {α β : Type} {R S : α → β → Prop}
    {l₁ : List α} {l₂ : List β} (h : List.Forall₂ R l₁ l₂)
    (himp : ∀ a ∈ l₁, ∀ b, R a b → S a b) : List.Forall₂ S l₁ l₂ := by
  induction h with
  | nil => exact List.Forall₂.nil
  | cons hab _ ih2 =>
    rename_i a b l₁' l₂' _
    exact List.Forall₂.cons (himp a (by simp) b hab)
      (ih2 fun x hx y hxy => himp x (List.mem_cons_of_mem _ hx) y hxy)

theorem bucketModel_buckets (t base : Nat) (pairs : List (Nat × StageEvent)) :
    ∀ (stPairs : List (Nat × StageEvent)) (k : Nat),
    (∀ q ∈ stPairs, slotOf t base q.2 = k) →
    (∀ p ∈ pairs, k ≤ slotOf t base p.2) →
    pairs.Pairwise (fun p q => slotOf t base p.2 ≤ slotOf t base q.2) →
    ∃ ks : List Nat,
      ks.Chain' (· < ·) ∧
      (∀ x ∈ ks, k ≤ x) ∧
      (bucketModel t base pairs k (stPairs.map tripleOf)).map
          HourGroup.hour_range
        = ks.map (fun k' =>
            format_time_range (base + 3600 * k') (base + 3600 * k' + 3600)) ∧
      List.Forall₂ (fun (k' : Nat) (g : HourGroup) =>
        g.stages = ((stPairs ++ pairs).filter
          (fun q => slotOf t base q.2 = k')).map tripleOf)
        ks (bucketModel t base pairs k (stPairs.map tripleOf)) ∧
      (stPairs ≠ [] → ∃ ks', ks = k :: ks') := by
  induction pairs with
  | nil =>
    intro stPairs k hst hk hpw
    by_cases hsp : stPairs = []
    · subst hsp
      refine ⟨[], by simp, by simp, ?_, ?_, by simp⟩
      · rw [bucketModel]
        simp
      · rw [bucketModel]
        simp
    · refine ⟨[k], by simp, by simp, ?_, ?_, fun _ => ⟨[], rfl⟩⟩
      · rw [bucketModel, if_neg (by simpa using hsp)]
        simp
      · rw [bucketModel, if_neg (by simpa using hsp)]
        refine List.Forall₂.cons ?_ List.Forall₂.nil
        simp only [List.append_nil]
        rw [List.filter_eq_self.mpr (by
          intro q hq
          simpa using hst q hq)]
  | cons p rest ih =>
    intro stPairs k hst hk hpw
    obtain ⟨i, e⟩ := p
    have hs0 : k ≤ slotOf t base e := hk (i, e) (by simp)
    rw [List.pairwise_cons] at hpw
    by_cases hlt : k < slotOf t base e
    · -- a new bucket opens at slot (i, e)
      obtain ⟨ks₁, hch₁, hge₁, hlab₁, hfa₁, hhd₁⟩ :=
        ih [(i, e)] (slotOf t base e) (by simp)
          (fun q hq => hpw.1 q hq) hpw.2
      obtain ⟨ks₁', hks₁'⟩ := hhd₁ (by simp)
      rw [bucketModel, if_pos hlt]
      rw [show [(i, e.stage, e.duration)] = List.map tripleOf [(i, e)] from rfl]
      by_cases hsp : stPairs = []
      · subst hsp
        refine ⟨ks₁, hch₁, fun x hx => le_trans (le_of_lt hlt) (hge₁ x hx),
          ?_, ?_, by simp⟩
        · simpa using hlab₁
        · simp only [List.map_nil, List.nil_append, if_pos rfl]
          simpa using hfa₁
      · refine ⟨k :: ks₁, ?_, ?_, ?_, ?_, fun _ => ⟨ks₁, rfl⟩⟩
        · rw [hks₁', List.chain'_cons]
          constructor
          · exact hlt
          · rw [← hks₁']
            exact hch₁
        · intro x hx
          rcases List.mem_cons.mp hx with hx | hx
          · omega
          · exact le_trans (le_of_lt hlt) (hge₁ x hx)
        · rw [if_neg (by simpa using hsp)]
          rw [List.map_append, hlab₁]
          rfl
        · rw [if_neg (by simpa using hsp)]
          refine List.Forall₂.cons ?_ ?_
          · simp only
            have h1 : (stPairs ++ (i, e) :: rest).filter
                (fun q => decide (slotOf t base q.2 = k)) = stPairs := by
              rw [List.filter_append, List.filter_eq_self.mpr (by
                intro q hq
                simpa using hst q hq)]
              rw [List.filter_cons, if_neg (by
                simp only [decide_eq_true_eq]
                exact (by omega : ¬ slotOf t base e = k))]
              rw [List.filter_eq_nil.mpr (by
                intro q hq
                simp only [decide_eq_true_eq]
                have h3 : slotOf t base e ≤ slotOf t base q.2 := hpw.1 q hq
                omega)]
              simp
            rw [h1]
          · refine forall₂_congr_of_mem hfa₁ ?_
            intro k' hk' g hg
            rw [hg]
            have hk's : slotOf t base e ≤ k' := hge₁ k' hk'
            have h1 : (stPairs ++ (i, e) :: rest).filter
                (fun q => decide (slotOf t base q.2 = k'))
                = ([(i, e)] ++ rest).filter
                    (fun q => decide (slotOf t base q.2 = k')) := by
              simp only [List.filter_append, List.singleton_append]
              rw [List.filter_eq_nil.mpr (by
                intro q hq
                simp only [decide_eq_true_eq]
                have h3 := hst q hq
                omega)]
              simp
            rw [h1]
    · -- the event joins the current bucket `k`
      have hseq : slotOf t base e = k := by omega
      obtain ⟨ks₁, hch₁, hge₁, hlab₁, hfa₁, hhd₁⟩ :=
        ih (stPairs ++ [(i, e)]) k
          (by
            intro q hq
            rcases List.mem_append.mp hq with hq' | hq'
            · exact hst q hq'
            · simp at hq'
              rw [hq']
              exact hseq)
          (fun q hq => le_trans (hseq ▸ le_refl _) (hseq ▸ hpw.1 q hq))
          hpw.2
      rw [bucketModel, if_neg hlt]
      have hmapeq : stPairs.map tripleOf ++ [(i, e.stage, e.duration)]
          = (stPairs ++ [(i, e)]).map tripleOf := by
        rw [List.map_append]
        rfl
      rw [hmapeq]
      refine ⟨ks₁, hch₁, hge₁, hlab₁, ?_, ?_⟩
      · refine forall₂_congr_of_mem hfa₁ ?_
        intro k' _ g hg
        rw [hg, List.append_assoc]
        rfl
      · intro _
        exact hhd₁ (by simp)

theorem enumFrom_map_snd {α : Type} (n : Nat) (l : List α) :
    (enumFrom n l).map Prod.snd = l := by
  induction l generalizing n with
  | nil => rfl
  | cons x xs ih => rw [enumFrom, List.map_cons, ih]

theorem enumFrom_mem_snd {α : Type} {n : Nat} {l : List α}
    {q : Nat × α} (h : q ∈ enumFrom n l) : q.2 ∈ l := by
  have := List.mem_map_of_mem Prod.snd h
  rwa [enumFrom_map_snd] at this

theorem enumFrom_pairwise {α : Type} {R : α → α → Prop} (n : Nat)
    {l : List α} (h : l.Pairwise R) :
    (enumFrom n l).Pairwise (fun p q => R p.2 q.2) := by
  induction l generalizing n with
  | nil => exact List.Pairwise.nil
  | cons x xs ih =>
    rw [List.pairwise_cons] at h
    rw [enumFrom, List.pairwise_cons]
    exact ⟨fun q hq => h.1 q.2 (enumFrom_mem_snd hq), ih (n + 1) h.2⟩

theorem slotOf_mono {t base : Nat} {a b : StageEvent}
    (h : a.start_epoch ≤ b.start_epoch) : slotOf t base a ≤ slotOf t base b := by
  simp only [slotOf, EPOCH_DURATION]
  have h30 : a.start_epoch * 30 ≤ b.start_epoch * 30 := by omega
  omega

/-- C3 fails as stated: for an event list that is not chronological, an
event lands in a bucket whose hour range does not contain its absolute
start time.  With start `2024-01-15 23:00:00` (= 63840956400 seconds,
hour-aligned), the second event starts at the start time itself (hour
offset 0) yet is emitted inside the single bucket labeled for hour
offset 1 (`"12:00 AM - 01:00 AM"`), whose range begins 3600 seconds
after the event's absolute start time. -/
theorem claim_C3_cex :
    group_events_by_hour [⟨120, "Wake", "1h"⟩, ⟨0, "Light", "30s"⟩]
        (some 63840956400)
      = some [⟨format_time_range (63840956400 + 3600 * 1)
                (63840956400 + 3600 * 1 + 3600),
              [(1, "Wake", "1h"), (2, "Light", "30s")]⟩] ∧
    63840956400 - 63840956400 % 3600 = 63840956400 ∧
    63840956400 + (0 : Nat) * EPOCH_DURATION < 63840956400 + 3600 * 1 := by
  refine ⟨?_, by decide, by decide⟩
  rfl

/-- C3, amended: for chronologically ordered event lists (nondecreasing
`start_epoch`), whenever `group_events_by_hour` returns (no datetime
overflow), it emits only non-empty hour buckets; the concatenation of all
buckets' triples is the globally 1-based enumeration of all events in
order; bucket labels are strictly increasing whole-hour ranges anchored
at the start time floored to the hour (consecutive steps, empty hours
skipped); each bucket holds exactly the events whose hour offset equals
the bucket's; and each event's absolute start time lies inside its
bucket's hour range. -/
theorem claim_C3_amended (events : List StageEvent) (t : Nat)
    (gs : List HourGroup)
    (hsorted : events.Chain' (fun a b => a.start_epoch ≤ b.start_epoch))
    (hg : group_events_by_hour events (some t) = some gs) :
    (∀ g ∈ gs, g.stages ≠ []) ∧
    (gs.map HourGroup.stages).join = enumStages events ∧
    (∃ ks : List Nat,
      ks.Chain' (· < ·) ∧
      gs.map HourGroup.hour_range
        = ks.map (fun k => format_time_range ((t - t % 3600) + 3600 * k)
            ((t - t % 3600) + 3600 * k + 3600)) ∧
      List.Forall₂ (fun (k : Nat) (g : HourGroup) =>
        g.stages = ((enumFrom 1 events).filter
          (fun q => slotOf t (t - t % 3600) q.2 = k)).map tripleOf) ks gs) ∧
    (∀ e ∈ events,
      (t - t % 3600) + 3600 * slotOf t (t - t % 3600) e
          ≤ t + e.start_epoch * EPOCH_DURATION ∧
      t + e.start_epoch * EPOCH_DURATION
          < (t - t % 3600) + 3600 * slotOf t (t - t % 3600) e + 3600) := by
  have hmodel := group_events_by_hour_eq_model hg
  have hpw : (enumFrom 1 events).Pairwise
      (fun p q => slotOf t (t - t % 3600) p.2 ≤ slotOf t (t - t % 3600) q.2) := by
    haveI : IsTrans StageEvent (fun a b => a.start_epoch ≤ b.start_epoch) :=
      ⟨fun _ _ _ hab hbc => le_trans hab hbc⟩
    have h1 := List.chain'_iff_pairwise.mp hsorted
    exact (enumFrom_pairwise 1 h1).imp fun hab => slotOf_mono hab
  refine ⟨?_, ?_, ?_, ?_⟩
  · rw [hmodel]
    exact bucketModel_nonempty t (t - t % 3600) (enumFrom 1 events) 0 []
  · rw [hmodel, bucketModel_join]
    rw [List.nil_append]
    rfl
  · obtain ⟨ks, hch, -, hlab, hfa, -⟩ :=
      bucketModel_buckets t (t - t % 3600) (enumFrom 1 events) [] 0
        (by simp) (by simp) hpw
    rw [show List.map tripleOf ([] : List (Nat × StageEvent)) = [] from rfl]
      at hlab hfa
    refine ⟨ks, hch, ?_, ?_⟩
    · rw [hmodel]
      exact hlab
    · rw [hmodel]
      simpa using hfa
  · intro e he
    simp only [slotOf]
    omega

/-- Witness for the amended C3 on a sorted two-event list spanning an
empty-free hour boundary. -/
theorem claim_C3_witness :
    (([⟨"11:00 PM - 12:00 AM", [(1, "Wake", "1m")]⟩,
       ⟨"12:00 AM - 01:00 AM", [(2, "Light", "30s")]⟩]
        : List HourGroup).map HourGroup.stages).join
      = enumStages [⟨0, "Wake", "1m"⟩, ⟨120, "Light", "30s"⟩] :=
  (claim_C3_amended [⟨0, "Wake", "1m"⟩, ⟨120, "Light", "30s"⟩] 63840956400
    [⟨"11:00 PM - 12:00 AM", [(1, "Wake", "1m")]⟩,
     ⟨"12:00 AM - 01:00 AM", [(2, "Light", "30s")]⟩]
    (by simp) rfl).2.1

/-! ## Claim C1: totality.

`format_json_compact` succeeds on every report the pipeline can build
(the only keys reaching the hour-group special case are the fixed report
keys and stage display names, which never collide with it), and the hour
grouper succeeds whenever the start time leaves an hour of room at the
top of the datetime range. -/

/-- JSON insignificant whitespace. -/
def isWsChar (c : Char) : Bool :=
  c = ' ' || c = '\n' || c = '\t' || c = '\r'

/-- Drop leading insignificant whitespace. -/
def skipWs : List Char → List Char
  | [] => []
  | c :: rest => if isWsChar c then skipWs rest else c :: rest

/-- Value of one hexadecimal digit, either case. -/
def hexVal (c : Char) : Option Nat :=
  if isDigit c then some (digitVal c)
  else if 97 ≤ c.toNat ∧ c.toNat ≤ 102 then some (c.toNat - 87)
  else if 65 ≤ c.toNat ∧ c.toNat ≤ 70 then some (c.toNat - 55)
  else none

/-- Meaning of a one-character escape (`\u` is handled separately). -/
def escMeaning (c : Char) : Option Char :=
  if c = '\x22' then some '\x22'
  else if c = '\x5c' then some '\x5c'
  else if c = '/' then some '/'
  else if c = 'n' then some '\n'
  else if c = 't' then some '\t'
  else if c = 'r' then some '\r'
  else if c = 'b' then some '\x08'
  else if c = 'f' then some '\x0c'
  else none

/-- First pass over a string body (the text after the opening quote, up
to and beyond the closing quote): decode escapes, keeping `\uXXXX` code
units apart (`Sum.inr`) so surrogate pairs can be recombined in a second
pass.  Returns the decoded tokens and the text after the closing
quote. -/
def strTokens : List Char → Option (List (Sum Char Nat) × List Char)
  | [] => none
  | c :: rest =>
    if c = '\x22' then some ([], rest)
    else if c = '\x5c' then
      match rest with
      | [] => none
      | e :: rest2 =>
        if e = 'u' then
          match rest2 with
          | a :: b :: c2 :: d :: rest3 =>
            match hexVal a, hexVal b, hexVal c2, hexVal d with
            | some va, some vb, some vc, some vd =>
              (strTokens rest3).map fun p =>
                (Sum.inr (((va * 16 + vb) * 16 + vc) * 16 + vd) :: p.1, p.2)
            | _, _, _, _ => none
          | _ => none
        else
          match escMeaning e with
          | some m => (strTokens rest2).map fun p => (Sum.inl m :: p.1, p.2)
          | none => none
    else
      (strTokens rest).map fun p => (Sum.inl c :: p.1, p.2)

/-- Second pass: recombine a high `\uXXXX` surrogate with an immediately
following low one, as `json.loads` does; a lone surrogate stays as its
code unit. -/
def combineSurrogates (l : List (Sum Char Nat)) : List Char :=
  match l with
  | [] => []
  | Sum.inl c :: ts => c :: combineSurrogates ts
  | Sum.inr v :: Sum.inr w :: ts =>
    if 0xd800 ≤ v ∧ v < 0xdc00 then
      if 0xdc00 ≤ w ∧ w < 0xe000 then
        Char.ofNat (0x10000 + (v - 0xd800) * 0x400 + (w - 0xdc00)) ::
          combineSurrogates ts
      else Char.ofNat v :: combineSurrogates (Sum.inr w :: ts)
    else Char.ofNat v :: combineSurrogates (Sum.inr w :: ts)
  | Sum.inr v :: ts => Char.ofNat v :: combineSurrogates ts
termination_by l.length
decreasing_by
  all_goals simp
  all_goals omega

/-- A JSON string body: decoded characters plus the text after the
closing quote. -/
def parseStringBody (l : List Char) : Option (List Char × List Char) :=
  (strTokens l).map fun p => (combineSurrogates p.1, p.2)

/-- Longest leading run of decimal digits. -/
def takeDigits : List Char → List Char × List Char
  | [] => ([], [])
  | c :: rest =>
    if isDigit c then
      let p := takeDigits rest
      (c :: p.1, p.2)
    else ([], c :: rest)

/-- Digits of a JSON integer literal after an optional minus sign: at
least one digit, no leading zero, and no fraction or exponent following
(those denote floats, which never occur in a report). -/
def parseNumTail (l : List Char) : Option (Nat × List Char) :=
  match takeDigits l with
  | ([], _) => none
  | (d :: ds, r) =>
    if d = '0' ∧ ds ≠ [] then none
    else if r.headD ' ' = '.' ∨ r.headD ' ' = 'e' ∨ r.headD ' ' = 'E' then none
    else some (listVal (d :: ds), r)

/-- A JSON integer literal. -/
def parseNumber (l : List Char) : Option (Int × List Char) :=
  match l with
  | [] => none
  | c :: rest =>
    if c = '-' then (parseNumTail rest).map fun p => (-(p.1 : Int), p.2)
    else (parseNumTail (c :: rest)).map fun p => ((p.1 : Int), p.2)

theorem skipWs_length (l : List Char) : (skipWs l).length ≤ l.length := by
  induction l with
  | nil => simp [skipWs]
  | cons c rest ih =>
    rw [skipWs]
    by_cases h : isWsChar c = true
    · rw [if_pos h]
      simp
      omega
    · rw [if_neg h]

theorem strTokens_length_aux :
    ∀ (n : Nat) (l : List Char), l.length ≤ n →
      ∀ ts r, strTokens l = some (ts, r) → r.length < l.length := by
  intro n
  induction n with
  | zero =>
    intro l hl ts r h
    cases l with
    | nil => rw [strTokens.eq_def] at h; exact absurd h (by simp)
    | cons c rest => simp at hl
  | succ n ih =>
    intro l hl ts r h
    cases l with
    | nil => rw [strTokens.eq_def] at h; exact absurd h (by simp)
    | cons c rest =>
      simp only [List.length_cons] at hl
      rw [strTokens.eq_def] at h
      dsimp only at h
      by_cases hq : c = '\x22'
      · rw [if_pos hq] at h
        simp only [Option.some.injEq, Prod.mk.injEq] at h
        simp [← h.2]
      · rw [if_neg hq] at h
        by_cases hb : c = '\x5c'
        · rw [if_pos hb] at h
          cases rest with
          | nil => cases h
          | cons e rest2 =>
            simp only [List.length_cons] at hl
            dsimp only at h
            by_cases hu : e = 'u'
            · rw [if_pos hu] at h
              rcases rest2 with _ | ⟨a, _ | ⟨b, _ | ⟨c2, _ | ⟨d, rest3⟩⟩⟩⟩
              · cases h
              · cases h
              · cases h
              · cases h
              · dsimp only at h
                rcases hha : hexVal a with _ | va <;> rw [hha] at h
                · cases h
                rcases hhb : hexVal b with _ | vb <;> rw [hhb] at h
                · cases h
                rcases hhc : hexVal c2 with _ | vc <;> rw [hhc] at h
                · cases h
                rcases hhd : hexVal d with _ | vd <;> rw [hhd] at h
                · cases h
                dsimp only at h
                rw [Option.map_eq_some'] at h
                obtain ⟨p, hp, heq⟩ := h
                have hr : r = p.2 := by
                  rw [Prod.mk.injEq] at heq
                  exact heq.2.symm
                subst hr
                have := ih rest3 (by simp at hl ⊢; omega) p.1 p.2 hp
                simp at hl ⊢
                omega
            · rw [if_neg hu] at h
              rcases hm : escMeaning e with _ | m <;> rw [hm] at h
              · cases h
              · dsimp only at h
                rw [Option.map_eq_some'] at h
                obtain ⟨p, hp, heq⟩ := h
                have hr : r = p.2 := by
                  rw [Prod.mk.injEq] at heq
                  exact heq.2.symm
                subst hr
                have := ih rest2 (by omega) p.1 p.2 hp
                simp at hl ⊢
                omega
        · rw [if_neg hb] at h
          rw [Option.map_eq_some'] at h
          obtain ⟨p, hp, heq⟩ := h
          have hr : r = p.2 := by
            rw [Prod.mk.injEq] at heq
            exact heq.2.symm
          subst hr
          have := ih rest (by omega) p.1 p.2 hp
          simp at hl ⊢
          omega

theorem strTokens_length {l r : List Char} {ts : List (Sum Char Nat)}
    (h : strTokens l = some (ts, r)) : r.length < l.length :=
  strTokens_length_aux l.length l (Nat.le_refl _) ts r h

theorem parseStringBody_length {l : List Char} {p : List Char × List Char}
    (h : parseStringBody l = some p) : p.2.length < l.length := by
  rw [parseStringBody, Option.map_eq_some'] at h
  obtain ⟨q, hq, heq⟩ := h
  rw [← heq]
  exact strTokens_length hq

theorem takeDigits_append (l : List Char) :
    (takeDigits l).1 ++ (takeDigits l).2 = l := by
  induction l with
  | nil => rfl
  | cons c rest ih =>
    rw [takeDigits]
    by_cases h : isDigit c = true
    · rw [if_pos h]
      simp [ih]
    · rw [if_neg h]
      rfl

theorem parseNumTail_length {l : List Char} {p : Nat × List Char}
    (h : parseNumTail l = some p) : p.2.length < l.length := by
  rw [parseNumTail] at h
  have happ := takeDigits_append l
  rcases htd : takeDigits l with ⟨ds, r⟩
  rw [htd] at h happ
  cases ds with
  | nil => cases h
  | cons d ds' =>
    dsimp only at h
    by_cases hz : d = '0' ∧ ds' ≠ []
    · rw [if_pos hz] at h
      cases h
    · rw [if_neg hz] at h
      by_cases hh : r.headD ' ' = '.' ∨ r.headD ' ' = 'e' ∨ r.headD ' ' = 'E'
      · rw [if_pos hh] at h
        cases h
      · rw [if_neg hh] at h
        simp only [Option.some.injEq] at h
        have hr : p.2 = r := by rw [← h]
        rw [hr, ← happ]
        simp
        omega

theorem parseNumber_length {l : List Char} {p : Int × List Char}
    (h : parseNumber l = some p) : p.2.length < l.length := by
  cases l with
  | nil => rw [parseNumber] at h; cases h
  | cons c rest =>
    rw [parseNumber] at h
    by_cases hm : c = '-'
    · rw [if_pos hm, Option.map_eq_some'] at h
      obtain ⟨q, hq, heq⟩ := h
      have := parseNumTail_length hq
      have hr : p.2 = q.2 := by rw [← heq]
      rw [hr]
      simp
      omega
    · rw [if_neg hm, Option.map_eq_some'] at h
      obtain ⟨q, hq, heq⟩ := h
      have := parseNumTail_length hq
      have hr : p.2 = q.2 := by rw [← heq]
      rw [hr]
      exact this

/-! The value parser itself.  Each parser returns the unconsumed suffix
bundled with a proof that it is strictly shorter than the input, which
also serves as the termination measure of the mutual recursion (input
length, then a tag ordering the value parser before the sequence
parsers). -/

mutual

/-- One JSON value: a string, an integer, an array `[...]` or an object
`\x7b...\x7d`, after optional leading whitespace. -/
def parseVal (l : List Char) :
    Option (JVal × {r : List Char // r.length < l.length}) :=
  match hw : skipWs l with
  | [] => none
  | c :: rest =>
    if c = '\x22' then
      match hs : parseStringBody rest with
      | some (cs, r) =>
        some (.jstr (String.mk cs), ⟨r, by
          have h1 := parseStringBody_length hs
          have h2 := skipWs_length l
          rw [hw] at h2
          simp only [List.length_cons] at h1 h2
          omega⟩)
      | none => none
    else if c = '[' then
      match hw2 : skipWs rest with
      | [] => none
      | c2 :: r2 =>
        if c2 = ']' then
          some (.jarr [], ⟨r2, by
            have h1 := skipWs_length l
            have h2 := skipWs_length rest
            rw [hw] at h1
            rw [hw2] at h2
            simp only [List.length_cons] at h1 h2
            omega⟩)
        else
          match he : parseElems (c2 :: r2) with
          | some (vs, ⟨r3, h3⟩) =>
            some (.jarr vs, ⟨r3, by
              have h1 := skipWs_length l
              have h2 := skipWs_length rest
              rw [hw] at h1
              rw [hw2] at h2
              simp only [List.length_cons] at h1 h2 h3
              omega⟩)
          | none => none
    else if c = '\x7b' then
      match hw2 : skipWs rest with
      | [] => none
      | c2 :: r2 =>
        if c2 = '\x7d' then
          some (.jobj [], ⟨r2, by
            have h1 := skipWs_length l
            have h2 := skipWs_length rest
            rw [hw] at h1
            rw [hw2] at h2
            simp only [List.length_cons] at h1 h2
            omega⟩)
        else
          match hm : parseMembers (c2 :: r2) with
          | some (ms, ⟨r3, h3⟩) =>
            some (.jobj ms, ⟨r3, by
              have h1 := skipWs_length l
              have h2 := skipWs_length rest
              rw [hw] at h1
              rw [hw2] at h2
              simp only [List.length_cons] at h1 h2 h3
              omega⟩)
          | none => none
    else
      match hn : parseNumber (c :: rest) with
      | some (i, r) =>
        some (.jint i, ⟨r, by
          have h1 := parseNumber_length hn
          have h2 := skipWs_length l
          rw [hw] at h2
          simp only [List.length_cons] at h1 h2
          omega⟩)
      | none => none
termination_by (l.length, 0)
decreasing_by
  · simp_wf
    apply Prod.Lex.left
    have h1 := skipWs_length l
    have h2 := skipWs_length rest
    rw [hw] at h1
    rw [hw2] at h2
    simp only [List.length_cons] at h1 h2 ⊢
    omega
  · simp_wf
    apply Prod.Lex.left
    have h1 := skipWs_length l
    have h2 := skipWs_length rest
    rw [hw] at h1
    rw [hw2] at h2
    simp only [List.length_cons] at h1 h2 ⊢
    omega

/-- Elements of an array after its opening bracket (and after any
elements already consumed): one value, then either `,` and more elements
or the closing `]`. -/
def parseElems (l : List Char) :
    Option (List JVal × {r : List Char // r.length < l.length}) :=
  match hv : parseVal l with
  | none => none
  | some (v, ⟨r1, h1⟩) =>
    match hw : skipWs r1 with
    | [] => none
    | c2 :: r2 =>
      if c2 = ',' then
        match he : parseElems r2 with
        | none => none
        | some (vs, ⟨r3, h3⟩) =>
          some (v :: vs, ⟨r3, by
            have h2 := skipWs_length r1
            rw [hw] at h2
            simp only [List.length_cons] at h2
            omega⟩)
      else if c2 = ']' then
        some ([v], ⟨r2, by
          have h2 := skipWs_length r1
          rw [hw] at h2
          simp only [List.length_cons] at h2
          omega⟩)
      else none
termination_by (l.length, 1)
decreasing_by
  · apply Prod.Lex.right
    omega
  · apply Prod.Lex.left
    have h2 := skipWs_length r1
    rw [hw] at h2
    simp only [List.length_cons] at h2 ⊢
    omega

/-- Members of an object after its opening brace: a quoted key, `:`, a
value, then either `,` and more members or the closing brace. -/
def parseMembers (l : List Char) :
    Option (List (String × JVal) × {r : List Char // r.length < l.length}) :=
  match hw0 : skipWs l with
  | [] => none
  | c0 :: r0 =>
    if c0 = '\x22' then
      match hs : parseStringBody r0 with
      | none => none
      | some (kcs, r1) =>
        match hw1 : skipWs r1 with
        | [] => none
        | c1 :: r2 =>
          if c1 = ':' then
            match hv : parseVal r2 with
            | none => none
            | some (v, ⟨r3, h3⟩) =>
              match hw2 : skipWs r3 with
              | [] => none
              | c3 :: r4 =>
                if c3 = ',' then
                  match hm : parseMembers r4 with
                  | none => none
                  | some (ms, ⟨r5, h5⟩) =>
                    some ((String.mk kcs, v) :: ms, ⟨r5, by
                      have ha := skipWs_length l
                      have hb := parseStringBody_length hs
                      have hc := skipWs_length r1
                      have hd := skipWs_length r3
                      rw [hw0] at ha
                      rw [hw1] at hc
                      rw [hw2] at hd
                      simp only [List.length_cons] at ha hb hc hd
                      omega⟩)
                else if c3 = '\x7d' then
                  some ([(String.mk kcs, v)], ⟨r4, by
                    have ha := skipWs_length l
                    have hb := parseStringBody_length hs
                    have hc := skipWs_length r1
                    have hd := skipWs_length r3
                    rw [hw0] at ha
                    rw [hw1] at hc
                    rw [hw2] at hd
                    simp only [List.length_cons] at ha hb hc hd
                    omega⟩)
                else none
          else none
    else none
termination_by (l.length, 1)
decreasing_by
  · apply Prod.Lex.left
    have ha := skipWs_length l
    have hb := parseStringBody_length hs
    have hc := skipWs_length r1
    rw [hw0] at ha
    rw [hw1] at hc
    simp only [List.length_cons] at ha hb hc ⊢
    omega
  · apply Prod.Lex.left
    have ha := skipWs_length l
    have hb := parseStringBody_length hs
    have hc := skipWs_length r1
    have hd := skipWs_length r3
    rw [hw0] at ha
    rw [hw1] at hc
    rw [hw2] at hd
    simp only [List.length_cons] at ha hb hc hd ⊢
    omega

end

/-- The value parser, stripped of the length proof. -/
def pv (l : List Char) : Option (JVal × List Char) :=
  (parseVal l).map fun p => (p.1, p.2.1)

/-- The element parser, stripped of the length proof. -/
def pe (l : List Char) : Option (List JVal × List Char) :=
  (parseElems l).map fun p => (p.1, p.2.1)

/-- The member parser, stripped of the length proof. -/
def pm (l : List Char) : Option (List (String × JVal) × List Char) :=
  (parseMembers l).map fun p => (p.1, p.2.1)

/-- `json.loads`: one value, then nothing but whitespace. -/
def parseJSON (s : String) : Option JVal :=
  match pv s.data with
  | some (v, r) => if skipWs r = [] then some v else none
  | none => none

/-! ### Safe characters and strings

Every string the pipeline places in a report consists of printable ASCII
characters other than the quote and the backslash, so `json.dumps` copies
it into the output verbatim between quotes.  The lemmas below establish
this for each producer of report text. -/

/-- Printable ASCII, not a quote (34) and not a backslash (92). -/
def safeChar (c : Char) : Bool :=
  decide (32 ≤ c.toNat ∧ c.toNat ≤ 126 ∧ c.toNat ≠ 34 ∧ c.toNat ≠ 92)

/-- All characters safe. -/
def safeStr (s : String) : Bool := s.data.all safeChar

theorem safeChar_digit {c : Char} (h : isDigit c = true) : safeChar c = true := by
  rw [isDigit] at h
  rw [safeChar, decide_eq_true_eq]
  simp at h
  omega

theorem safeStr_append (a b : String) :
    safeStr (a ++ b) = (safeStr a && safeStr b) := by
  rw [safeStr, safeStr, safeStr, String.data_append, List.all_append]

theorem safeStr_mk (l : List Char) :
    safeStr (String.mk l) = l.all safeChar := rfl

theorem natStr_safe (n : Nat) : safeStr (natStr n) = true := by
  rw [safeStr, natStr_data, List.all_eq_true]
  intro c hc
  exact safeChar_digit (natDigits_all_digit n c hc)

theorem intStr_safe (i : Int) : safeStr (intStr i) = true := by
  rw [intStr]
  by_cases h : i < 0
  · rw [if_pos h, safeStr_append]
    rw [show safeStr "-" = true from rfl, natStr_safe]
    rfl
  · rw [if_neg h]
    exact natStr_safe _

theorem stageDisplay_safe (c : Int) : safeStr (stageDisplay c) = true := by
  rw [stageDisplay]
  split_ifs
  · decide
  · decide
  · decide
  · decide
  · rw [safeStr_append, safeStr_append]
    rw [show safeStr "Unknown(" = true from by decide, intStr_safe]
    decide

theorem joinSep_safe {sep : String} (hsep : safeStr sep = true)
    {parts : List String} (hp : ∀ x ∈ parts, safeStr x = true) :
    safeStr (joinSep sep parts) = true := by
  induction parts with
  | nil => rfl
  | cons x xs ih =>
    cases xs with
    | nil =>
      rw [joinSep]
      exact hp x (by simp)
    | cons y ys =>
      rw [joinSep, safeStr_append, safeStr_append]
      rw [hp x (by simp), hsep, ih (fun z hz => hp z (by simp [hz]))]
      rfl

theorem intercalate_go_eq (sep : String) (as : List String) :
    ∀ acc : String, String.intercalate.go acc sep as = joinSep sep (acc :: as) := by
  induction as with
  | nil => intro acc; rfl
  | cons a as ih =>
    intro acc
    rw [String.intercalate.go, ih]
    cases as with
    | nil =>
      rw [joinSep, joinSep]
      apply congrArg String.mk ∘ congrArg String.data |>.comp id
      rfl
    | cons b bs =>
      rw [joinSep]
      conv_rhs => rw [joinSep]
      rw [joinSep]
      apply String.ext
      simp [String.data_append]

theorem joinSep_eq_intercalate (sep : String) (parts : List String) :
    String.intercalate sep parts = joinSep sep parts := by
  cases parts with
  | nil => rfl
  | cons a as =>
    rw [String.intercalate, intercalate_go_eq]

theorem format_duration_safe (n : Nat) : safeStr (format_duration n) = true := by
  rw [format_duration]
  by_cases h : n = 0
  · rw [if_pos h]; decide
  · rw [if_neg h]
    rw [joinSep_eq_intercalate]
    apply joinSep_safe (by decide)
    intro x hx
    simp only [List.mem_append] at hx
    rcases hx with (hx | hx) | hx <;>
    · split_ifs at hx <;> simp at hx <;>
        rw [hx, safeStr_append, natStr_safe] <;> decide

theorem fmtPct_safe (c t : Nat) : safeStr (fmtPct c t) = true := by
  rw [fmtPct]
  rw [safeStr_append, safeStr_append, safeStr_append, natStr_safe, natStr_safe]
  decide

theorem pad2_safe (n : Nat) : safeStr (pad2 n) = true := by
  rw [pad2]
  split_ifs
  · rw [safeStr_append, natStr_safe]
    decide
  · exact natStr_safe n

theorem fmtClock_safe (t : Nat) : safeStr (fmtClock t) = true := by
  rw [fmtClock]
  rw [safeStr_append, safeStr_append, safeStr_append, pad2_safe, pad2_safe]
  split_ifs <;> decide

theorem format_time_range_safe (a b : Nat) :
    safeStr (format_time_range a b) = true := by
  rw [format_time_range, safeStr_append, safeStr_append, fmtClock_safe,
    fmtClock_safe]
  decide

/-! ### `json.dumps` output on safe strings, and reading it back -/

theorem escChar_safe {c : Char} (h : safeChar c = true) :
    escChar c = String.mk [c] := by
  rw [safeChar, decide_eq_true_eq] at h
  rw [escChar]
  rw [if_neg (fun heq => absurd h (by subst heq; decide))]
  rw [if_neg (fun heq => absurd h (by subst heq; decide))]
  rw [if_neg (fun heq => absurd h (by subst heq; decide))]
  rw [if_neg (fun heq => absurd h (by subst heq; decide))]
  rw [if_neg (fun heq => absurd h (by subst heq; decide))]
  rw [if_neg (fun heq => absurd h (by subst heq; decide))]
  rw [if_neg (fun heq => absurd h (by subst heq; decide))]
  rw [if_pos ⟨h.1, h.2.1⟩]

theorem join_data (L : List String) :
    ∀ acc : String, (L.foldl (fun r s => r ++ s) acc).data
      = acc.data ++ (L.map String.data).flatten := by
  induction L with
  | nil => intro acc; simp
  | cons x xs ih =>
    intro acc
    rw [List.foldl_cons, ih]
    simp [String.data_append]

theorem escMap_flatten : ∀ (l : List Char), (∀ c ∈ l, safeChar c = true) →
    ((l.map escChar).map String.data).flatten = l := by
  intro l
  induction l with
  | nil => intro _; rfl
  | cons c cs ih =>
    intro h
    simp only [List.map_cons, List.flatten_cons]
    rw [escChar_safe (h c (by simp))]
    rw [ih (fun x hx => h x (by simp [hx]))]
    rfl

theorem dumpString_data {s : String} (h : safeStr s = true) :
    (dumpString s).data = '\x22' :: (s.data ++ ['\x22']) := by
  rw [dumpString]
  rw [String.data_append, String.data_append]
  rw [show (String.join (s.data.map escChar)).data
      = ("" : String).data ++ ((s.data.map escChar).map String.data).flatten
    from join_data _ _]
  rw [safeStr, List.all_eq_true] at h
  rw [escMap_flatten s.data h]
  simp

theorem strTokens_safe {cs : List Char} (h : ∀ c ∈ cs, safeChar c = true)
    (rest : List Char) :
    strTokens (cs ++ '\x22' :: rest) = some (cs.map Sum.inl, rest) := by
  induction cs with
  | nil =>
    rw [List.nil_append, strTokens.eq_def]
    dsimp only
    rw [if_pos rfl]
    rfl
  | cons c cs ih =>
    have hc := h c (by simp)
    rw [safeChar, decide_eq_true_eq] at hc
    rw [List.cons_append, strTokens.eq_def]
    dsimp only
    rw [if_neg (fun heq => absurd hc (by subst heq; decide))]
    rw [if_neg (fun heq => absurd hc (by subst heq; decide))]
    rw [ih (fun x hx => h x (by simp [hx]))]
    rfl

theorem combineSurrogates_inl (cs : List Char) :
    combineSurrogates (cs.map Sum.inl) = cs := by
  induction cs with
  | nil =>
    rw [List.map_nil, combineSurrogates.eq_def]
  | cons c cs ih =>
    rw [List.map_cons, combineSurrogates.eq_def]
    dsimp only
    rw [ih]

theorem parseStringBody_safe {cs : List Char}
    (h : ∀ c ∈ cs, safeChar c = true) (rest : List Char) :
    parseStringBody (cs ++ '\x22' :: rest) = some (cs, rest) := by
  rw [parseStringBody, strTokens_safe h rest]
  rw [Option.map_some']
  rw [combineSurrogates_inl]

theorem takeDigits_digits {ds : List Char} (h : ∀ c ∈ ds, isDigit c = true)
    {rest : List Char} (hr : isDigit (rest.headD ' ') = false) :
    takeDigits (ds ++ rest) = (ds, rest) := by
  induction ds with
  | nil =>
    rw [List.nil_append]
    cases rest with
    | nil => rfl
    | cons c r =>
      rw [takeDigits]
      simp only [List.headD_cons] at hr
      rw [if_neg (by rw [hr]; exact Bool.false_ne_true)]
  | cons d ds ih =>
    rw [List.cons_append, takeDigits]
    rw [if_pos (h d (by simp))]
    rw [ih (fun x hx => h x (by simp [hx]))]

theorem parseNumber_natDigits (n : Nat) {rest : List Char}
    (h1 : isDigit (rest.headD ' ') = false)
    (h2 : rest.headD ' ' ≠ '.') (h3 : rest.headD ' ' ≠ 'e')
    (h4 : rest.headD ' ' ≠ 'E') :
    parseNumber (natDigits n ++ rest) = some ((n : Int), rest) := by
  rcases hnd : natDigits n with _ | ⟨d, ds⟩
  · exact absurd hnd (natDigits_ne_nil n)
  have hdig : ∀ c ∈ natDigits n, isDigit c = true := natDigits_all_digit n
  have hd : isDigit d = true := hdig d (by rw [hnd]; simp)
  rw [List.cons_append, parseNumber]
  rw [if_neg (fun heq => absurd hd (by subst heq; decide))]
  rw [← List.cons_append, ← hnd, parseNumTail]
  rw [takeDigits_digits hdig h1, hnd]
  dsimp only
  have hz : ¬ (d = '0' ∧ ds ≠ []) := by
    rintro ⟨hd0, hds⟩
    by_cases hn : n < 10
    · rw [natDigits_small n hn] at hnd
      injection hnd with _ h2'
      exact hds h2'.symm
    · have := natDigits_head_ne_zero n (by omega)
      rw [hnd] at this
      simp at this
      exact this.1 hd0
  rw [if_neg hz]
  rw [if_neg (by
    push_neg
    refine ⟨h2, h3, h4⟩)]
  rw [← hnd, Option.map_some', listVal_natDigits]

/-! ### Inversion lemmas for the three parsers

Each lemma drives one parser across one grammar production, with the
layout facts (`skipWs` of the remaining text) as hypotheses.  Only the
successful cases are needed: the round trip parses serializer output. -/

theorem pv_of_string {l r0 cs r : List Char}
    (hw : skipWs l = '\x22' :: r0)
    (hs : parseStringBody r0 = some (cs, r)) :
    pv l = some (.jstr (String.mk cs), r) := by
  rw [pv, parseVal.eq_def]
  split
  · rename_i heq
    rw [hw] at heq
    exact absurd heq (by simp)
  · rename_i c rest heq
    rw [hw] at heq
    injection heq with h1 h2
    subst h1
    subst h2
    rw [if_pos rfl]
    split
    · rename_i cs0 r0h hs0
      rw [hs] at hs0
      injection hs0 with h3
      injection h3 with h4 h5
      subst h4
      subst h5
      rfl
    · rename_i hs0
      rw [hs] at hs0
      exact absurd hs0 (by simp)

theorem pv_arr_nil {l tail r2 : List Char}
    (hw : skipWs l = '[' :: tail)
    (hw2 : skipWs tail = ']' :: r2) :
    pv l = some (.jarr [], r2) := by
  rw [pv, parseVal.eq_def]
  split
  · rename_i heq
    rw [hw] at heq
    exact absurd heq (by simp)
  · rename_i c rest heq
    rw [hw] at heq
    injection heq with h1 h2
    subst h1
    subst h2
    rw [if_neg (by decide), if_pos rfl]
    split
    · rename_i heq2
      rw [hw2] at heq2
      exact absurd heq2 (by simp)
    · rename_i c2 r2h heq2
      rw [hw2] at heq2
      injection heq2 with h3 h4
      subst h3
      subst h4
      rw [if_pos rfl]
      rfl

theorem pv_arr_cons {l tail r2 rx : List Char} {c2 : Char} {vs : List JVal}
    (hw : skipWs l = '[' :: tail)
    (hw2 : skipWs tail = c2 :: r2)
    (hc2 : c2 ≠ ']')
    (hpe : pe (c2 :: r2) = some (vs, rx)) :
    pv l = some (.jarr vs, rx) := by
  rw [pe, Option.map_eq_some'] at hpe
  obtain ⟨⟨vs0, r0sub⟩, hpe0, heq0⟩ := hpe
  obtain ⟨r0, hlen0⟩ := r0sub
  dsimp only at heq0
  injection heq0 with ha hb
  subst ha
  subst hb
  rw [pv, parseVal.eq_def]
  split
  · rename_i heq
    rw [hw] at heq
    exact absurd heq (by simp)
  · rename_i c rest heq
    rw [hw] at heq
    injection heq with h1 h2
    subst h1
    subst h2
    rw [if_neg (by decide), if_pos rfl]
    split
    · rename_i heq2
      rw [hw2] at heq2
      exact absurd heq2 (by simp)
    · rename_i c2h r2h heq2
      rw [hw2] at heq2
      injection heq2 with h3 h4
      subst h3
      subst h4
      rw [if_neg hc2]
      split
      · rename_i vs1 r1 hlen1 he1
        rw [hpe0] at he1
        injection he1 with h5
        injection h5 with h6 h7
        subst h6
        injection h7 with h8
        subst h8
        rfl
      · rename_i he1
        rw [hpe0] at he1
        exact absurd he1 (by simp)

theorem pv_obj_nil {l tail r2 : List Char}
    (hw : skipWs l = '\x7b' :: tail)
    (hw2 : skipWs tail = '\x7d' :: r2) :
    pv l = some (.jobj [], r2) := by
  rw [pv, parseVal.eq_def]
  split
  · rename_i heq
    rw [hw] at heq
    exact absurd heq (by simp)
  · rename_i c rest heq
    rw [hw] at heq
    injection heq with h1 h2
    subst h1
    subst h2
    rw [if_neg (by decide), if_neg (by decide), if_pos rfl]
    split
    · rename_i heq2
      rw [hw2] at heq2
      exact absurd heq2 (by simp)
    · rename_i c2 r2h heq2
      rw [hw2] at heq2
      injection heq2 with h3 h4
      subst h3
      subst h4
      rw [if_pos rfl]
      rfl

theorem pv_obj_cons {l tail r2 rx : List Char} {c2 : Char}
    {ms : List (String × JVal)}
    (hw : skipWs l = '\x7b' :: tail)
    (hw2 : skipWs tail = c2 :: r2)
    (hc2 : c2 ≠ '\x7d')
    (hpm : pm (c2 :: r2) = some (ms, rx)) :
    pv l = some (.jobj ms, rx) := by
  rw [pm, Option.map_eq_some'] at hpm
  obtain ⟨⟨ms0, r0sub⟩, hpm0, heq0⟩ := hpm
  obtain ⟨r0, hlen0⟩ := r0sub
  dsimp only at heq0
  injection heq0 with ha hb
  subst ha
  subst hb
  rw [pv, parseVal.eq_def]
  split
  · rename_i heq
    rw [hw] at heq
    exact absurd heq (by simp)
  · rename_i c rest heq
    rw [hw] at heq
    injection heq with h1 h2
    subst h1
    subst h2
    rw [if_neg (by decide), if_neg (by decide), if_pos rfl]
    split
    · rename_i heq2
      rw [hw2] at heq2
      exact absurd heq2 (by simp)
    · rename_i c2h r2h heq2
      rw [hw2] at heq2
      injection heq2 with h3 h4
      subst h3
      subst h4
      rw [if_neg hc2]
      split
      · rename_i ms1 r1 hlen1 hm1
        rw [hpm0] at hm1
        injection hm1 with h5
        injection h5 with h6 h7
        subst h6
        injection h7 with h8
        subst h8
        rfl
      · rename_i hm1
        rw [hpm0] at hm1
        exact absurd hm1 (by simp)

theorem pv_num {l rest r : List Char} {c : Char} {i : Int}
    (hw : skipWs l = c :: rest)
    (h1 : c ≠ '\x22') (h2 : c ≠ '[') (h3 : c ≠ '\x7b')
    (hn : parseNumber (c :: rest) = some (i, r)) :
    pv l = some (.jint i, r) := by
  rw [pv, parseVal.eq_def]
  split
  · rename_i heq
    rw [hw] at heq
    exact absurd heq (by simp)
  · rename_i c0 rest0 heq
    rw [hw] at heq
    injection heq with ha hb
    subst ha
    subst hb
    rw [if_neg h1, if_neg h2, if_neg h3]
    split
    · rename_i i0 r0 hn0
      rw [hn] at hn0
      injection hn0 with h4
      injection h4 with h5 h6
      subst h5
      subst h6
      rfl
    · rename_i hn0
      rw [hn] at hn0
      exact absurd hn0 (by simp)

theorem pe_cons {l r2 r3 : List Char} {r1 : List Char} {v : JVal}
    {vs : List JVal}
    (hv : pv l = some (v, r1))
    (hw : skipWs r1 = ',' :: r2)
    (hrest : pe r2 = some (vs, r3)) :
    pe l = some (v :: vs, r3) := by
  rw [pv, Option.map_eq_some'] at hv
  obtain ⟨⟨v0, r1sub⟩, hv0, heqv⟩ := hv
  obtain ⟨r10, hlen10⟩ := r1sub
  dsimp only at heqv
  injection heqv with ha hb
  subst ha
  subst hb
  rw [pe, Option.map_eq_some'] at hrest
  obtain ⟨⟨vs0, r3sub⟩, hr0, heqr⟩ := hrest
  obtain ⟨r30, hlen30⟩ := r3sub
  dsimp only at heqr
  injection heqr with hc hd
  subst hc
  subst hd
  rw [pe, parseElems.eq_def]
  split
  · rename_i hv1
    rw [hv0] at hv1
    exact absurd hv1 (by simp)
  · rename_i v1 r11 hlen11 hv1
    rw [hv0] at hv1
    injection hv1 with h4
    injection h4 with h5 h6
    subst h5
    injection h6 with h7
    subst h7
    split
    · rename_i heq2
      rw [hw] at heq2
      exact absurd heq2 (by simp)
    · rename_i c2 r2h heq2
      rw [hw] at heq2
      injection heq2 with h8 h9
      subst h8
      subst h9
      rw [if_pos rfl]
      split
      · rename_i he1
        rw [hr0] at he1
        exact absurd he1 (by simp)
      · rename_i vs1 r31 hlen31 he1
        rw [hr0] at he1
        injection he1 with h10
        injection h10 with h11 h12
        subst h11
        injection h12 with h13
        subst h13
        rfl

theorem pe_last {l r2 : List Char} {r1 : List Char} {v : JVal}
    (hv : pv l = some (v, r1))
    (hw : skipWs r1 = ']' :: r2) :
    pe l = some ([v], r2) := by
  rw [pv, Option.map_eq_some'] at hv
  obtain ⟨⟨v0, r1sub⟩, hv0, heqv⟩ := hv
  obtain ⟨r10, hlen10⟩ := r1sub
  dsimp only at heqv
  injection heqv with ha hb
  subst ha
  subst hb
  rw [pe, parseElems.eq_def]
  split
  · rename_i hv1
    rw [hv0] at hv1
    exact absurd hv1 (by simp)
  · rename_i v1 r11 hlen11 hv1
    rw [hv0] at hv1
    injection hv1 with h4
    injection h4 with h5 h6
    subst h5
    injection h6 with h7
    subst h7
    split
    · rename_i heq2
      rw [hw] at heq2
      exact absurd heq2 (by simp)
    · rename_i c2 r2h heq2
      rw [hw] at heq2
      injection heq2 with h8 h9
      subst h8
      subst h9
      rw [if_neg (by decide), if_pos rfl]
      rfl

theorem pm_cons {l r0 r2 r4 : List Char} {r1 r3 r5 : List Char}
    {kcs : List Char} {v : JVal} {ms : List (String × JVal)}
    (hw0 : skipWs l = '\x22' :: r0)
    (hs : parseStringBody r0 = some (kcs, r1))
    (hw1 : skipWs r1 = ':' :: r2)
    (hv : pv r2 = some (v, r3))
    (hw2 : skipWs r3 = ',' :: r4)
    (hms : pm r4 = some (ms, r5)) :
    pm l = some ((String.mk kcs, v) :: ms, r5) := by
  rw [pv, Option.map_eq_some'] at hv
  obtain ⟨⟨v0, r3sub⟩, hv0, heqv⟩ := hv
  obtain ⟨r30, hlen30⟩ := r3sub
  dsimp only at heqv
  injection heqv with ha hb
  subst ha
  subst hb
  rw [pm, Option.map_eq_some'] at hms
  obtain ⟨⟨ms0, r5sub⟩, hm0, heqm⟩ := hms
  obtain ⟨r50, hlen50⟩ := r5sub
  dsimp only at heqm
  injection heqm with hc hd
  subst hc
  subst hd
  rw [pm, parseMembers.eq_def]
  split
  · rename_i heq
    rw [hw0] at heq
    exact absurd heq (by simp)
  · rename_i c0h r0h heq
    rw [hw0] at heq
    injection heq with h1 h2
    subst h1
    subst h2
    rw [if_pos rfl]
    split
    · rename_i hs0
      rw [hs] at hs0
      exact absurd hs0 (by simp)
    · rename_i kcs0 r10 hs0
      rw [hs] at hs0
      injection hs0 with h3
      injection h3 with h4 h5
      subst h4
      subst h5
      split
      · rename_i heq1
        rw [hw1] at heq1
        exact absurd heq1 (by simp)
      · rename_i c1h r2h heq1
        rw [hw1] at heq1
        injection heq1 with h6 h7
        subst h6
        subst h7
        rw [if_pos rfl]
        split
        · rename_i hv1
          rw [hv0] at hv1
          exact absurd hv1 (by simp)
        · rename_i v1 r31 hlen31 hv1
          rw [hv0] at hv1
          injection hv1 with h8
          injection h8 with h9 h10
          subst h9
          injection h10 with h11
          subst h11
          split
          · rename_i heq2
            rw [hw2] at heq2
            exact absurd heq2 (by simp)
          · rename_i c3h r4h heq2
            rw [hw2] at heq2
            injection heq2 with h12 h13
            subst h12
            subst h13
            rw [if_pos rfl]
            split
            · rename_i hm1
              rw [hm0] at hm1
              exact absurd hm1 (by simp)
            · rename_i ms1 r51 hlen51 hm1
              rw [hm0] at hm1
              injection hm1 with h14
              injection h14 with h15 h16
              subst h15
              injection h16 with h17
              subst h17
              rfl

theorem pm_last {l r0 r2 r4 : List Char} {r1 r3 : List Char}
    {kcs : List Char} {v : JVal}
    (hw0 : skipWs l = '\x22' :: r0)
    (hs : parseStringBody r0 = some (kcs, r1))
    (hw1 : skipWs r1 = ':' :: r2)
    (hv : pv r2 = some (v, r3))
    (hw2 : skipWs r3 = '\x7d' :: r4) :
    pm l = some ([(String.mk kcs, v)], r4) := by
  rw [pv, Option.map_eq_some'] at hv
  obtain ⟨⟨v0, r3sub⟩, hv0, heqv⟩ := hv
  obtain ⟨r30, hlen30⟩ := r3sub
  dsimp only at heqv
  injection heqv with ha hb
  subst ha
  subst hb
  rw [pm, parseMembers.eq_def]
  split
  · rename_i heq
    rw [hw0] at heq
    exact absurd heq (by simp)
  · rename_i c0h r0h heq
    rw [hw0] at heq
    injection heq with h1 h2
    subst h1
    subst h2
    rw [if_pos rfl]
    split
    · rename_i hs0
      rw [hs] at hs0
      exact absurd hs0 (by simp)
    · rename_i kcs0 r10 hs0
      rw [hs] at hs0
      injection hs0 with h3
      injection h3 with h4 h5
      subst h4
      subst h5
      split
      · rename_i heq1
        rw [hw1] at heq1
        exact absurd heq1 (by simp)
      · rename_i c1h r2h heq1
        rw [hw1] at heq1
        injection heq1 with h6 h7
        subst h6
        subst h7
        rw [if_pos rfl]
        split
        · rename_i hv1
          rw [hv0] at hv1
          exact absurd hv1 (by simp)
        · rename_i v1 r31 hlen31 hv1
          rw [hv0] at hv1
          injection hv1 with h8
          injection h8 with h9 h10
          subst h9
          injection h10 with h11
          subst h11
          split
          · rename_i heq2
            rw [hw2] at heq2
            exact absurd heq2 (by simp)
          · rename_i c3h r4h heq2
            rw [hw2] at heq2
            injection heq2 with h12 h13
            subst h12
            subst h13
            rw [if_neg (by decide), if_pos rfl]
            rfl

/-! ### Layout lemmas: whitespace skipping over the emitted text -/

theorem skipWs_not {c : Char} (h : isWsChar c = false) (l : List Char) :
    skipWs (c :: l) = c :: l := by
  simp [skipWs, h]

theorem skipWs_one {c : Char} (h : isWsChar c = true) (l : List Char) :
    skipWs (c :: l) = skipWs l := by
  simp [skipWs, h]

theorem skipWs_all {pre : List Char} (h : ∀ c ∈ pre, isWsChar c = true)
    (l : List Char) : skipWs (pre ++ l) = skipWs l := by
  induction pre with
  | nil => rfl
  | cons c cs ih =>
    rw [List.cons_append, skipWs_one (h c (by simp))]
    exact ih (fun x hx => h x (by simp [hx]))

theorem isWsChar_false_of {c : Char} (h1 : c ≠ ' ') (h2 : c ≠ '\n')
    (h3 : c ≠ '\t') (h4 : c ≠ '\r') : isWsChar c = false := by
  simp [isWsChar, h1, h2, h3, h4]

theorem isWsChar_digit {c : Char} (h : isDigit c = true) :
    isWsChar c = false :=
  isWsChar_false_of
    (fun heq => absurd h (by subst heq; decide))
    (fun heq => absurd h (by subst heq; decide))
    (fun heq => absurd h (by subst heq; decide))
    (fun heq => absurd h (by subst heq; decide))

/-! ### Values of the emitted grammar, parsed back -/

theorem pv_string_at {l rest : List Char} {s : String}
    (hsafe : safeStr s = true)
    (hw : skipWs l = (dumpString s).data ++ rest) :
    pv l = some (.jstr s, rest) := by
  rw [dumpString_data hsafe, List.cons_append, List.append_assoc] at hw
  exact pv_of_string hw
    (parseStringBody_safe (by rw [safeStr, List.all_eq_true] at hsafe; exact hsafe) rest)

theorem pv_nat_at {l rest : List Char} (n : Nat)
    (hw : skipWs l = natDigits n ++ rest)
    (h1 : isDigit (rest.headD ' ') = false)
    (h2 : rest.headD ' ' ≠ '.') (h3 : rest.headD ' ' ≠ 'e')
    (h4 : rest.headD ' ' ≠ 'E') :
    pv l = some (.jint (n : Int), rest) := by
  rcases hnd : natDigits n with _ | ⟨d, ds⟩
  · exact absurd hnd (natDigits_ne_nil n)
  have hd : isDigit d = true :=
    natDigits_all_digit n d (by rw [hnd]; simp)
  rw [hnd, List.cons_append] at hw
  refine pv_num hw
    (fun heq => absurd hd (by subst heq; decide))
    (fun heq => absurd hd (by subst heq; decide))
    (fun heq => absurd hd (by subst heq; decide)) ?_
  rw [← List.cons_append, ← hnd]
  exact parseNumber_natDigits n h1 h2 h3 h4

/-- The `[index, stage, duration]` triple as a JSON value (the shape
`groupToJVal` gives each stage entry). -/
def tripleJ (tr : Nat × String × String) : JVal :=
  .jarr [.jint tr.1, .jstr tr.2.1, .jstr tr.2.2]

theorem dumps_triple_data (tr : Nat × String × String) :
    (dumps (tripleJ tr)).data ++ rest
      = '[' :: (natDigits tr.1 ++ (',' :: ' ' ::
          ((dumpString tr.2.1).data ++ (',' :: ' ' ::
            ((dumpString tr.2.2).data ++ (']' :: rest)))))) := by
  rw [tripleJ, dumps]
  rw [show dumpsList [JVal.jint ↑tr.1, JVal.jstr tr.2.1, JVal.jstr tr.2.2]
      = [dumps (JVal.jint ↑tr.1), dumps (JVal.jstr tr.2.1),
         dumps (JVal.jstr tr.2.2)] from by
    rw [dumpsList, dumpsList, dumpsList, dumpsList]]
  rw [joinSep, joinSep, joinSep]
  rw [show dumps (JVal.jint ↑tr.1) = intStr ↑tr.1 from by rw [dumps]]
  rw [show dumps (JVal.jstr tr.2.1) = dumpString tr.2.1 from by rw [dumps]]
  rw [show dumps (JVal.jstr tr.2.2) = dumpString tr.2.2 from by rw [dumps]]
  simp only [String.data_append, intStr_data_nonneg]
  simp [List.append_assoc]

theorem pv_triple_at {l rest : List Char} (tr : Nat × String × String)
    (h1 : safeStr tr.2.1 = true) (h2 : safeStr tr.2.2 = true)
    (hw : skipWs l = (dumps (tripleJ tr)).data ++ rest) :
    pv l = some (tripleJ tr, rest) := by
  rw [dumps_triple_data tr] at hw
  rcases hnd : natDigits tr.1 with _ | ⟨d, ds⟩
  · exact absurd hnd (natDigits_ne_nil tr.1)
  have hd : isDigit d = true :=
    natDigits_all_digit tr.1 d (by rw [hnd]; simp)
  have hB : skipWs ((dumpString tr.2.2).data ++ (']' :: rest))
      = (dumpString tr.2.2).data ++ (']' :: rest) := by
    rw [dumpString_data h2, List.cons_append]
    exact skipWs_not (by decide) _
  have hA : skipWs ((dumpString tr.2.1).data ++ (',' :: ' ' ::
      ((dumpString tr.2.2).data ++ (']' :: rest))))
      = (dumpString tr.2.1).data ++ (',' :: ' ' ::
        ((dumpString tr.2.2).data ++ (']' :: rest))) := by
    rw [dumpString_data h1, List.cons_append]
    exact skipWs_not (by decide) _
  have hpe2 : pe (' ' :: ((dumpString tr.2.2).data ++ (']' :: rest)))
      = some ([.jstr tr.2.2], rest) := by
    refine pe_last (pv_string_at h2 ?_) (skipWs_not (by decide) _)
    rw [skipWs_one (by decide)]
    exact hB
  have hpe1 : pe (' ' :: ((dumpString tr.2.1).data ++ (',' :: ' ' ::
      ((dumpString tr.2.2).data ++ (']' :: rest)))))
      = some ([.jstr tr.2.1, .jstr tr.2.2], rest) := by
    refine pe_cons (pv_string_at h1 ?_) (skipWs_not (by decide) _) hpe2
    rw [skipWs_one (by decide)]
    exact hA
  have hN : skipWs (natDigits tr.1 ++ (',' :: ' ' ::
      ((dumpString tr.2.1).data ++ (',' :: ' ' ::
        ((dumpString tr.2.2).data ++ (']' :: rest))))))
      = natDigits tr.1 ++ (',' :: ' ' ::
        ((dumpString tr.2.1).data ++ (',' :: ' ' ::
          ((dumpString tr.2.2).data ++ (']' :: rest))))) := by
    rw [hnd, List.cons_append]
    exact skipWs_not (isWsChar_digit hd) _
  have hpe0 : pe (natDigits tr.1 ++ (',' :: ' ' ::
      ((dumpString tr.2.1).data ++ (',' :: ' ' ::
        ((dumpString tr.2.2).data ++ (']' :: rest))))))
      = some ([.jint ↑tr.1, .jstr tr.2.1, .jstr tr.2.2], rest) := by
    refine pe_cons (pv_nat_at tr.1 hN ?_ ?_ ?_ ?_)
      (skipWs_not (by decide) _) hpe1
    · rw [List.headD_cons]
      decide
    · rw [List.headD_cons]
      decide
    · rw [List.headD_cons]
      decide
    · rw [List.headD_cons]
      decide
  have hw2 : skipWs (natDigits tr.1 ++ (',' :: ' ' ::
      ((dumpString tr.2.1).data ++ (',' :: ' ' ::
        ((dumpString tr.2.2).data ++ (']' :: rest))))))
      = d :: (ds ++ (',' :: ' ' ::
        ((dumpString tr.2.1).data ++ (',' :: ' ' ::
          ((dumpString tr.2.2).data ++ (']' :: rest)))))) := by
    rw [hnd, List.cons_append]
    exact skipWs_not (isWsChar_digit hd) _
  rw [hnd, List.cons_append] at hpe0
  exact pv_arr_cons hw hw2 (fun heq => absurd hd (by subst heq; decide)) hpe0

theorem joinNL_cons_data {ys : List String} (x : String) (h : ys ≠ []) :
    (joinNL (x :: ys)).data = x.data ++ '\n' :: (joinNL ys).data := by
  cases ys with
  | nil => exact absurd rfl h
  | cons y ys =>
    rw [joinNL, joinSep]
    rw [String.data_append, String.data_append]
    rw [show ("\n" : String).data = ['\n'] from rfl]
    rw [← joinNL]
    simp

theorem dumps_pair_data (a b : String) (rest : List Char) :
    (dumps (.jarr [.jstr a, .jstr b])).data ++ rest
      = '[' :: ((dumpString a).data ++ (',' :: ' ' ::
          ((dumpString b).data ++ (']' :: rest)))) := by
  rw [dumps]
  rw [show dumpsList [JVal.jstr a, JVal.jstr b]
      = [dumps (JVal.jstr a), dumps (JVal.jstr b)] from by
    rw [dumpsList, dumpsList, dumpsList]]
  rw [joinSep, joinSep]
  rw [show dumps (JVal.jstr a) = dumpString a from by rw [dumps]]
  rw [show dumps (JVal.jstr b) = dumpString b from by rw [dumps]]
  simp only [String.data_append]
  simp [List.append_assoc]

theorem pv_pair_at {l rest : List Char} (a b : String)
    (ha : safeStr a = true) (hb : safeStr b = true)
    (hw : skipWs l = (dumps (.jarr [.jstr a, .jstr b])).data ++ rest) :
    pv l = some (.jarr [.jstr a, .jstr b], rest) := by
  rw [dumps_pair_data a b rest] at hw
  have hB : skipWs ((dumpString b).data ++ (']' :: rest))
      = (dumpString b).data ++ (']' :: rest) := by
    rw [dumpString_data hb, List.cons_append]
    exact skipWs_not (by decide) _
  have hA : skipWs ((dumpString a).data ++ (',' :: ' ' ::
      ((dumpString b).data ++ (']' :: rest))))
      = (dumpString a).data ++ (',' :: ' ' ::
        ((dumpString b).data ++ (']' :: rest))) := by
    rw [dumpString_data ha, List.cons_append]
    exact skipWs_not (by decide) _
  have hpe2 : pe (' ' :: ((dumpString b).data ++ (']' :: rest)))
      = some ([.jstr b], rest) := by
    refine pe_last (pv_string_at hb ?_) (skipWs_not (by decide) _)
    rw [skipWs_one (by decide)]
    exact hB
  have hpe1 : pe ((dumpString a).data ++ (',' :: ' ' ::
      ((dumpString b).data ++ (']' :: rest))))
      = some ([.jstr a, .jstr b], rest) :=
    pe_cons (pv_string_at ha hA) (skipWs_not (by decide) _) hpe2
  have hw2 : skipWs ((dumpString a).data ++ (',' :: ' ' ::
      ((dumpString b).data ++ (']' :: rest))))
      = '\x22' :: ((a.data ++ ['\x22']) ++ (',' :: ' ' ::
        ((dumpString b).data ++ (']' :: rest)))) := by
    rw [dumpString_data ha, List.cons_append]
    exact skipWs_not (by decide) _
  rw [dumpString_data ha, List.cons_append] at hpe1
  exact pv_arr_cons hw hw2 (by decide) hpe1

/-! ### The `stages` block of an hour group, parsed back -/

/-- Text following a stage triple inside the `stages` array: either the
closing-bracket line or a comma and the remaining triple lines. -/
def stagesCont (L : List String) : List (Nat × String × String) → List Char
  | [] => '\n' :: (joinNL ("      ]" :: L)).data
  | tr2 :: ts2 => ',' :: '\n' ::
      (joinNL (linesWithCommas "        " ((tr2 :: ts2).map tripleJ)
        ++ "      ]" :: L)).data

theorem stage_lines_data (tr : Nat × String × String)
    (ts : List (Nat × String × String)) (L : List String) (hL : L ≠ []) :
    (joinNL (linesWithCommas "        " ((tr :: ts).map tripleJ)
        ++ "      ]" :: L)).data
      = ("        ").data ++ ((dumps (tripleJ tr)).data ++ stagesCont L ts) := by
  cases ts with
  | nil =>
    rw [List.map_cons, List.map_nil, linesWithCommas]
    rw [List.cons_append, List.nil_append]
    rw [joinNL_cons_data _ (by simp)]
    rw [String.data_append]
    rw [stagesCont]
    simp [List.append_assoc]
  | cons tr2 ts2 =>
    rw [List.map_cons, List.map_cons, linesWithCommas]
    rw [List.cons_append]
    rw [joinNL_cons_data _ (by simp)]
    rw [String.data_append, String.data_append]
    rw [stagesCont]
    rw [← List.map_cons]
    simp [List.append_assoc]

theorem pe_stages : ∀ (ts : List (Nat × String × String))
    (tr : Nat × String × String),
    (∀ x ∈ tr :: ts, safeStr x.2.1 = true ∧ safeStr x.2.2 = true) →
    ∀ (w : List Char), (∀ c ∈ w, isWsChar c = true) →
    ∀ (L : List String), L ≠ [] →
    pe (w ++ ((dumps (tripleJ tr)).data ++ stagesCont L ts))
      = some ((tr :: ts).map tripleJ, '\n' :: (joinNL L).data) := by
  intro ts
  induction ts with
  | nil =>
    intro tr hsafe w hw L hL
    rw [stagesCont]
    rw [joinNL_cons_data _ hL]
    have hpv : pv (w ++ ((dumps (tripleJ tr)).data ++
        '\n' :: (("      ]").data ++ '\n' :: (joinNL L).data)))
        = some (tripleJ tr,
          '\n' :: (("      ]").data ++ '\n' :: (joinNL L).data)) := by
      refine pv_triple_at tr (hsafe tr (by simp)).1 (hsafe tr (by simp)).2 ?_
      rw [skipWs_all hw, dumps_triple_data]
      exact skipWs_not (by decide) _
    refine pe_last hpv ?_
    show skipWs (('\n' :: [' ', ' ', ' ', ' ', ' ', ' ']) ++
      (']' :: ('\n' :: (joinNL L).data))) = ']' :: ('\n' :: (joinNL L).data)
    rw [skipWs_all (by decide)]
    exact skipWs_not (by decide) _
  | cons tr2 ts2 ih =>
    intro tr hsafe w hw L hL
    rw [stagesCont]
    have hpv : pv (w ++ ((dumps (tripleJ tr)).data ++
        ',' :: '\n' :: (joinNL (linesWithCommas "        "
          ((tr2 :: ts2).map tripleJ) ++ "      ]" :: L)).data))
        = some (tripleJ tr,
          ',' :: '\n' :: (joinNL (linesWithCommas "        "
            ((tr2 :: ts2).map tripleJ) ++ "      ]" :: L)).data) := by
      refine pv_triple_at tr (hsafe tr (by simp)).1 (hsafe tr (by simp)).2 ?_
      rw [skipWs_all hw, dumps_triple_data]
      exact skipWs_not (by decide) _
    refine pe_cons hpv (skipWs_not (by decide) _) ?_
    rw [stage_lines_data tr2 ts2 L hL]
    exact ih tr2 (fun x hx => hsafe x (by simp [hx]))
      ('\n' :: ("        ").data) (by decide) L hL

/-! ### Hour-group lines: the printer side and the reader side -/

/-- The lines `hourGroupLines ""` produces for a list of well-shaped hour
groups (top-level report, so the surrounding indent is empty). -/
def hgLines : List HourGroup → List String
  | [] => []
  | g :: gs =>
    ["    \x7b",
     "      \"hour_range\": " ++ dumps (.jstr g.hour_range) ++ ",",
     "      \"stages\": ["] ++
    linesWithCommas "        " (g.stages.map tripleJ) ++
    ["      ]",
     "    \x7d" ++ (if gs.isEmpty then "" else ",")] ++ hgLines gs

theorem hourGroupLines_map (gs : List HourGroup) :
    hourGroupLines "" (gs.map groupToJVal) = some (hgLines gs) := by
  induction gs with
  | nil => rfl
  | cons g gs ih =>
    rw [List.map_cons, groupToJVal, hourGroupLines]
    simp only [jlookup, iterElems, if_true, Option.getD_some, Option.pure_def,
      Option.bind_eq_bind', Option.some_bind]
    rw [ih]
    simp only [Option.some_bind]
    rw [hgLines]
    have hie : (List.map groupToJVal gs).isEmpty = gs.isEmpty := by
      cases gs <;> rfl
    rw [hie]
    rfl

/-- The character stream of one printed hour group after its opening
brace, given the groups after it and the lines after the closing
bracket. -/
def groupRest (g : HourGroup) (gs : List HourGroup) (L : List String) :
    List Char :=
  '\n' :: (("      ").data ++ '\x22' :: (("hour_range").data ++
    ('\x22' :: ':' :: ' ' :: ((dumpString g.hour_range).data ++
      (',' :: '\n' :: (("      ").data ++ '\x22' :: (("stages").data ++
        ('\x22' :: ':' :: ' ' :: '[' ::
          ('\n' :: (joinNL (linesWithCommas "        " (g.stages.map tripleJ)
            ++ "      ]" :: ("    \x7d" ++ (if gs.isEmpty then "" else ",")) ::
              (hgLines gs ++ "  ]" :: L))).data)))))))))

theorem group_lines_data (g : HourGroup) (gs : List HourGroup)
    (L : List String) :
    (joinNL (hgLines (g :: gs) ++ "  ]" :: L)).data
      = ("    ").data ++ '\x7b' :: groupRest g gs L := by
  rw [hgLines, groupRest]
  rw [show (["    \x7b",
      "      \"hour_range\": " ++ dumps (.jstr g.hour_range) ++ ",",
      "      \"stages\": ["] ++
      linesWithCommas "        " (g.stages.map tripleJ) ++
      ["      ]", "    \x7d" ++ (if gs.isEmpty then "" else ",")] ++
      hgLines gs) ++ "  ]" :: L
    = "    \x7b" ::
      ("      \"hour_range\": " ++ dumps (.jstr g.hour_range) ++ ",") ::
      "      \"stages\": [" ::
      (linesWithCommas "        " (g.stages.map tripleJ) ++
        "      ]" :: ("    \x7d" ++ (if gs.isEmpty then "" else ",")) ::
          (hgLines gs ++ "  ]" :: L)) from by simp]
  rw [joinNL_cons_data _ (by simp)]
  rw [joinNL_cons_data _ (by simp)]
  rw [joinNL_cons_data _ (by simp)]
  rw [show dumps (JVal.jstr g.hour_range) = dumpString g.hour_range
    from by rw [dumps]]
  simp only [String.data_append]
  simp [List.append_assoc]

set_option maxHeartbeats 1000000 in
theorem pv_group (g : HourGroup) (gs : List HourGroup) (L : List String)
    (hL : L ≠ []) (hhr : safeStr g.hour_range = true)
    (hts : ∀ tr ∈ g.stages, safeStr tr.2.1 = true ∧ safeStr tr.2.2 = true)
    (w : List Char) (hw : ∀ c ∈ w, isWsChar c = true) :
    pv (w ++ ('\x7b' :: groupRest g gs L))
      = some (groupToJVal g,
          (if gs.isEmpty then "" else ",").data ++
            '\n' :: (joinNL (hgLines gs ++ "  ]" :: L)).data) := by
  rw [groupRest]
  have hARR : pv (' ' :: ('[' ::
      ('\n' :: (joinNL (linesWithCommas "        " (g.stages.map tripleJ)
        ++ "      ]" :: ("    \x7d" ++ (if gs.isEmpty then "" else ",")) ::
          (hgLines gs ++ "  ]" :: L))).data)))
      = some (.jarr (g.stages.map tripleJ),
          '\n' :: (joinNL (("    \x7d" ++ (if gs.isEmpty then "" else ",")) ::
            (hgLines gs ++ "  ]" :: L))).data) := by
    rcases hst : g.stages with _ | ⟨tr, ts'⟩
    · rw [List.map_nil, linesWithCommas, List.nil_append]
      rw [joinNL_cons_data _ (by simp)]
      have hwA : skipWs (' ' :: ('[' ::
          ('\n' :: (("      ]").data ++
            '\n' :: (joinNL (("    \x7d" ++
              (if gs.isEmpty then "" else ",")) ::
                (hgLines gs ++ "  ]" :: L))).data))))
          = '[' :: ('\n' :: (("      ]").data ++
            '\n' :: (joinNL (("    \x7d" ++
              (if gs.isEmpty then "" else ",")) ::
                (hgLines gs ++ "  ]" :: L))).data)) := by
        rw [skipWs_one (by decide)]
        exact skipWs_not (by decide) _
      refine pv_arr_nil hwA ?_
      show skipWs (('\n' :: [' ', ' ', ' ', ' ', ' ', ' ']) ++
        (']' :: ('\n' :: (joinNL
          (("    \x7d" ++ (if gs.isEmpty then "" else ",")) ::
            (hgLines gs ++ "  ]" :: L))).data))) = _
      rw [skipWs_all (by decide)]
      exact skipWs_not (by decide) _
    · rw [stage_lines_data tr ts' _ (by simp)]
      have h0 : skipWs ('\n' :: (("        ").data ++
          ((dumps (tripleJ tr)).data ++
            stagesCont (("    \x7d" ++ (if gs.isEmpty then "" else ",")) ::
              (hgLines gs ++ "  ]" :: L)) ts')))
          = (dumps (tripleJ tr)).data ++
            stagesCont (("    \x7d" ++ (if gs.isEmpty then "" else ",")) ::
              (hgLines gs ++ "  ]" :: L)) ts' := by
        show skipWs (('\n' :: ("        ").data) ++ _) = _
        rw [skipWs_all (by decide)]
        rw [dumps_triple_data]
        exact skipWs_not (by decide) _
      have hp := pe_stages ts' tr
        (fun x hx => hts x (by rw [hst]; exact hx)) [] (by simp)
        (("    \x7d" ++ (if gs.isEmpty then "" else ",")) ::
          (hgLines gs ++ "  ]" :: L)) (by simp)
      rw [List.nil_append, dumps_triple_data] at hp
      nth_rewrite 2 [dumps_triple_data] at h0
      have hwA : skipWs (' ' :: ('[' ::
          ('\n' :: (("        ").data ++
            ((dumps (tripleJ tr)).data ++
              stagesCont (("    \x7d" ++ (if gs.isEmpty then "" else ",")) ::
                (hgLines gs ++ "  ]" :: L)) ts')))))
          = '[' :: ('\n' :: (("        ").data ++
            ((dumps (tripleJ tr)).data ++
              stagesCont (("    \x7d" ++ (if gs.isEmpty then "" else ",")) ::
                (hgLines gs ++ "  ]" :: L)) ts'))) := by
        rw [skipWs_one (by decide)]
        exact skipWs_not (by decide) _
      exact pv_arr_cons hwA h0 (by decide) hp
  have hAA : skipWs ('\n' :: (joinNL
      (("    \x7d" ++ (if gs.isEmpty then "" else ",")) ::
        (hgLines gs ++ "  ]" :: L))).data)
      = '\x7d' :: ((if gs.isEmpty then "" else ",").data ++
          '\n' :: (joinNL (hgLines gs ++ "  ]" :: L)).data) := by
    rw [joinNL_cons_data _ (by simp)]
    rw [String.data_append]
    show skipWs (('\n' :: [' ', ' ', ' ', ' ']) ++
      ('\x7d' :: ((if gs.isEmpty then "" else ",").data ++
        '\n' :: (joinNL (hgLines gs ++ "  ]" :: L)).data))) = _
    rw [skipWs_all (by decide)]
    exact skipWs_not (by decide) _
  have hw0S : skipWs ('\n' :: (("      ").data ++ '\x22' :: (("stages").data ++
      ('\x22' :: ':' :: ' ' :: '[' ::
        ('\n' :: (joinNL (linesWithCommas "        " (g.stages.map tripleJ)
          ++ "      ]" :: ("    \x7d" ++ (if gs.isEmpty then "" else ",")) ::
            (hgLines gs ++ "  ]" :: L))).data)))))
      = '\x22' :: (("stages").data ++
        ('\x22' :: ':' :: ' ' :: '[' ::
          ('\n' :: (joinNL (linesWithCommas "        " (g.stages.map tripleJ)
            ++ "      ]" :: ("    \x7d" ++ (if gs.isEmpty then "" else ",")) ::
              (hgLines gs ++ "  ]" :: L))).data))) := by
    show skipWs (('\n' :: ("      ").data) ++ ('\x22' :: _)) = _
    rw [skipWs_all (by decide)]
    exact skipWs_not (by decide) _
  have hsS : parseStringBody (("stages").data ++
      ('\x22' :: ':' :: ' ' :: '[' ::
        ('\n' :: (joinNL (linesWithCommas "        " (g.stages.map tripleJ)
          ++ "      ]" :: ("    \x7d" ++ (if gs.isEmpty then "" else ",")) ::
            (hgLines gs ++ "  ]" :: L))).data)))
      = some (("stages").data,
          ':' :: ' ' :: '[' ::
            ('\n' :: (joinNL (linesWithCommas "        " (g.stages.map tripleJ)
              ++ "      ]" :: ("    \x7d" ++
                (if gs.isEmpty then "" else ",")) ::
                (hgLines gs ++ "  ]" :: L))).data)) :=
    parseStringBody_safe (by decide) _
  have hw1S : skipWs (':' :: ' ' :: '[' ::
      ('\n' :: (joinNL (linesWithCommas "        " (g.stages.map tripleJ)
        ++ "      ]" :: ("    \x7d" ++ (if gs.isEmpty then "" else ",")) ::
          (hgLines gs ++ "  ]" :: L))).data))
      = ':' :: (' ' :: '[' ::
        ('\n' :: (joinNL (linesWithCommas "        " (g.stages.map tripleJ)
          ++ "      ]" :: ("    \x7d" ++ (if gs.isEmpty then "" else ",")) ::
            (hgLines gs ++ "  ]" :: L))).data)) :=
    skipWs_not (by decide) _
  have hPM2 := pm_last hw0S hsS hw1S hARR hAA
  have hPV : pv (' ' :: ((dumpString g.hour_range).data ++
      (',' :: '\n' :: (("      ").data ++ '\x22' :: (("stages").data ++
        ('\x22' :: ':' :: ' ' :: '[' ::
          ('\n' :: (joinNL (linesWithCommas "        " (g.stages.map tripleJ)
            ++ "      ]" :: ("    \x7d" ++ (if gs.isEmpty then "" else ",")) ::
              (hgLines gs ++ "  ]" :: L))).data)))))))
      = some (.jstr g.hour_range,
          ',' :: '\n' :: (("      ").data ++ '\x22' :: (("stages").data ++
            ('\x22' :: ':' :: ' ' :: '[' ::
              ('\n' :: (joinNL (linesWithCommas "        "
                (g.stages.map tripleJ)
                ++ "      ]" :: ("    \x7d" ++
                  (if gs.isEmpty then "" else ",")) ::
                  (hgLines gs ++ "  ]" :: L))).data))))) := by
    refine pv_string_at hhr ?_
    rw [skipWs_one (by decide)]
    rw [dumpString_data hhr, List.cons_append]
    exact skipWs_not (by decide) _
  have hwC : skipWs (',' :: '\n' :: (("      ").data ++ '\x22' ::
      (("stages").data ++ ('\x22' :: ':' :: ' ' :: '[' ::
        ('\n' :: (joinNL (linesWithCommas "        " (g.stages.map tripleJ)
          ++ "      ]" :: ("    \x7d" ++ (if gs.isEmpty then "" else ",")) ::
            (hgLines gs ++ "  ]" :: L))).data)))))
      = ',' :: ('\n' :: (("      ").data ++ '\x22' ::
        (("stages").data ++ ('\x22' :: ':' :: ' ' :: '[' ::
          ('\n' :: (joinNL (linesWithCommas "        " (g.stages.map tripleJ)
            ++ "      ]" :: ("    \x7d" ++ (if gs.isEmpty then "" else ",")) ::
              (hgLines gs ++ "  ]" :: L))).data))))) :=
    skipWs_not (by decide) _
  have hw0K : skipWs ('\x22' :: (("hour_range").data ++
      ('\x22' :: ':' :: ' ' :: ((dumpString g.hour_range).data ++
        (',' :: '\n' :: (("      ").data ++ '\x22' :: (("stages").data ++
          ('\x22' :: ':' :: ' ' :: '[' ::
            ('\n' :: (joinNL (linesWithCommas "        "
              (g.stages.map tripleJ)
              ++ "      ]" :: ("    \x7d" ++
                (if gs.isEmpty then "" else ",")) ::
                (hgLines gs ++ "  ]" :: L))).data)))))))))
      = '\x22' :: (("hour_range").data ++
        ('\x22' :: ':' :: ' ' :: ((dumpString g.hour_range).data ++
          (',' :: '\n' :: (("      ").data ++ '\x22' :: (("stages").data ++
            ('\x22' :: ':' :: ' ' :: '[' ::
              ('\n' :: (joinNL (linesWithCommas "        "
                (g.stages.map tripleJ)
                ++ "      ]" :: ("    \x7d" ++
                  (if gs.isEmpty then "" else ",")) ::
                  (hgLines gs ++ "  ]" :: L))).data)))))))) :=
    skipWs_not (by decide) _
  have hsK : parseStringBody (("hour_range").data ++
      ('\x22' :: ':' :: ' ' :: ((dumpString g.hour_range).data ++
        (',' :: '\n' :: (("      ").data ++ '\x22' :: (("stages").data ++
          ('\x22' :: ':' :: ' ' :: '[' ::
            ('\n' :: (joinNL (linesWithCommas "        "
              (g.stages.map tripleJ)
              ++ "      ]" :: ("    \x7d" ++
                (if gs.isEmpty then "" else ",")) ::
                (hgLines gs ++ "  ]" :: L))).data))))))))
      = some (("hour_range").data,
          ':' :: ' ' :: ((dumpString g.hour_range).data ++
            (',' :: '\n' :: (("      ").data ++ '\x22' :: (("stages").data ++
              ('\x22' :: ':' :: ' ' :: '[' ::
                ('\n' :: (joinNL (linesWithCommas "        "
                  (g.stages.map tripleJ)
                  ++ "      ]" :: ("    \x7d" ++
                    (if gs.isEmpty then "" else ",")) ::
                    (hgLines gs ++ "  ]" :: L))).data))))))) :=
    parseStringBody_safe (by decide) _
  have hw1K : skipWs (':' :: ' ' :: ((dumpString g.hour_range).data ++
      (',' :: '\n' :: (("      ").data ++ '\x22' :: (("stages").data ++
        ('\x22' :: ':' :: ' ' :: '[' ::
          ('\n' :: (joinNL (linesWithCommas "        " (g.stages.map tripleJ)
            ++ "      ]" :: ("    \x7d" ++ (if gs.isEmpty then "" else ",")) ::
              (hgLines gs ++ "  ]" :: L))).data)))))))
      = ':' :: (' ' :: ((dumpString g.hour_range).data ++
        (',' :: '\n' :: (("      ").data ++ '\x22' :: (("stages").data ++
          ('\x22' :: ':' :: ' ' :: '[' ::
            ('\n' :: (joinNL (linesWithCommas "        " (g.stages.map tripleJ)
              ++ "      ]" :: ("    \x7d" ++
                (if gs.isEmpty then "" else ",")) ::
                (hgLines gs ++ "  ]" :: L))).data))))))) :=
    skipWs_not (by decide) _
  have hPM := pm_cons hw0K hsK hw1K hPV hwC hPM2
  have hOB2 : skipWs ('\n' :: (("      ").data ++ '\x22' ::
      (("hour_range").data ++
        ('\x22' :: ':' :: ' ' :: ((dumpString g.hour_range).data ++
          (',' :: '\n' :: (("      ").data ++ '\x22' :: (("stages").data ++
            ('\x22' :: ':' :: ' ' :: '[' ::
              ('\n' :: (joinNL (linesWithCommas "        "
                (g.stages.map tripleJ)
                ++ "      ]" :: ("    \x7d" ++
                  (if gs.isEmpty then "" else ",")) ::
                  (hgLines gs ++ "  ]" :: L))).data))))))))))
      = '\x22' :: (("hour_range").data ++
        ('\x22' :: ':' :: ' ' :: ((dumpString g.hour_range).data ++
          (',' :: '\n' :: (("      ").data ++ '\x22' :: (("stages").data ++
            ('\x22' :: ':' :: ' ' :: '[' ::
              ('\n' :: (joinNL (linesWithCommas "        "
                (g.stages.map tripleJ)
                ++ "      ]" :: ("    \x7d" ++
                  (if gs.isEmpty then "" else ",")) ::
                  (hgLines gs ++ "  ]" :: L))).data)))))))) := by
    show skipWs (('\n' :: ("      ").data) ++ ('\x22' :: _)) = _
    rw [skipWs_all (by decide)]
    exact skipWs_not (by decide) _
  refine pv_obj_cons ?_ hOB2 (by decide) hPM
  rw [skipWs_all hw]
  exact skipWs_not (by decide) _

theorem pe_groups : ∀ (gs : List HourGroup) (g : HourGroup),
    (∀ x ∈ g :: gs, safeStr x.hour_range = true ∧
      ∀ tr ∈ x.stages, safeStr tr.2.1 = true ∧ safeStr tr.2.2 = true) →
    ∀ (w : List Char), (∀ c ∈ w, isWsChar c = true) →
    ∀ (L : List String), L ≠ [] →
    pe (w ++ ('\x7b' :: groupRest g gs L))
      = some ((g :: gs).map groupToJVal, '\n' :: (joinNL L).data) := by
  intro gs
  induction gs with
  | nil =>
    intro g hsafe w hw L hL
    have hpv := pv_group g [] L hL (hsafe g (by simp)).1
      (hsafe g (by simp)).2 w hw
    refine pe_last hpv ?_
    show skipWs ('\n' :: (joinNL ("  ]" :: L)).data)
      = ']' :: ('\n' :: (joinNL L).data)
    rw [joinNL_cons_data _ hL]
    show skipWs (('\n' :: [' ', ' ']) ++ (']' :: ('\n' :: (joinNL L).data))) = _
    rw [skipWs_all (by decide)]
    exact skipWs_not (by decide) _
  | cons g2 gs' ih =>
    intro g hsafe w hw L hL
    have hpv := pv_group g (g2 :: gs') L hL (hsafe g (by simp)).1
      (hsafe g (by simp)).2 w hw
    have hcm : skipWs ((if (g2 :: gs').isEmpty then "" else ",").data ++
        '\n' :: (joinNL (hgLines (g2 :: gs') ++ "  ]" :: L)).data)
        = ',' :: ('\n' ::
            (joinNL (hgLines (g2 :: gs') ++ "  ]" :: L)).data) := by
      show skipWs (',' :: ('\n' ::
        (joinNL (hgLines (g2 :: gs') ++ "  ]" :: L)).data)) = _
      exact skipWs_not (by decide) _
    refine pe_cons hpv hcm ?_
    rw [group_lines_data g2 gs' L]
    exact ih g2 (fun x hx => hsafe x (by simp [hx]))
      ('\n' :: ("    ").data) (by decide) L hL

/-! ### Summary entries: the printer side and the reader side -/

/-- The lines `formatItems 1` produces for the stage-summary object
(none of whose keys hits a special case). -/
def sumLines : List (String × List String) → List String
  | [] => []
  | (k, vs) :: rest =>
    ("    \x22" ++ k ++ "\x22: " ++ dumps (.jarr (vs.map .jstr)) ++
      (if rest.isEmpty then "" else ",")) :: sumLines rest

theorem formatItems_summary_eq : ∀ (entries : List (String × List String)),
    (∀ p ∈ entries, p.1 ≠ "stages" ∧ p.1 ≠ "sleep_stages_by_hour") →
    formatItems 1 (entries.map fun p => (p.1, JVal.jarr (p.2.map .jstr)))
      = some (sumLines entries) := by
  intro entries
  induction entries with
  | nil => intro _; rfl
  | cons e es ih =>
    intro hk
    obtain ⟨k, vs⟩ := e
    rw [List.map_cons, formatItems]
    rw [if_neg (fun hc => (hk (k, vs) (by simp)).1 hc.1)]
    rw [if_neg (hk (k, vs) (by simp)).2]
    rw [show formatValue (JVal.jarr (vs.map .jstr)) (1 + 1)
      = some (dumps (JVal.jarr (vs.map .jstr))) from by rw [formatValue]]
    simp only [Option.pure_def, Option.bind_eq_bind', Option.map_some',
      Option.some_bind]
    rw [ih (fun p hp => hk p (by simp [hp]))]
    simp only [Option.some_bind]
    rw [sumLines]
    have hie : (es.map fun p => (p.1, JVal.jarr (p.2.map .jstr))).isEmpty
        = es.isEmpty := by
      cases es <;> rfl
    rw [hie]
    rfl

theorem formatValue_summary_eq (entries : List (String × List String))
    (hne : entries ≠ [])
    (hk : ∀ p ∈ entries, p.1 ≠ "stages" ∧ p.1 ≠ "sleep_stages_by_hour") :
    formatValue (.jobj (entries.map fun p => (p.1, JVal.jarr (p.2.map .jstr)))) 1
      = some (joinNL ("\x7b" :: sumLines entries ++ ["  \x7d"])) := by
  cases entries with
  | nil => exact absurd rfl hne
  | cons e es =>
    rw [List.map_cons, formatValue]
    rw [show (e.1, JVal.jarr (List.map JVal.jstr e.2)) ::
        List.map (fun p => (p.1, JVal.jarr (List.map JVal.jstr p.2))) es
      = List.map (fun p => (p.1, JVal.jarr (List.map JVal.jstr p.2))) (e :: es)
      from rfl]
    rw [formatItems_summary_eq _ hk]
    rw [Option.map_some']
    rfl

/-- Text following a summary entry value: either the closing-brace line
or a comma and the remaining entry lines. -/
def sumCont (after : List Char) : List (String × List String) → List Char
  | [] => '\n' :: (' ' :: ' ' :: '\x7d' :: after)
  | e2 :: es' => ',' :: '\n' ::
      ((joinNL (sumLines (e2 :: es') ++ ["  \x7d"])).data ++ after)

theorem sum_lines_data (k : String) (vs : List String)
    (es : List (String × List String)) (after : List Char) :
    (joinNL (sumLines ((k, vs) :: es) ++ ["  \x7d"])).data ++ after
      = ' ' :: ' ' :: ' ' :: ' ' :: '\x22' :: (k.data ++
          ('\x22' :: ':' :: ' ' ::
            ((dumps (.jarr (vs.map .jstr))).data ++ sumCont after es))) := by
  cases es with
  | nil =>
    rw [sumLines, sumLines, sumCont]
    rw [List.cons_append, List.nil_append]
    rw [joinNL_cons_data _ (by simp)]
    simp only [String.data_append]
    simp [List.append_assoc]
    rw [show (joinNL ["  \x7d"]).data = [' ', ' ', '\x7d'] from rfl]
    simp
  | cons e2 es' =>
    rw [show sumLines ((k, vs) :: e2 :: es')
      = ("    \x22" ++ k ++ "\x22: " ++ dumps (.jarr (vs.map .jstr)) ++ ",")
        :: sumLines (e2 :: es') from by rw [sumLines]; rfl]
    rw [sumCont]
    rw [List.cons_append]
    rw [joinNL_cons_data _ (by simp)]
    simp only [String.data_append]
    simp [List.append_assoc]

theorem pm_entries : ∀ (es : List (String × List String)) (k : String)
    (vs : List String),
    (∀ p ∈ (k, vs) :: es, safeStr p.1 = true ∧
      ∃ a b, p.2 = [a, b] ∧ safeStr a = true ∧ safeStr b = true) →
    ∀ (w : List Char), (∀ c ∈ w, isWsChar c = true) →
    ∀ (after : List Char),
    pm (w ++ ('\x22' :: (k.data ++ ('\x22' :: ':' :: ' ' ::
        ((dumps (.jarr (vs.map .jstr))).data ++ sumCont after es)))))
      = some (((k, vs) :: es).map fun p => (p.1, JVal.jarr (p.2.map .jstr)),
          after) := by
  intro es
  induction es with
  | nil =>
    intro k vs hsh w hw after
    obtain ⟨-, a, b, hvs, ha, hb⟩ := hsh (k, vs) (by simp)
    have hks : safeStr k = true := (hsh (k, vs) (by simp)).1
    rw [sumCont]
    subst hvs
    have hw0 : skipWs (w ++ ('\x22' :: (k.data ++ ('\x22' :: ':' :: ' ' ::
        ((dumps (.jarr [.jstr a, .jstr b])).data ++
          ('\n' :: (' ' :: ' ' :: '\x7d' :: after)))))))
        = '\x22' :: (k.data ++ ('\x22' :: ':' :: ' ' ::
          ((dumps (.jarr [.jstr a, .jstr b])).data ++
            ('\n' :: (' ' :: ' ' :: '\x7d' :: after))))) := by
      rw [skipWs_all hw]
      exact skipWs_not (by decide) _
    have hs : parseStringBody (k.data ++ ('\x22' :: ':' :: ' ' ::
        ((dumps (.jarr [.jstr a, .jstr b])).data ++
          ('\n' :: (' ' :: ' ' :: '\x7d' :: after)))))
        = some (k.data, ':' :: ' ' ::
          ((dumps (.jarr [.jstr a, .jstr b])).data ++
            ('\n' :: (' ' :: ' ' :: '\x7d' :: after)))) :=
      parseStringBody_safe (by rw [safeStr, List.all_eq_true] at hks
                               exact hks) _
    have hw1 : skipWs (':' :: ' ' ::
        ((dumps (.jarr [.jstr a, .jstr b])).data ++
          ('\n' :: (' ' :: ' ' :: '\x7d' :: after))))
        = ':' :: (' ' :: ((dumps (.jarr [.jstr a, .jstr b])).data ++
            ('\n' :: (' ' :: ' ' :: '\x7d' :: after)))) :=
      skipWs_not (by decide) _
    have hv : pv (' ' :: ((dumps (.jarr [.jstr a, .jstr b])).data ++
        ('\n' :: (' ' :: ' ' :: '\x7d' :: after))))
        = some (.jarr [.jstr a, .jstr b],
            '\n' :: (' ' :: ' ' :: '\x7d' :: after)) := by
      refine pv_pair_at a b ha hb ?_
      rw [skipWs_one (by decide)]
      rw [dumps_pair_data, dumpString_data ha, List.cons_append]
      exact skipWs_not (by decide) _
    have hw2 : skipWs ('\n' :: (' ' :: ' ' :: '\x7d' :: after))
        = '\x7d' :: after := by
      show skipWs (('\n' :: [' ', ' ']) ++ ('\x7d' :: after)) = _
      rw [skipWs_all (by decide)]
      exact skipWs_not (by decide) _
    exact pm_last hw0 hs hw1 hv hw2
  | cons e2 es' ih =>
    intro k vs hsh w hw after
    obtain ⟨-, a, b, hvs, ha, hb⟩ := hsh (k, vs) (by simp)
    have hks : safeStr k = true := (hsh (k, vs) (by simp)).1
    rw [sumCont]
    subst hvs
    have hw0 : skipWs (w ++ ('\x22' :: (k.data ++ ('\x22' :: ':' :: ' ' ::
        ((dumps (.jarr [.jstr a, .jstr b])).data ++
          (',' :: '\n' ::
            ((joinNL (sumLines (e2 :: es') ++ ["  \x7d"])).data ++ after)))))))
        = '\x22' :: (k.data ++ ('\x22' :: ':' :: ' ' ::
          ((dumps (.jarr [.jstr a, .jstr b])).data ++
            (',' :: '\n' ::
              ((joinNL (sumLines (e2 :: es') ++ ["  \x7d"])).data ++
                after))))) := by
      rw [skipWs_all hw]
      exact skipWs_not (by decide) _
    have hs : parseStringBody (k.data ++ ('\x22' :: ':' :: ' ' ::
        ((dumps (.jarr [.jstr a, .jstr b])).data ++
          (',' :: '\n' ::
            ((joinNL (sumLines (e2 :: es') ++ ["  \x7d"])).data ++ after)))))
        = some (k.data, ':' :: ' ' ::
          ((dumps (.jarr [.jstr a, .jstr b])).data ++
            (',' :: '\n' ::
              ((joinNL (sumLines (e2 :: es') ++ ["  \x7d"])).data ++
                after)))) :=
      parseStringBody_safe (by rw [safeStr, List.all_eq_true] at hks
                               exact hks) _
    have hw1 : skipWs (':' :: ' ' ::
        ((dumps (.jarr [.jstr a, .jstr b])).data ++
          (',' :: '\n' ::
            ((joinNL (sumLines (e2 :: es') ++ ["  \x7d"])).data ++ after))))
        = ':' :: (' ' :: ((dumps (.jarr [.jstr a, .jstr b])).data ++
            (',' :: '\n' ::
              ((joinNL (sumLines (e2 :: es') ++ ["  \x7d"])).data ++
                after)))) :=
      skipWs_not (by decide) _
    have hv : pv (' ' :: ((dumps (.jarr [.jstr a, .jstr b])).data ++
        (',' :: '\n' ::
          ((joinNL (sumLines (e2 :: es') ++ ["  \x7d"])).data ++ after))))
        = some (.jarr [.jstr a, .jstr b],
            ',' :: '\n' ::
              ((joinNL (sumLines (e2 :: es') ++ ["  \x7d"])).data ++
                after)) := by
      refine pv_pair_at a b ha hb ?_
      rw [skipWs_one (by decide)]
      rw [dumps_pair_data, dumpString_data ha, List.cons_append]
      exact skipWs_not (by decide) _
    have hw2 : skipWs (',' :: '\n' ::
        ((joinNL (sumLines (e2 :: es') ++ ["  \x7d"])).data ++ after))
        = ',' :: ('\n' ::
            ((joinNL (sumLines (e2 :: es') ++ ["  \x7d"])).data ++ after)) :=
      skipWs_not (by decide) _
    obtain ⟨k2, vs2⟩ := e2
    have hrec := ih k2 vs2 (fun p hp => hsh p (by simp at hp ⊢; tauto))
      ('\n' :: [' ', ' ', ' ', ' ']) (by decide) after
    refine pm_cons hw0 hs hw1 hv hw2 ?_
    rw [sum_lines_data k2 vs2 es' after]
    exact hrec

/-! ### The full compact report text -/

/-- The rendering of the stage-summary object inside the report. -/
def sumBlock (entries : List (String × List String)) : String :=
  if entries = [] then "\x7b\x7d"
  else joinNL ("\x7b" :: sumLines entries ++ ["  \x7d"])

/-- The exact text `format_json_compact` produces for a report whose
summary keys avoid the two special keys. -/
def reportText (r : Report) : String :=
  joinNL ("\x7b" ::
    ("  \x22sleep_time\x22: " ++ dumps (.jstr r.sleep_time) ++ ",") ::
    ("  \x22duration\x22: " ++ dumps (.jstr r.duration) ++ ",") ::
    ("  \x22sleep_stage_summary\x22: " ++ sumBlock r.sleep_stage_summary
      ++ ",") ::
    ("  \x22sleep_stages_by_hour\x22: [") ::
    (hgLines r.sleep_stages_by_hour ++ ["  ]", "\x7d"]))

theorem reportText_data (r : Report) :
    (reportText r).data
      = '\x7b' :: '\n' :: (' ' :: ' ' :: '\x22' :: (("sleep_time").data ++
          ('\x22' :: ':' :: ' ' :: ((dumpString r.sleep_time).data ++
            (',' :: '\n' :: (' ' :: ' ' :: '\x22' :: (("duration").data ++
              ('\x22' :: ':' :: ' ' :: ((dumpString r.duration).data ++
                (',' :: '\n' :: (' ' :: ' ' :: '\x22' ::
                  (("sleep_stage_summary").data ++
                    ('\x22' :: ':' :: ' ' ::
                      ((sumBlock r.sleep_stage_summary).data ++
                        (',' :: '\n' :: (' ' :: ' ' :: '\x22' ::
                          (("sleep_stages_by_hour").data ++
                            ('\x22' :: ':' :: ' ' :: '[' ::
                              ('\n' :: (joinNL
                                (hgLines r.sleep_stages_by_hour
                                  ++ "  ]" :: ["\x7d"])).data))))))))))))))))))) := by
  rw [reportText]
  rw [joinNL_cons_data _ (by simp)]
  rw [joinNL_cons_data _ (by simp)]
  rw [joinNL_cons_data _ (by simp)]
  rw [joinNL_cons_data _ (by simp)]
  rw [joinNL_cons_data _ (by simp)]
  rw [show dumps (JVal.jstr r.sleep_time) = dumpString r.sleep_time
    from by rw [dumps]]
  rw [show dumps (JVal.jstr r.duration) = dumpString r.duration
    from by rw [dumps]]
  simp only [String.data_append]
  simp [List.append_assoc]

theorem format_json_compact_eq (r : Report)
    (hk : ∀ p ∈ r.sleep_stage_summary,
      p.1 ≠ "stages" ∧ p.1 ≠ "sleep_stages_by_hour") :
    format_json_compact (reportToJVal r) = some (reportText r) := by
  have h4 : formatItems 0 [("sleep_stages_by_hour",
      JVal.jarr (r.sleep_stages_by_hour.map groupToJVal))]
      = some (("  \x22sleep_stages_by_hour\x22: [") ::
          (hgLines r.sleep_stages_by_hour ++ ["  ]"])) := by
    rw [formatItems]
    rw [if_neg (fun hc => absurd hc.1 (by decide))]
    rw [if_pos rfl]
    rw [show spacesOf 0 = "" from rfl]
    rw [hourGroupLines_map]
    simp only [Option.pure_def, Option.bind_eq_bind', Option.map_some',
      Option.some_bind]
    rw [show formatItems 0 ([] : List (String × JVal)) = some []
      from rfl]
    simp only [Option.some_bind]
    simp
  have h3 : formatItems 0 (("sleep_stage_summary",
      JVal.jobj (r.sleep_stage_summary.map fun p =>
        (p.1, JVal.jarr (p.2.map .jstr)))) ::
      [("sleep_stages_by_hour",
        JVal.jarr (r.sleep_stages_by_hour.map groupToJVal))])
      = some (("  \x22sleep_stage_summary\x22: "
            ++ sumBlock r.sleep_stage_summary ++ ",") ::
          ("  \x22sleep_stages_by_hour\x22: [") ::
          (hgLines r.sleep_stages_by_hour ++ ["  ]"])) := by
    rw [formatItems]
    have hfv : formatValue (JVal.jobj (r.sleep_stage_summary.map fun p =>
        (p.1, JVal.jarr (p.2.map .jstr)))) (0 + 1)
        = some (sumBlock r.sleep_stage_summary) := by
      by_cases hne : r.sleep_stage_summary = []
      · rw [hne]
        rw [sumBlock, if_pos rfl]
        rfl
      · rw [formatValue_summary_eq _ hne hk, sumBlock, if_neg hne]
    rw [hfv]
    simp only [Option.pure_def, Option.bind_eq_bind', Option.map_some',
      Option.some_bind]
    rw [h4]
    simp only [Option.some_bind]
    simp
    rfl
  have h2 : formatItems 0 (("duration", JVal.jstr r.duration) ::
      ("sleep_stage_summary",
        JVal.jobj (r.sleep_stage_summary.map fun p =>
          (p.1, JVal.jarr (p.2.map .jstr)))) ::
      [("sleep_stages_by_hour",
        JVal.jarr (r.sleep_stages_by_hour.map groupToJVal))])
      = some (("  \x22duration\x22: " ++ dumps (.jstr r.duration) ++ ",") ::
          ("  \x22sleep_stage_summary\x22: "
            ++ sumBlock r.sleep_stage_summary ++ ",") ::
          ("  \x22sleep_stages_by_hour\x22: [") ::
          (hgLines r.sleep_stages_by_hour ++ ["  ]"])) := by
    rw [formatItems]
    simp only [Option.pure_def, Option.bind_eq_bind', Option.some_bind]
    rw [h3]
    simp only [Option.some_bind]
    simp
    rfl
    all_goals intro x hx
    all_goals exact JVal.noConfusion hx
  have h1 : formatItems 0 (("sleep_time", JVal.jstr r.sleep_time) ::
      ("duration", JVal.jstr r.duration) ::
      ("sleep_stage_summary",
        JVal.jobj (r.sleep_stage_summary.map fun p =>
          (p.1, JVal.jarr (p.2.map .jstr)))) ::
      [("sleep_stages_by_hour",
        JVal.jarr (r.sleep_stages_by_hour.map groupToJVal))])
      = some (("  \x22sleep_time\x22: " ++ dumps (.jstr r.sleep_time) ++ ",") ::
          ("  \x22duration\x22: " ++ dumps (.jstr r.duration) ++ ",") ::
          ("  \x22sleep_stage_summary\x22: "
            ++ sumBlock r.sleep_stage_summary ++ ",") ::
          ("  \x22sleep_stages_by_hour\x22: [") ::
          (hgLines r.sleep_stages_by_hour ++ ["  ]"])) := by
    rw [formatItems]
    simp only [Option.pure_def, Option.bind_eq_bind', Option.some_bind]
    rw [h2]
    simp only [Option.some_bind]
    simp
    rfl
    all_goals intro x hx
    all_goals exact JVal.noConfusion hx
  rw [format_json_compact, reportToJVal, formatValue]
  rw [h1]
  rw [Option.map_some']
  rw [reportText]
  congr 1
  rw [show spacesOf 0 ++ "\x7d" = "\x7d" from rfl]
  simp

set_option maxHeartbeats 1000000 in
/-- The compact text of a report with safe strings and well-shaped
summary entries reads back as exactly the report's JSON value. -/
theorem parse_reportText (r : Report)
    (h1 : safeStr r.sleep_time = true) (h2 : safeStr r.duration = true)
    (h3 : ∀ p ∈ r.sleep_stage_summary, safeStr p.1 = true ∧
      ∃ a b, p.2 = [a, b] ∧ safeStr a = true ∧ safeStr b = true)
    (h4 : ∀ g ∈ r.sleep_stages_by_hour, safeStr g.hour_range = true ∧
      ∀ tr ∈ g.stages, safeStr tr.2.1 = true ∧ safeStr tr.2.2 = true) :
    parseJSON (reportText r) = some (reportToJVal r) := by
  have hVAL4 : pv (' ' :: ('[' ::
      ('\n' :: (joinNL (hgLines r.sleep_stages_by_hour
        ++ "  ]" :: ["\x7d"])).data)))
      = some (.jarr (r.sleep_stages_by_hour.map groupToJVal),
          ['\n', '\x7d']) := by
    rcases hgs : r.sleep_stages_by_hour with _ | ⟨g, gs'⟩
    · rw [show hgLines [] = [] from rfl, List.nil_append]
      rw [joinNL_cons_data _ (by simp)]
      have hwA : skipWs (' ' :: ('[' ::
          ('\n' :: (("  ]").data ++ '\n' :: (joinNL ["\x7d"]).data))))
          = '[' :: ('\n' :: (("  ]").data ++ '\n' :: (joinNL ["\x7d"]).data)) := by
        rw [skipWs_one (by decide)]
        exact skipWs_not (by decide) _
      refine pv_arr_nil hwA ?_
      show skipWs (('\n' :: [' ', ' ']) ++
        (']' :: ('\n' :: (joinNL ["\x7d"]).data))) = _
      rw [skipWs_all (by decide)]
      exact skipWs_not (by decide) _
    · rw [group_lines_data g gs' ["\x7d"]]
      have hwA : skipWs (' ' :: ('[' ::
          ('\n' :: (("    ").data ++ '\x7b' :: groupRest g gs' ["\x7d"]))))
          = '[' :: ('\n' :: (("    ").data ++
              '\x7b' :: groupRest g gs' ["\x7d"])) := by
        rw [skipWs_one (by decide)]
        exact skipWs_not (by decide) _
      have hwB : skipWs ('\n' :: (("    ").data ++
          '\x7b' :: groupRest g gs' ["\x7d"]))
          = '\x7b' :: groupRest g gs' ["\x7d"] := by
        show skipWs (('\n' :: ("    ").data) ++
          ('\x7b' :: groupRest g gs' ["\x7d"])) = _
        rw [skipWs_all (by decide)]
        exact skipWs_not (by decide) _
      have hpe := pe_groups gs' g
        (fun x hx => h4 x (by rw [hgs]; exact hx)) [] (by simp)
        ["\x7d"] (by simp)
      rw [List.nil_append] at hpe
      exact pv_arr_cons hwA hwB (by decide) hpe
  have hM4 : ∀ (w : List Char), (∀ c ∈ w, isWsChar c = true) →
      pm (w ++ ('\x22' :: (("sleep_stages_by_hour").data ++
        ('\x22' :: ':' :: ' ' :: '[' ::
          ('\n' :: (joinNL (hgLines r.sleep_stages_by_hour
            ++ "  ]" :: ["\x7d"])).data)))))
      = some ([("sleep_stages_by_hour",
          .jarr (r.sleep_stages_by_hour.map groupToJVal))], []) := by
    intro w hw
    have hw0 : skipWs (w ++ ('\x22' :: (("sleep_stages_by_hour").data ++
        ('\x22' :: ':' :: ' ' :: '[' ::
          ('\n' :: (joinNL (hgLines r.sleep_stages_by_hour
            ++ "  ]" :: ["\x7d"])).data)))))
        = '\x22' :: (("sleep_stages_by_hour").data ++
          ('\x22' :: ':' :: ' ' :: '[' ::
            ('\n' :: (joinNL (hgLines r.sleep_stages_by_hour
              ++ "  ]" :: ["\x7d"])).data))) := by
      rw [skipWs_all hw]
      exact skipWs_not (by decide) _
    have hs : parseStringBody (("sleep_stages_by_hour").data ++
        ('\x22' :: ':' :: ' ' :: '[' ::
          ('\n' :: (joinNL (hgLines r.sleep_stages_by_hour
            ++ "  ]" :: ["\x7d"])).data)))
        = some (("sleep_stages_by_hour").data,
            ':' :: ' ' :: '[' ::
              ('\n' :: (joinNL (hgLines r.sleep_stages_by_hour
                ++ "  ]" :: ["\x7d"])).data)) :=
      parseStringBody_safe (by decide) _
    have hw1 : skipWs (':' :: ' ' :: '[' ::
        ('\n' :: (joinNL (hgLines r.sleep_stages_by_hour
          ++ "  ]" :: ["\x7d"])).data))
        = ':' :: (' ' :: '[' ::
          ('\n' :: (joinNL (hgLines r.sleep_stages_by_hour
            ++ "  ]" :: ["\x7d"])).data)) :=
      skipWs_not (by decide) _
    have hw2 : skipWs ['\n', '\x7d'] = '\x7d' :: [] := by decide
    exact pm_last hw0 hs hw1 hVAL4 hw2
  have hM3 : ∀ (w : List Char), (∀ c ∈ w, isWsChar c = true) →
      pm (w ++ ('\x22' :: (("sleep_stage_summary").data ++
        ('\x22' :: ':' :: ' ' :: ((sumBlock r.sleep_stage_summary).data ++
          (',' :: '\n' :: (' ' :: ' ' :: ('\x22' ::
            (("sleep_stages_by_hour").data ++
              ('\x22' :: ':' :: ' ' :: '[' ::
                ('\n' :: (joinNL (hgLines r.sleep_stages_by_hour
                  ++ "  ]" :: ["\x7d"])).data)))))))))))
      = some ([("sleep_stage_summary",
            .jobj (r.sleep_stage_summary.map fun p =>
              (p.1, JVal.jarr (p.2.map .jstr)))),
          ("sleep_stages_by_hour",
            .jarr (r.sleep_stages_by_hour.map groupToJVal))], []) := by
    intro w hw
    have hVAL3 : pv (' ' :: ((sumBlock r.sleep_stage_summary).data ++
        (',' :: '\n' :: (' ' :: ' ' :: ('\x22' ::
          (("sleep_stages_by_hour").data ++
            ('\x22' :: ':' :: ' ' :: '[' ::
              ('\n' :: (joinNL (hgLines r.sleep_stages_by_hour
                ++ "  ]" :: ["\x7d"])).data))))))))
        = some (.jobj (r.sleep_stage_summary.map fun p =>
              (p.1, JVal.jarr (p.2.map .jstr))),
            ',' :: '\n' :: (' ' :: ' ' :: ('\x22' ::
              (("sleep_stages_by_hour").data ++
                ('\x22' :: ':' :: ' ' :: '[' ::
                  ('\n' :: (joinNL (hgLines r.sleep_stages_by_hour
                    ++ "  ]" :: ["\x7d"])).data)))))) := by
      rcases hsum : r.sleep_stage_summary with _ | ⟨e, es⟩
      · rw [show sumBlock [] = "\x7b\x7d" from rfl]
        have hwV : skipWs (' ' :: ('\x7b' :: ('\x7d' ::
            (',' :: '\n' :: (' ' :: ' ' :: ('\x22' ::
              (("sleep_stages_by_hour").data ++
                ('\x22' :: ':' :: ' ' :: '[' ::
                  ('\n' :: (joinNL (hgLines r.sleep_stages_by_hour
                    ++ "  ]" :: ["\x7d"])).data)))))))))
            = '\x7b' :: ('\x7d' ::
              (',' :: '\n' :: (' ' :: ' ' :: ('\x22' ::
                (("sleep_stages_by_hour").data ++
                  ('\x22' :: ':' :: ' ' :: '[' ::
                    ('\n' :: (joinNL (hgLines r.sleep_stages_by_hour
                      ++ "  ]" :: ["\x7d"])).data))))))) := by
          rw [skipWs_one (by decide)]
          exact skipWs_not (by decide) _
        exact pv_obj_nil hwV (skipWs_not (by decide) _)
      · obtain ⟨k2, vs2⟩ := e
        rw [show sumBlock ((k2, vs2) :: es)
          = joinNL ("\x7b" :: (sumLines ((k2, vs2) :: es) ++ ["  \x7d"]))
          from by rw [sumBlock, if_neg (by simp), List.cons_append]]
        rw [joinNL_cons_data _ (by simp)]
        rw [show ("\x7b" : String).data = ['\x7b'] from rfl]
        have hwV : skipWs (' ' :: ((['\x7b'] ++
            '\n' :: (joinNL (sumLines ((k2, vs2) :: es) ++ ["  \x7d"])).data) ++
            (',' :: '\n' :: (' ' :: ' ' :: ('\x22' ::
              (("sleep_stages_by_hour").data ++
                ('\x22' :: ':' :: ' ' :: '[' ::
                  ('\n' :: (joinNL (hgLines r.sleep_stages_by_hour
                    ++ "  ]" :: ["\x7d"])).data))))))))
            = '\x7b' :: ('\n' ::
              ((joinNL (sumLines ((k2, vs2) :: es) ++ ["  \x7d"])).data ++
                (',' :: '\n' :: (' ' :: ' ' :: ('\x22' ::
                  (("sleep_stages_by_hour").data ++
                    ('\x22' :: ':' :: ' ' :: '[' ::
                      ('\n' :: (joinNL (hgLines r.sleep_stages_by_hour
                        ++ "  ]" :: ["\x7d"])).data)))))))) := by
          rw [skipWs_one (by decide)]
          show skipWs ('\x7b' :: ('\n' ::
            ((joinNL (sumLines ((k2, vs2) :: es) ++ ["  \x7d"])).data ++ _))) = _
          exact skipWs_not (by decide) _
        have hwV2 : skipWs ('\n' ::
            ((joinNL (sumLines ((k2, vs2) :: es) ++ ["  \x7d"])).data ++
              (',' :: '\n' :: (' ' :: ' ' :: ('\x22' ::
                (("sleep_stages_by_hour").data ++
                  ('\x22' :: ':' :: ' ' :: '[' ::
                    ('\n' :: (joinNL (hgLines r.sleep_stages_by_hour
                      ++ "  ]" :: ["\x7d"])).data))))))))
            = '\x22' :: (k2.data ++ ('\x22' :: ':' :: ' ' ::
                ((dumps (.jarr (vs2.map .jstr))).data ++
                  sumCont (',' :: '\n' :: (' ' :: ' ' :: ('\x22' ::
                    (("sleep_stages_by_hour").data ++
                      ('\x22' :: ':' :: ' ' :: '[' ::
                        ('\n' :: (joinNL (hgLines r.sleep_stages_by_hour
                          ++ "  ]" :: ["\x7d"])).data)))))) es))) := by
          rw [sum_lines_data k2 vs2 es]
          show skipWs (('\n' :: [' ', ' ', ' ', ' ']) ++ ('\x22' :: _)) = _
          rw [skipWs_all (by decide)]
          exact skipWs_not (by decide) _
        have hpmS := pm_entries es k2 vs2
          (fun p hp => h3 p (by rw [hsum]; exact hp)) [] (by simp)
          (',' :: '\n' :: (' ' :: ' ' :: ('\x22' ::
            (("sleep_stages_by_hour").data ++
              ('\x22' :: ':' :: ' ' :: '[' ::
                ('\n' :: (joinNL (hgLines r.sleep_stages_by_hour
                  ++ "  ]" :: ["\x7d"])).data))))))
        rw [List.nil_append] at hpmS
        exact pv_obj_cons hwV hwV2 (by decide) hpmS
    have hw0 : skipWs (w ++ ('\x22' :: (("sleep_stage_summary").data ++
        ('\x22' :: ':' :: ' ' :: ((sumBlock r.sleep_stage_summary).data ++
          (',' :: '\n' :: (' ' :: ' ' :: ('\x22' ::
            (("sleep_stages_by_hour").data ++
              ('\x22' :: ':' :: ' ' :: '[' ::
                ('\n' :: (joinNL (hgLines r.sleep_stages_by_hour
                  ++ "  ]" :: ["\x7d"])).data)))))))))))
        = '\x22' :: (("sleep_stage_summary").data ++
          ('\x22' :: ':' :: ' ' :: ((sumBlock r.sleep_stage_summary).data ++
            (',' :: '\n' :: (' ' :: ' ' :: ('\x22' ::
              (("sleep_stages_by_hour").data ++
                ('\x22' :: ':' :: ' ' :: '[' ::
                  ('\n' :: (joinNL (hgLines r.sleep_stages_by_hour
                    ++ "  ]" :: ["\x7d"])).data))))))))) := by
      rw [skipWs_all hw]
      exact skipWs_not (by decide) _
    have hs : parseStringBody (("sleep_stage_summary").data ++
        ('\x22' :: ':' :: ' ' :: ((sumBlock r.sleep_stage_summary).data ++
          (',' :: '\n' :: (' ' :: ' ' :: ('\x22' ::
            (("sleep_stages_by_hour").data ++
              ('\x22' :: ':' :: ' ' :: '[' ::
                ('\n' :: (joinNL (hgLines r.sleep_stages_by_hour
                  ++ "  ]" :: ["\x7d"])).data)))))))))
        = some (("sleep_stage_summary").data,
            ':' :: ' ' :: ((sumBlock r.sleep_stage_summary).data ++
              (',' :: '\n' :: (' ' :: ' ' :: ('\x22' ::
                (("sleep_stages_by_hour").data ++
                  ('\x22' :: ':' :: ' ' :: '[' ::
                    ('\n' :: (joinNL (hgLines r.sleep_stages_by_hour
                      ++ "  ]" :: ["\x7d"])).data)))))))) :=
      parseStringBody_safe (by decide) _
    have hw1 : skipWs (':' :: ' ' :: ((sumBlock r.sleep_stage_summary).data ++
        (',' :: '\n' :: (' ' :: ' ' :: ('\x22' ::
          (("sleep_stages_by_hour").data ++
            ('\x22' :: ':' :: ' ' :: '[' ::
              ('\n' :: (joinNL (hgLines r.sleep_stages_by_hour
                ++ "  ]" :: ["\x7d"])).data))))))))
        = ':' :: (' ' :: ((sumBlock r.sleep_stage_summary).data ++
          (',' :: '\n' :: (' ' :: ' ' :: ('\x22' ::
            (("sleep_stages_by_hour").data ++
              ('\x22' :: ':' :: ' ' :: '[' ::
                ('\n' :: (joinNL (hgLines r.sleep_stages_by_hour
                  ++ "  ]" :: ["\x7d"])).data)))))))) :=
      skipWs_not (by decide) _
    have hw2 : skipWs (',' :: '\n' :: (' ' :: ' ' :: ('\x22' ::
        (("sleep_stages_by_hour").data ++
          ('\x22' :: ':' :: ' ' :: '[' ::
            ('\n' :: (joinNL (hgLines r.sleep_stages_by_hour
              ++ "  ]" :: ["\x7d"])).data))))))
        = ',' :: ('\n' :: (' ' :: ' ' :: ('\x22' ::
          (("sleep_stages_by_hour").data ++
            ('\x22' :: ':' :: ' ' :: '[' ::
              ('\n' :: (joinNL (hgLines r.sleep_stages_by_hour
                ++ "  ]" :: ["\x7d"])).data)))))) :=
      skipWs_not (by decide) _
    have hrec := hM4 ('\n' :: [' ', ' ']) (by decide)
    exact pm_cons hw0 hs hw1 hVAL3 hw2 hrec
  have hM2 : ∀ (w : List Char), (∀ c ∈ w, isWsChar c = true) →
      pm (w ++ ('\x22' :: (("duration").data ++ ('\x22' :: ':' :: ' ' :: ((dumpString r.duration).data ++ (',' :: '\n' :: (' ' :: ' ' :: ('\x22' :: (("sleep_stage_summary").data ++ ('\x22' :: ':' :: ' ' :: ((sumBlock r.sleep_stage_summary).data ++ (',' :: '\n' :: (' ' :: ' ' :: ('\x22' :: (("sleep_stages_by_hour").data ++ ('\x22' :: ':' :: ' ' :: '[' :: ('\n' :: (joinNL (hgLines r.sleep_stages_by_hour ++ "  ]" :: ["\x7d"])).data)))))))))))))))))
      = some ([("duration", JVal.jstr r.duration), ("sleep_stage_summary", JVal.jobj (r.sleep_stage_summary.map fun p => (p.1, JVal.jarr (p.2.map JVal.jstr)))), ("sleep_stages_by_hour", JVal.jarr (r.sleep_stages_by_hour.map groupToJVal))], []) := by
    intro w hw
    have hw0 : skipWs (w ++ ('\x22' :: (("duration").data ++ ('\x22' :: ':' :: ' ' :: ((dumpString r.duration).data ++ (',' :: '\n' :: (' ' :: ' ' :: ('\x22' :: (("sleep_stage_summary").data ++ ('\x22' :: ':' :: ' ' :: ((sumBlock r.sleep_stage_summary).data ++ (',' :: '\n' :: (' ' :: ' ' :: ('\x22' :: (("sleep_stages_by_hour").data ++ ('\x22' :: ':' :: ' ' :: '[' :: ('\n' :: (joinNL (hgLines r.sleep_stages_by_hour ++ "  ]" :: ["\x7d"])).data))))))))))))))))) = '\x22' :: (("duration").data ++ ('\x22' :: ':' :: ' ' :: ((dumpString r.duration).data ++ (',' :: '\n' :: (' ' :: ' ' :: ('\x22' :: (("sleep_stage_summary").data ++ ('\x22' :: ':' :: ' ' :: ((sumBlock r.sleep_stage_summary).data ++ (',' :: '\n' :: (' ' :: ' ' :: ('\x22' :: (("sleep_stages_by_hour").data ++ ('\x22' :: ':' :: ' ' :: '[' :: ('\n' :: (joinNL (hgLines r.sleep_stages_by_hour ++ "  ]" :: ["\x7d"])).data))))))))))))))) := by
      rw [skipWs_all hw]
      exact skipWs_not (by decide) _
    have hs : parseStringBody (("duration").data ++ ('\x22' :: ':' :: ' ' :: ((dumpString r.duration).data ++ (',' :: '\n' :: (' ' :: ' ' :: ('\x22' :: (("sleep_stage_summary").data ++ ('\x22' :: ':' :: ' ' :: ((sumBlock r.sleep_stage_summary).data ++ (',' :: '\n' :: (' ' :: ' ' :: ('\x22' :: (("sleep_stages_by_hour").data ++ ('\x22' :: ':' :: ' ' :: '[' :: ('\n' :: (joinNL (hgLines r.sleep_stages_by_hour ++ "  ]" :: ["\x7d"])).data)))))))))))))))
        = some (("duration").data, ':' :: ' ' :: ((dumpString r.duration).data ++ (',' :: '\n' :: (' ' :: ' ' :: ('\x22' :: (("sleep_stage_summary").data ++ ('\x22' :: ':' :: ' ' :: ((sumBlock r.sleep_stage_summary).data ++ (',' :: '\n' :: (' ' :: ' ' :: ('\x22' :: (("sleep_stages_by_hour").data ++ ('\x22' :: ':' :: ' ' :: '[' :: ('\n' :: (joinNL (hgLines r.sleep_stages_by_hour ++ "  ]" :: ["\x7d"])).data)))))))))))))) :=
      parseStringBody_safe (by decide) _
    have hw1 : skipWs (':' :: ' ' :: ((dumpString r.duration).data ++ (',' :: '\n' :: (' ' :: ' ' :: ('\x22' :: (("sleep_stage_summary").data ++ ('\x22' :: ':' :: ' ' :: ((sumBlock r.sleep_stage_summary).data ++ (',' :: '\n' :: (' ' :: ' ' :: ('\x22' :: (("sleep_stages_by_hour").data ++ ('\x22' :: ':' :: ' ' :: '[' :: ('\n' :: (joinNL (hgLines r.sleep_stages_by_hour ++ "  ]" :: ["\x7d"])).data)))))))))))))) = ':' :: (' ' :: ((dumpString r.duration).data ++ (',' :: '\n' :: (' ' :: ' ' :: ('\x22' :: (("sleep_stage_summary").data ++ ('\x22' :: ':' :: ' ' :: ((sumBlock r.sleep_stage_summary).data ++ (',' :: '\n' :: (' ' :: ' ' :: ('\x22' :: (("sleep_stages_by_hour").data ++ ('\x22' :: ':' :: ' ' :: '[' :: ('\n' :: (joinNL (hgLines r.sleep_stages_by_hour ++ "  ]" :: ["\x7d"])).data)))))))))))))) :=
      skipWs_not (by decide) _
    have hV : pv (' ' :: ((dumpString r.duration).data ++ (',' :: '\n' :: (' ' :: ' ' :: ('\x22' :: (("sleep_stage_summary").data ++ ('\x22' :: ':' :: ' ' :: ((sumBlock r.sleep_stage_summary).data ++ (',' :: '\n' :: (' ' :: ' ' :: ('\x22' :: (("sleep_stages_by_hour").data ++ ('\x22' :: ':' :: ' ' :: '[' :: ('\n' :: (joinNL (hgLines r.sleep_stages_by_hour ++ "  ]" :: ["\x7d"])).data)))))))))))))) = some (JVal.jstr r.duration, ',' :: '\n' :: (' ' :: ' ' :: ('\x22' :: (("sleep_stage_summary").data ++ ('\x22' :: ':' :: ' ' :: ((sumBlock r.sleep_stage_summary).data ++ (',' :: '\n' :: (' ' :: ' ' :: ('\x22' :: (("sleep_stages_by_hour").data ++ ('\x22' :: ':' :: ' ' :: '[' :: ('\n' :: (joinNL (hgLines r.sleep_stages_by_hour ++ "  ]" :: ["\x7d"])).data)))))))))))) := by
      refine pv_string_at h2 ?_
      rw [skipWs_one (by decide)]
      rw [dumpString_data h2, List.cons_append]
      exact skipWs_not (by decide) _
    have hw2 : skipWs (',' :: '\n' :: (' ' :: ' ' :: ('\x22' :: (("sleep_stage_summary").data ++ ('\x22' :: ':' :: ' ' :: ((sumBlock r.sleep_stage_summary).data ++ (',' :: '\n' :: (' ' :: ' ' :: ('\x22' :: (("sleep_stages_by_hour").data ++ ('\x22' :: ':' :: ' ' :: '[' :: ('\n' :: (joinNL (hgLines r.sleep_stages_by_hour ++ "  ]" :: ["\x7d"])).data)))))))))))) = ',' :: ('\n' :: (' ' :: ' ' :: ('\x22' :: (("sleep_stage_summary").data ++ ('\x22' :: ':' :: ' ' :: ((sumBlock r.sleep_stage_summary).data ++ (',' :: '\n' :: (' ' :: ' ' :: ('\x22' :: (("sleep_stages_by_hour").data ++ ('\x22' :: ':' :: ' ' :: '[' :: ('\n' :: (joinNL (hgLines r.sleep_stages_by_hour ++ "  ]" :: ["\x7d"])).data)))))))))))) :=
      skipWs_not (by decide) _
    have hrec := hM3 ('\n' :: [' ', ' ']) (by decide)
    exact pm_cons hw0 hs hw1 hV hw2 hrec
  have hM1 : ∀ (w : List Char), (∀ c ∈ w, isWsChar c = true) →
      pm (w ++ ('\x22' :: (("sleep_time").data ++ ('\x22' :: ':' :: ' ' :: ((dumpString r.sleep_time).data ++ (',' :: '\n' :: (' ' :: ' ' :: ('\x22' :: (("duration").data ++ ('\x22' :: ':' :: ' ' :: ((dumpString r.duration).data ++ (',' :: '\n' :: (' ' :: ' ' :: ('\x22' :: (("sleep_stage_summary").data ++ ('\x22' :: ':' :: ' ' :: ((sumBlock r.sleep_stage_summary).data ++ (',' :: '\n' :: (' ' :: ' ' :: ('\x22' :: (("sleep_stages_by_hour").data ++ ('\x22' :: ':' :: ' ' :: '[' :: ('\n' :: (joinNL (hgLines r.sleep_stages_by_hour ++ "  ]" :: ["\x7d"])).data)))))))))))))))))))))))
      = some ([("sleep_time", JVal.jstr r.sleep_time), ("duration", JVal.jstr r.duration), ("sleep_stage_summary", JVal.jobj (r.sleep_stage_summary.map fun p => (p.1, JVal.jarr (p.2.map JVal.jstr)))), ("sleep_stages_by_hour", JVal.jarr (r.sleep_stages_by_hour.map groupToJVal))], []) := by
    intro w hw
    have hw0 : skipWs (w ++ ('\x22' :: (("sleep_time").data ++ ('\x22' :: ':' :: ' ' :: ((dumpString r.sleep_time).data ++ (',' :: '\n' :: (' ' :: ' ' :: ('\x22' :: (("duration").data ++ ('\x22' :: ':' :: ' ' :: ((dumpString r.duration).data ++ (',' :: '\n' :: (' ' :: ' ' :: ('\x22' :: (("sleep_stage_summary").data ++ ('\x22' :: ':' :: ' ' :: ((sumBlock r.sleep_stage_summary).data ++ (',' :: '\n' :: (' ' :: ' ' :: ('\x22' :: (("sleep_stages_by_hour").data ++ ('\x22' :: ':' :: ' ' :: '[' :: ('\n' :: (joinNL (hgLines r.sleep_stages_by_hour ++ "  ]" :: ["\x7d"])).data))))))))))))))))))))))) = '\x22' :: (("sleep_time").data ++ ('\x22' :: ':' :: ' ' :: ((dumpString r.sleep_time).data ++ (',' :: '\n' :: (' ' :: ' ' :: ('\x22' :: (("duration").data ++ ('\x22' :: ':' :: ' ' :: ((dumpString r.duration).data ++ (',' :: '\n' :: (' ' :: ' ' :: ('\x22' :: (("sleep_stage_summary").data ++ ('\x22' :: ':' :: ' ' :: ((sumBlock r.sleep_stage_summary).data ++ (',' :: '\n' :: (' ' :: ' ' :: ('\x22' :: (("sleep_stages_by_hour").data ++ ('\x22' :: ':' :: ' ' :: '[' :: ('\n' :: (joinNL (hgLines r.sleep_stages_by_hour ++ "  ]" :: ["\x7d"])).data))))))))))))))))))))) := by
      rw [skipWs_all hw]
      exact skipWs_not (by decide) _
    have hs : parseStringBody (("sleep_time").data ++ ('\x22' :: ':' :: ' ' :: ((dumpString r.sleep_time).data ++ (',' :: '\n' :: (' ' :: ' ' :: ('\x22' :: (("duration").data ++ ('\x22' :: ':' :: ' ' :: ((dumpString r.duration).data ++ (',' :: '\n' :: (' ' :: ' ' :: ('\x22' :: (("sleep_stage_summary").data ++ ('\x22' :: ':' :: ' ' :: ((sumBlock r.sleep_stage_summary).data ++ (',' :: '\n' :: (' ' :: ' ' :: ('\x22' :: (("sleep_stages_by_hour").data ++ ('\x22' :: ':' :: ' ' :: '[' :: ('\n' :: (joinNL (hgLines r.sleep_stages_by_hour ++ "  ]" :: ["\x7d"])).data)))))))))))))))))))))
        = some (("sleep_time").data, ':' :: ' ' :: ((dumpString r.sleep_time).data ++ (',' :: '\n' :: (' ' :: ' ' :: ('\x22' :: (("duration").data ++ ('\x22' :: ':' :: ' ' :: ((dumpString r.duration).data ++ (',' :: '\n' :: (' ' :: ' ' :: ('\x22' :: (("sleep_stage_summary").data ++ ('\x22' :: ':' :: ' ' :: ((sumBlock r.sleep_stage_summary).data ++ (',' :: '\n' :: (' ' :: ' ' :: ('\x22' :: (("sleep_stages_by_hour").data ++ ('\x22' :: ':' :: ' ' :: '[' :: ('\n' :: (joinNL (hgLines r.sleep_stages_by_hour ++ "  ]" :: ["\x7d"])).data)))))))))))))))))))) :=
      parseStringBody_safe (by decide) _
    have hw1 : skipWs (':' :: ' ' :: ((dumpString r.sleep_time).data ++ (',' :: '\n' :: (' ' :: ' ' :: ('\x22' :: (("duration").data ++ ('\x22' :: ':' :: ' ' :: ((dumpString r.duration).data ++ (',' :: '\n' :: (' ' :: ' ' :: ('\x22' :: (("sleep_stage_summary").data ++ ('\x22' :: ':' :: ' ' :: ((sumBlock r.sleep_stage_summary).data ++ (',' :: '\n' :: (' ' :: ' ' :: ('\x22' :: (("sleep_stages_by_hour").data ++ ('\x22' :: ':' :: ' ' :: '[' :: ('\n' :: (joinNL (hgLines r.sleep_stages_by_hour ++ "  ]" :: ["\x7d"])).data)))))))))))))))))))) = ':' :: (' ' :: ((dumpString r.sleep_time).data ++ (',' :: '\n' :: (' ' :: ' ' :: ('\x22' :: (("duration").data ++ ('\x22' :: ':' :: ' ' :: ((dumpString r.duration).data ++ (',' :: '\n' :: (' ' :: ' ' :: ('\x22' :: (("sleep_stage_summary").data ++ ('\x22' :: ':' :: ' ' :: ((sumBlock r.sleep_stage_summary).data ++ (',' :: '\n' :: (' ' :: ' ' :: ('\x22' :: (("sleep_stages_by_hour").data ++ ('\x22' :: ':' :: ' ' :: '[' :: ('\n' :: (joinNL (hgLines r.sleep_stages_by_hour ++ "  ]" :: ["\x7d"])).data)))))))))))))))))))) :=
      skipWs_not (by decide) _
    have hV : pv (' ' :: ((dumpString r.sleep_time).data ++ (',' :: '\n' :: (' ' :: ' ' :: ('\x22' :: (("duration").data ++ ('\x22' :: ':' :: ' ' :: ((dumpString r.duration).data ++ (',' :: '\n' :: (' ' :: ' ' :: ('\x22' :: (("sleep_stage_summary").data ++ ('\x22' :: ':' :: ' ' :: ((sumBlock r.sleep_stage_summary).data ++ (',' :: '\n' :: (' ' :: ' ' :: ('\x22' :: (("sleep_stages_by_hour").data ++ ('\x22' :: ':' :: ' ' :: '[' :: ('\n' :: (joinNL (hgLines r.sleep_stages_by_hour ++ "  ]" :: ["\x7d"])).data)))))))))))))))))))) = some (JVal.jstr r.sleep_time, ',' :: '\n' :: (' ' :: ' ' :: ('\x22' :: (("duration").data ++ ('\x22' :: ':' :: ' ' :: ((dumpString r.duration).data ++ (',' :: '\n' :: (' ' :: ' ' :: ('\x22' :: (("sleep_stage_summary").data ++ ('\x22' :: ':' :: ' ' :: ((sumBlock r.sleep_stage_summary).data ++ (',' :: '\n' :: (' ' :: ' ' :: ('\x22' :: (("sleep_stages_by_hour").data ++ ('\x22' :: ':' :: ' ' :: '[' :: ('\n' :: (joinNL (hgLines r.sleep_stages_by_hour ++ "  ]" :: ["\x7d"])).data)))))))))))))))))) := by
      refine pv_string_at h1 ?_
      rw [skipWs_one (by decide)]
      rw [dumpString_data h1, List.cons_append]
      exact skipWs_not (by decide) _
    have hw2 : skipWs (',' :: '\n' :: (' ' :: ' ' :: ('\x22' :: (("duration").data ++ ('\x22' :: ':' :: ' ' :: ((dumpString r.duration).data ++ (',' :: '\n' :: (' ' :: ' ' :: ('\x22' :: (("sleep_stage_summary").data ++ ('\x22' :: ':' :: ' ' :: ((sumBlock r.sleep_stage_summary).data ++ (',' :: '\n' :: (' ' :: ' ' :: ('\x22' :: (("sleep_stages_by_hour").data ++ ('\x22' :: ':' :: ' ' :: '[' :: ('\n' :: (joinNL (hgLines r.sleep_stages_by_hour ++ "  ]" :: ["\x7d"])).data)))))))))))))))))) = ',' :: ('\n' :: (' ' :: ' ' :: ('\x22' :: (("duration").data ++ ('\x22' :: ':' :: ' ' :: ((dumpString r.duration).data ++ (',' :: '\n' :: (' ' :: ' ' :: ('\x22' :: (("sleep_stage_summary").data ++ ('\x22' :: ':' :: ' ' :: ((sumBlock r.sleep_stage_summary).data ++ (',' :: '\n' :: (' ' :: ' ' :: ('\x22' :: (("sleep_stages_by_hour").data ++ ('\x22' :: ':' :: ' ' :: '[' :: ('\n' :: (joinNL (hgLines r.sleep_stages_by_hour ++ "  ]" :: ["\x7d"])).data)))))))))))))))))) :=
      skipWs_not (by decide) _
    have hrec := hM2 ('\n' :: [' ', ' ']) (by decide)
    exact pm_cons hw0 hs hw1 hV hw2 hrec
  have hPV : pv (reportText r).data = some (reportToJVal r, []) := by
    rw [reportText_data]
    have hpm := hM1 [] (by simp)
    rw [List.nil_append] at hpm
    have hOB2 : skipWs ('\n' :: (' ' :: ' ' :: ('\x22' :: (("sleep_time").data ++ ('\x22' :: ':' :: ' ' :: ((dumpString r.sleep_time).data ++ (',' :: '\n' :: (' ' :: ' ' :: ('\x22' :: (("duration").data ++ ('\x22' :: ':' :: ' ' :: ((dumpString r.duration).data ++ (',' :: '\n' :: (' ' :: ' ' :: ('\x22' :: (("sleep_stage_summary").data ++ ('\x22' :: ':' :: ' ' :: ((sumBlock r.sleep_stage_summary).data ++ (',' :: '\n' :: (' ' :: ' ' :: ('\x22' :: (("sleep_stages_by_hour").data ++ ('\x22' :: ':' :: ' ' :: '[' :: ('\n' :: (joinNL (hgLines r.sleep_stages_by_hour ++ "  ]" :: ["\x7d"])).data)))))))))))))))))))))))) = '\x22' :: (("sleep_time").data ++ ('\x22' :: ':' :: ' ' :: ((dumpString r.sleep_time).data ++ (',' :: '\n' :: (' ' :: ' ' :: ('\x22' :: (("duration").data ++ ('\x22' :: ':' :: ' ' :: ((dumpString r.duration).data ++ (',' :: '\n' :: (' ' :: ' ' :: ('\x22' :: (("sleep_stage_summary").data ++ ('\x22' :: ':' :: ' ' :: ((sumBlock r.sleep_stage_summary).data ++ (',' :: '\n' :: (' ' :: ' ' :: ('\x22' :: (("sleep_stages_by_hour").data ++ ('\x22' :: ':' :: ' ' :: '[' :: ('\n' :: (joinNL (hgLines r.sleep_stages_by_hour ++ "  ]" :: ["\x7d"])).data))))))))))))))))))))) := by
      show skipWs (('\n' :: [' ', ' ']) ++ ('\x22' :: (("sleep_time").data ++ ('\x22' :: ':' :: ' ' :: ((dumpString r.sleep_time).data ++ (',' :: '\n' :: (' ' :: ' ' :: ('\x22' :: (("duration").data ++ ('\x22' :: ':' :: ' ' :: ((dumpString r.duration).data ++ (',' :: '\n' :: (' ' :: ' ' :: ('\x22' :: (("sleep_stage_summary").data ++ ('\x22' :: ':' :: ' ' :: ((sumBlock r.sleep_stage_summary).data ++ (',' :: '\n' :: (' ' :: ' ' :: ('\x22' :: (("sleep_stages_by_hour").data ++ ('\x22' :: ':' :: ' ' :: '[' :: ('\n' :: (joinNL (hgLines r.sleep_stages_by_hour ++ "  ]" :: ["\x7d"])).data))))))))))))))))))))))) = '\x22' :: (("sleep_time").data ++ ('\x22' :: ':' :: ' ' :: ((dumpString r.sleep_time).data ++ (',' :: '\n' :: (' ' :: ' ' :: ('\x22' :: (("duration").data ++ ('\x22' :: ':' :: ' ' :: ((dumpString r.duration).data ++ (',' :: '\n' :: (' ' :: ' ' :: ('\x22' :: (("sleep_stage_summary").data ++ ('\x22' :: ':' :: ' ' :: ((sumBlock r.sleep_stage_summary).data ++ (',' :: '\n' :: (' ' :: ' ' :: ('\x22' :: (("sleep_stages_by_hour").data ++ ('\x22' :: ':' :: ' ' :: '[' :: ('\n' :: (joinNL (hgLines r.sleep_stages_by_hour ++ "  ]" :: ["\x7d"])).data)))))))))))))))))))))
      rw [skipWs_all (by decide)]
      exact skipWs_not (by decide) _
    exact pv_obj_cons (skipWs_not (by decide) _) hOB2 (by decide) hpm
  rw [parseJSON, hPV]
  rfl

end Pysleep

